import Mathlib

/-!
FeatureExtraction: the tabular report, the binary descriptor stream and the loops of `main`

A shallow embedding of `exe/FeatureExtraction/FeatureExtraction.cpp`.

Conventions of the embedding.

* A stream written with `<<` is the list of the fields written to it, in order.  The header line is
  the list of its column names, a data row the list of its cells; the separating `", "` and the
  closing `endl` are the list structure.
* `double` and `float` values are rationals: the arithmetic of the driver (`0.5 * (1 - c)`,
  `frame_count * (1.0 / fps)`, the intrinsics) is carried out exactly.  A cell written with `<<`
  records the `setprecision` in force, the digits themselves are not rendered.
* The landmark detector, the gaze estimator and the face analyser are external: their state is a
  record of the values the driver reads from them.
* The sizes of the models (points, modes, eye landmarks) are natural numbers.
* A read of a vector element past its end has no defined result: the function gives `none`.
  This holds for every index `main` reads without a test: `input_files[f_n]`,
  `input_image_files[f_n][curr_img]`, `output_files[f_n]`, `output_hog_align_files[f_n]`,
  `tracked_videos_output[f_n]`, `output_codec[0..3]`, `output_similarity_align[f_n]`.
* An output stream that `main` opens is open: what is written to it is what the file holds.
  The tracked video is the constructor call of its writer; the images written to it are not
  recorded.
* The loop `while (!done)` runs on a budget of sessions; `main` supplies one session more than
  there are inputs, and the theorems on `main` show that the budget is not exhausted.
-/

namespace FeatureExtraction

/-! ## Data model -/

/-- One field of a data row of the tabular report. -/
inductive Cell where
  /-- An `int` written with `<<`. -/
  | int (n : Int)
  /-- A floating value written with `<<` under `setprecision precision`. -/
  | num (precision : Nat) (v : ℚ)
  /-- A `bool` written with `<<`. -/
  | flag (b : Bool)
  /-- The text `0`, written as the string `", 0"`. -/
  | zero
  deriving DecidableEq, Repr

/-- The number a cell stands for. -/
def Cell.value : Cell → ℚ
  | Cell.int n => n
  | Cell.num _ v => v
  | Cell.flag b => if b then 1 else 0
  | Cell.zero => 0

/-- The point distribution model of the landmark detector: only its two sizes are read. -/
structure PDM where
  NumberOfPoints : Nat
  NumberOfModes : Nat

/-- The state of `LandmarkDetector::CLNF` as far as the driver reads it.  `GetShape` and
`CalculateAllEyeLandmarks` are the results of the library calls of these names on the model. -/
structure CLNF where
  pdm : PDM
  detection_certainty : ℚ
  detection_success : Bool
  tracking_initialised : Bool
  eye_model : Bool
  detected_landmarks : Nat → ℚ
  params_global : Nat → ℚ
  params_local : Nat → ℚ
  GetShape : ℚ → ℚ → ℚ → ℚ → Nat → ℚ
  CalculateAllEyeLandmarks : List (ℚ × ℚ)

/-- The state of `FaceAnalysis::FaceAnalyser` as far as the driver reads it: the two AU name
lists and the two current score lists (`std::vector<std::pair<std::string, double>>`). -/
structure FaceAnalyser where
  GetAURegNames : List String
  GetAUClassNames : List String
  GetCurrentAUsReg : List (String × ℚ)
  GetCurrentAUsClass : List (String × ℚ)

/-- A `cv::Point3f`. -/
structure Point3f where
  x : ℚ
  y : ℚ
  z : ℚ

/-! ## The tabular encoder -/

/-- The call `std::sort(v.begin(), v.end())` on a `vector<string>`: ascending for `<` on strings. -/
def sortNames (names : List String) : List String :=
  names.insertionSort (· ≤ ·)

/-- The loop `for (int i = 0; i < n; ++i) *output_file << ", " << name << i;`. -/
def indexedColumns (name : String) (n : Nat) : List String :=
  (List.range n).map (fun i => name ++ toString i)

/-- The header line written by `prepareOutputFile`, as the list of its column names. -/
def prepareOutputFile (output_2D_landmarks output_3D_landmarks output_model_params output_pose
    output_AUs output_gaze : Bool) (num_landmarks num_eye_lmks num_model_modes : Nat)
    (au_names_class au_names_reg : List String) : List String :=
  ["frame", "timestamp", "confidence", "success"]
  ++ (if output_gaze then
        ["gaze_0_x", "gaze_0_y", "gaze_0_z", "gaze_1_x", "gaze_1_y", "gaze_1_z",
          "gaze_angle_x", "gaze_angle_y"]
        ++ indexedColumns "eye_lmk_x_" num_eye_lmks
        ++ indexedColumns "eye_lmk_y_" num_eye_lmks
      else [])
  ++ (if output_pose then
        ["pose_Tx", "pose_Ty", "pose_Tz", "pose_Rx", "pose_Ry", "pose_Rz"]
      else [])
  ++ (if output_2D_landmarks then
        indexedColumns "x_" num_landmarks ++ indexedColumns "y_" num_landmarks
      else [])
  ++ (if output_3D_landmarks then
        indexedColumns "X_" num_landmarks ++ indexedColumns "Y_" num_landmarks
        ++ indexedColumns "Z_" num_landmarks
      else [])
  ++ (if output_model_params then
        ["p_scale", "p_rx", "p_ry", "p_rz", "p_tx", "p_ty"]
        ++ indexedColumns "p_" num_model_modes
      else [])
  ++ (if output_AUs then
        (sortNames au_names_reg).map (fun reg_name => reg_name ++ "_r")
        ++ (sortNames au_names_class).map (fun class_name => class_name ++ "_c")
      else [])

/-- The loop `for (i = 0; i < n; ++i) if (tracking_initialised) << ", " << v(i); else << ", 0";`
at `setprecision precision`. -/
def trackedCells (tracking_initialised : Bool) (precision : Nat) (n : Nat) (v : Nat → ℚ) :
    List Cell :=
  (List.range n).map (fun i => if tracking_initialised then Cell.num precision (v i) else Cell.zero)

/-- The inner loop of the AU output, `for (auto au : aus) if (au_name.compare(au.first) == 0)`:
the score of the first entry of that name is written and the loop is left; nothing is written
when no entry has the name. -/
def writeFirstMatch (au_name : String) : List (String × ℚ) → List Cell
  | [] => []
  | au :: rest =>
    if au_name = au.1 then [Cell.num 4 au.2] else writeFirstMatch au_name rest

/-- The AU output of one kind (regression or class): the names are sorted, each sorted name runs
the inner loop over the current scores, and afterwards, if the score list is empty, one `0` is
written per name. -/
def writeAUs (au_names : List String) (aus : List (String × ℚ)) : List Cell :=
  ((sortNames au_names).map (fun au_name => writeFirstMatch au_name aus)).flatten
  ++ (if aus.length = 0 then List.replicate au_names.length Cell.zero else [])

/-- The four leading cells of a data row. -/
def leadingCells (face_model : CLNF) (frame_count : Nat) (time_stamp : ℚ)
    (detection_success : Bool) : List Cell :=
  [Cell.int ((frame_count : Int) + 1), Cell.num 9 time_stamp,
    Cell.num 2 ((1 / 2 : ℚ) * (1 - face_model.detection_certainty)), Cell.flag detection_success]

/-- The eight gaze cells: the two directions and the angle, written as they were passed in. -/
def gazeCells (gazeDirection0 gazeDirection1 : Point3f) (gaze_angle : ℚ × ℚ) : List Cell :=
  [Cell.num 5 gazeDirection0.x, Cell.num 5 gazeDirection0.y, Cell.num 5 gazeDirection0.z,
    Cell.num 5 gazeDirection1.x, Cell.num 5 gazeDirection1.y, Cell.num 5 gazeDirection1.z,
    Cell.num 5 gaze_angle.1, Cell.num 5 gaze_angle.2]

/-- The data row written by `outputAllFeatures`, as the list of its cells. -/
def outputAllFeatures (output_2D_landmarks output_3D_landmarks output_model_params output_pose
    output_AUs output_gaze : Bool) (face_model : CLNF) (frame_count : Nat) (time_stamp : ℚ)
    (detection_success : Bool) (gazeDirection0 gazeDirection1 : Point3f) (gaze_angle : ℚ × ℚ)
    (pose_estimate : Nat → ℚ) (fx fy cx cy : ℚ) (face_analyser : FaceAnalyser) : List Cell :=
  let eye_lmks := face_model.CalculateAllEyeLandmarks
  leadingCells face_model frame_count time_stamp detection_success
  ++ (if output_gaze then
        gazeCells gazeDirection0 gazeDirection1 gaze_angle
        ++ trackedCells face_model.tracking_initialised 5 eye_lmks.length
            (fun i => (eye_lmks.getD i (0, 0)).1)
        ++ trackedCells face_model.tracking_initialised 5 eye_lmks.length
            (fun i => (eye_lmks.getD i (0, 0)).2)
      else [])
  ++ (if output_pose then
        (if face_model.tracking_initialised then
          (List.range 6).map (fun i => Cell.num 4 (pose_estimate i))
        else List.replicate 6 Cell.zero)
      else [])
  ++ (if output_2D_landmarks then
        trackedCells face_model.tracking_initialised 4 (face_model.pdm.NumberOfPoints * 2)
          face_model.detected_landmarks
      else [])
  ++ (if output_3D_landmarks then
        trackedCells face_model.tracking_initialised 4 (face_model.pdm.NumberOfPoints * 3)
          (face_model.GetShape fx fy cx cy)
      else [])
  ++ (if output_model_params then
        trackedCells face_model.tracking_initialised 4 6 face_model.params_global
        ++ trackedCells face_model.tracking_initialised 4 face_model.pdm.NumberOfModes
            face_model.params_local
      else [])
  ++ (if output_AUs then
        writeAUs face_analyser.GetAURegNames face_analyser.GetCurrentAUsReg
        ++ writeAUs face_analyser.GetAUClassNames face_analyser.GetCurrentAUsClass
      else [])

/-- The score list of a frame agrees with the name list: it is empty, or it holds a score for each
name. -/
def scoresCover (au_names : List String) (aus : List (String × ℚ)) : Prop :=
  aus = [] ∨ ∀ n ∈ au_names, ∃ v, aus.lookup n = some v

/-! ## The binary descriptor encoder -/

/-- One 4-byte field of the binary descriptor stream, the unit of `hog_file->write(ptr, 4)`:
a signed 32-bit integer or a 32-bit float (the value converted with `(float)`). -/
inductive HogField where
  | int32 (v : Int)
  | float32 (v : ℚ)
  deriving DecidableEq, Repr

/-- The bytes one field occupies in the file: every `write` call passes the length 4. -/
def HogField.bytes (_ : HogField) : Nat := 4

/-- The bytes a sequence of fields occupies in the file. -/
def streamBytes (fields : List HogField) : Nat :=
  (fields.map HogField.bytes).sum

/-- A counted loop `for (i = 0; i < n; ++i) body` over a state, where the body can fail. -/
def forLoop {σ : Type} (n : Nat) (body : σ → Option σ) (s : σ) : Option σ :=
  match n with
  | 0 => some s
  | k + 1 => (body s).bind (forLoop k body)

/-- The body of the innermost loop, `hog_data = (float)(*descriptor_it++); write(&hog_data, 4)`.
The state is the fields written so far and the rest of the descriptor from the iterator on;
reading at the end of the descriptor has no defined result. -/
def writeHogData (s : List HogField × List ℚ) : Option (List HogField × List ℚ) :=
  match s.2 with
  | [] => none
  | v :: rest => some (s.1 ++ [HogField.float32 v], rest)

/-- The record written by one call of `output_HOG_frame`, as the list of its 4-byte fields;
`none` when the loops read past the end of the descriptor. -/
def output_HOG_frame (good_frame : Bool) (hog_descriptor : List ℚ) (num_rows num_cols : Int) :
    Option (List HogField) :=
  let num_channels : Int := 31
  let good_frame_float : ℚ := if good_frame then 1 else -1
  let header := [HogField.int32 num_cols, HogField.int32 num_rows, HogField.int32 num_channels,
    HogField.float32 good_frame_float]
  (forLoop num_cols.toNat (forLoop num_rows.toNat (forLoop 31 writeHogData))
    (header, hog_descriptor)).map Prod.fst

/-- The four header fields of a record, as a reader decodes them. -/
structure HogHeader where
  num_cols : Int
  num_rows : Int
  num_channels : Int
  good_frame : ℚ
  deriving DecidableEq, Repr

/-- The header a reader is to recover from the record of the call
`output_HOG_frame(good_frame, hog_descriptor, num_rows, num_cols)`. -/
def headerOf (call : Bool × List ℚ × Int × Int) : HogHeader :=
  { num_cols := call.2.2.2, num_rows := call.2.2.1, num_channels := 31,
    good_frame := if call.1 then 1 else -1 }

/-- The file written by successive calls of `output_HOG_frame`, one per entry
`(good_frame, hog_descriptor, num_rows, num_cols)`. -/
def hogStream : List (Bool × List ℚ × Int × Int) → Option (List HogField)
  | [] => some []
  | (good_frame, hog_descriptor, num_rows, num_cols) :: rest =>
    (output_HOG_frame good_frame hog_descriptor num_rows num_cols).bind
      (fun record => (hogStream rest).map (fun tail => record ++ tail))

/-- The reader the binary format is specified for, bounded by `fuel` records: it reads the four
header fields of a record, consumes `cols * rows * 31` floats, and goes on with the next record
until the stream ends.  `none` when the stream does not parse. -/
def readHogFramesAux : Nat → List HogField → Option (List HogHeader)
  | _, [] => some []
  | 0, _ :: _ => none
  | fuel + 1, HogField.int32 c :: HogField.int32 r :: HogField.int32 ch :: HogField.float32 g
      :: rest =>
    if (c * r * 31).toNat ≤ rest.length then
      (readHogFramesAux fuel (rest.drop (c * r * 31).toNat)).map
        (fun headers => (HogHeader.mk c r ch g) :: headers)
    else none
  | _ + 1, _ => none

/-- The reader run on a whole file: a record has at least four fields, so the number of fields
bounds the number of records. -/
def readHogFrames (stream : List HogField) : Option (List HogHeader) :=
  readHogFramesAux stream.length stream

/-! ## Image directories -/

/-- The file name of a path: what follows the last `/`. -/
def filenameChars (path : List Char) : List Char :=
  (path.reverse.takeWhile (fun c => c != '/')).reverse

/-- The library call `path::extension()` on a file name: empty for `.` and `..` and for a name
without a dot, otherwise the name from its last dot on. -/
def extensionChars (name : List Char) : List Char :=
  if name = ['.'] ∨ name = ['.', '.'] then []
  else if name.contains '.' then '.' :: (name.reverse.takeWhile (fun c => c != '.')).reverse
  else []

/-- The extension of a path, `file_iterator->extension().string()`. -/
def extension (path : String) : String :=
  String.mk (extensionChars (filenameChars path.toList))

/-- The test `extension().string().compare(".jpg") == 0 || ... compare(".png") == 0`. -/
def isImageFile (path : String) : Bool :=
  extension path = ".jpg" || extension path = ".png"

/-- The image list of one directory: the entries are sorted (`sort` on the vector of paths, which
for the entries of one directory is the order of their strings), then the `.jpg` and `.png`
ones are kept in that order. -/
def imageFilesOfDirectory (file_in_directory : List String) : List String :=
  (sortNames file_in_directory).filter isImageFile

/-- The function `get_image_input_output_params_feats`, by recursion on the arguments from index
`i` on.  `directory_iterator dir` is `some` of the entries of `dir` when `dir` exists and is a
directory.  The result is the image lists, `as_video` and the arguments that stay valid;
`none` when `-fdir` is the last argument, where `arguments[i + 1]` is read past the end. -/
def get_image_input_output_params_feats (directory_iterator : String → Option (List String))
    (input_image_files : List (List String)) (as_video : Bool) :
    List String → Option (List (List String) × Bool × List String)
  | [] => some (input_image_files, as_video, [])
  | argument :: rest =>
    if argument = "-fdir" then
      match rest with
      | [] => none
      | image_directory :: rest2 =>
        match directory_iterator image_directory with
        | some file_in_directory =>
          get_image_input_output_params_feats directory_iterator
            (input_image_files ++ [imageFilesOfDirectory file_in_directory]) as_video rest2
        | none =>
          get_image_input_output_params_feats directory_iterator input_image_files as_video rest2
    else
      (get_image_input_output_params_feats directory_iterator input_image_files
          (if argument = "-asvid" then true else as_video) rest).map
        (fun r => (r.1, r.2.1, argument :: r.2.2))

/-! ## Camera intrinsics -/

/-- The four camera parameters of `main`. -/
structure Intrinsics where
  fx : ℚ
  fy : ℚ
  cx : ℚ
  cy : ℚ
  deriving DecidableEq, Repr

/-- The flag `cx_undefined` of `main`, from the configured values. -/
def cx_undefined (configured : Intrinsics) : Bool :=
  configured.cx = 0 || configured.cy = 0

/-- The flag `fx_undefined` of `main`, from the configured values. -/
def fx_undefined (configured : Intrinsics) : Bool :=
  configured.fx = 0 || configured.fy = 0

/-- The intrinsics after the two `if` blocks at the start of a session, for a first frame of
`cols` by `rows` pixels. -/
def resolveIntrinsics (cx_undefined fx_undefined : Bool) (camera : Intrinsics) (cols rows : Nat) :
    Intrinsics :=
  let camera1 : Intrinsics :=
    if cx_undefined then
      { camera with cx := (cols : ℚ) / 2, cy := (rows : ℚ) / 2 }
    else camera
  if fx_undefined then
    let fx : ℚ := 500 * ((cols : ℚ) / 640)
    let fy : ℚ := 500 * ((rows : ℚ) / 480)
    let fx2 : ℚ := (fx + fy) / 2
    { camera1 with fx := fx2, fy := fx2 }
  else camera1

/-! ## The session loop of `main`

Visualisation, progress reporting and the tracked-video writer are left out: they write to none of
the streams below and do not change the control flow.  Opening an output file succeeds. -/

/-- A captured, non-empty image, with what the external capabilities return when the driver
calls them on it. -/
structure Frame where
  /-- The width `captured_image.cols`. -/
  cols : Nat
  /-- The height `captured_image.rows`. -/
  rows : Nat
  /-- The landmark model after `DetectLandmarksInVideo` or `DetectLandmarksInImage`. -/
  detected : CLNF
  /-- The value returned by the detection call. -/
  detection_success : Bool
  /-- The result of `GetPose`. -/
  pose_estimate : Nat → ℚ
  /-- The direction `EstimateGaze` gives for the first eye. -/
  EstimateGaze0 : Point3f
  /-- The direction `EstimateGaze` gives for the second eye. -/
  EstimateGaze1 : Point3f
  /-- The result of `GetGazeAngle`. -/
  GetGazeAngle : ℚ × ℚ
  /-- The analyser after `AddNextFrame`. -/
  analysed : FaceAnalyser
  /-- The descriptor and sizes given by `GetLatestHOG`. -/
  hog_descriptor : List ℚ
  num_hog_rows : Int
  num_hog_cols : Int
  /-- The result of `imwrite` for the aligned face of this frame. -/
  write_success : Bool
  /-- The key returned by `cv::waitKey(1)` after this frame. -/
  character_press : Char

/-- An opened `cv::VideoCapture`: the frames it decodes and its `CV_CAP_PROP_FPS`, `none` for a
NaN. -/
structure Video where
  frames : List Frame
  fps : Option ℚ

/-- The world outside the driver. -/
structure Environment where
  /-- Opening a video file; `none` when `isOpened()` is false. -/
  VideoCapture : String → Option Video
  /-- Reading an image file; `none` for an empty image. -/
  imread : String → Option Frame
  /-- The call `face_model.Reset()`. -/
  model_Reset : CLNF → CLNF
  /-- The call `face_analyser.Reset()`. -/
  analyser_Reset : FaceAnalyser → FaceAnalyser

/-- The locals of `main` that are fixed once the arguments are parsed. -/
structure Parameters where
  input_files : List String
  output_files : List String
  input_image_files : List (List String)
  images_as_video : Bool
  video_input : Bool
  output_similarity_align : List String
  output_hog_align_files : List String
  tracked_videos_output : List String
  output_codec : String
  output_2D_landmarks : Bool
  output_3D_landmarks : Bool
  output_model_params : Bool
  output_pose : Bool
  output_AUs : Bool
  output_gaze : Bool
  quiet_mode : Bool
  track_gaze : Bool
  cx_undefined : Bool
  fx_undefined : Bool

/-- The variables of `main` that change while a session runs, and the streams written. -/
structure SessionState where
  frame_count : Nat
  camera : Intrinsics
  face_model : CLNF
  face_analyser : FaceAnalyser
  /-- The data rows written to `output_file`. -/
  output_file : List (List Cell)
  /-- The fields written to `hog_output_file`. -/
  hog_output_file : List HogField
  /-- The aligned faces written: directory and the number in `frame_det_%06d.bmp`. -/
  aligned_files : List (String × Nat)
  /-- The files passed to `imread`, in order. -/
  imread_calls : List String
  /-- The intrinsics passed to `GetPose`, one entry per frame. -/
  pose_calls : List Intrinsics

/-- The frame rate of an opened video: the metadata value, or 30 when it is NaN or not positive. -/
def resolveFps (fps : Option ℚ) : ℚ :=
  match fps with
  | none => 30
  | some v => if v ≤ 0 then 30 else v

/-- The time stamp of the frame at the head of the loop body. -/
def timeStamp (P : Parameters) (fps_vid_in : ℚ) (frame_count : Nat) : ℚ :=
  if P.video_input then (frame_count : ℚ) * (1 / fps_vid_in)
  else (frame_count : ℚ) * (1 / 30)

/-- The gaze values of the frame: the two directions start as `(0, 0, -1)` and the angle as
`(0, 0)`, and the estimator is called when gaze is tracked, the detection succeeded and the model
has an eye model. -/
def gazeOutputs (P : Parameters) (frame : Frame) : Point3f × Point3f × (ℚ × ℚ) :=
  if P.track_gaze && frame.detection_success && frame.detected.eye_model then
    (frame.EstimateGaze0, frame.EstimateGaze1, frame.GetGazeAngle)
  else (⟨0, 0, -1⟩, ⟨0, 0, -1⟩, (0, 0))

/-- The analyser after the alignment step, which runs only when an output needs it. -/
def analyserAfter (P : Parameters) (s : SessionState) (frame : Frame) : FaceAnalyser :=
  if !P.output_similarity_align.isEmpty || !P.output_hog_align_files.isEmpty || P.output_AUs then
    frame.analysed
  else s.face_analyser

/-- The row `outputAllFeatures` writes for the frame. -/
def frameRow (P : Parameters) (fps_vid_in : ℚ) (s : SessionState) (frame : Frame) : List Cell :=
  outputAllFeatures P.output_2D_landmarks P.output_3D_landmarks P.output_model_params
    P.output_pose P.output_AUs P.output_gaze frame.detected s.frame_count
    (timeStamp P fps_vid_in s.frame_count) frame.detection_success (gazeOutputs P frame).1
    (gazeOutputs P frame).2.1 (gazeOutputs P frame).2.2 frame.pose_estimate
    s.camera.fx s.camera.fy s.camera.cx s.camera.cy (analyserAfter P s frame)

/-- Writing a row to `output_file`, which is open when an output file was given. -/
def writeRow (P : Parameters) (row : List Cell) (s : SessionState) : SessionState :=
  if P.output_files.isEmpty then s else { s with output_file := s.output_file ++ [row] }

/-- The body of the tracking loop for the captured frame, up to and including the call of
`outputAllFeatures`.  The second component is `some 1` when `main` returns because the aligned
face could not be written; `none` when an index is read out of range. -/
def processFrame (P : Parameters) (fps_vid_in : ℚ) (f_n : Nat) (s : SessionState) (frame : Frame) :
    Option (SessionState × Option Int) :=
  let hog_record : Option (List HogField) :=
    if !P.output_hog_align_files.isEmpty then
      output_HOG_frame frame.detection_success frame.hog_descriptor frame.num_hog_rows
        frame.num_hog_cols
    else some []
  match hog_record with
  | none => none
  | some record =>
    let s1 : SessionState :=
      { s with face_model := frame.detected, face_analyser := analyserAfter P s frame,
               hog_output_file := s.hog_output_file ++ record,
               pose_calls := s.pose_calls ++ [s.camera] }
    if P.output_similarity_align.isEmpty then
      some (writeRow P (frameRow P fps_vid_in s frame) s1, none)
    else
      match P.output_similarity_align.get? f_n with
      | none => none
      | some directory =>
        if frame.write_success then
          some (writeRow P (frameRow P fps_vid_in s frame)
            { s1 with aligned_files := s1.aligned_files ++ [(directory, s.frame_count + 1)] },
            none)
        else some (s1, some 1)

/-- The step that fetches the next image: `video_capture >> captured_image` for a video, the next
file of the image list otherwise.  Gives the captured image, the rest of the video, the image
index and the file read, if one was. -/
def nextFrame (P : Parameters) (E : Environment) (f_n : Nat) (video_capture : List Frame)
    (curr_img : Nat) : Option Frame × List Frame × Nat × List String :=
  if P.video_input then
    match video_capture with
    | [] => (none, [], curr_img, [])
    | frame :: rest => (some frame, rest, curr_img, [])
  else
    let files := P.input_image_files.getD f_n []
    if curr_img + 1 < files.length then
      (E.imread (files.getD (curr_img + 1) ""), video_capture, curr_img + 1,
        [files.getD (curr_img + 1) ""])
    else (none, video_capture, curr_img + 1, [])

/-- A bound on the iterations the tracking loop still makes: the frames left in the video, the
files left in the image list, and one for a captured image. -/
def remainingSteps (P : Parameters) (f_n : Nat) (video_capture : List Frame) (curr_img : Nat)
    (captured_image : Option Frame) : Nat :=
  video_capture.length + ((P.input_image_files.getD f_n []).length - curr_img)
    + (if captured_image.isSome then 1 else 0)

/-- The loop `while (!captured_image.empty())` of `main`.  The result is the state when the loop
is left and `some code` when `main` returned from inside the loop (`1` for a failed aligned-face
write, `0` for the key `q`); `none` when an index is read out of range. -/
def trackingLoop (P : Parameters) (E : Environment) (fps_vid_in : ℚ) (f_n : Nat)
    (video_capture : List Frame) (curr_img : Nat) (captured_image : Option Frame)
    (s : SessionState) : Option (SessionState × Option Int) :=
  match captured_image with
  | none => some (s, none)
  | some frame =>
    match processFrame P fps_vid_in f_n s frame with
    | none => none
    | some (s1, some code) => some (s1, some code)
    | some (s1, none) =>
      let s2 : SessionState :=
        { s1 with imread_calls :=
            s1.imread_calls ++ (nextFrame P E f_n video_capture curr_img).2.2.2 }
      if !P.quiet_mode && frame.character_press = 'r' then
        trackingLoop P E fps_vid_in f_n (nextFrame P E f_n video_capture curr_img).2.1
          (nextFrame P E f_n video_capture curr_img).2.2.1
          (nextFrame P E f_n video_capture curr_img).1
          { s2 with face_model := E.model_Reset s2.face_model,
                    frame_count := s2.frame_count + 1 }
      else if !P.quiet_mode && frame.character_press = 'q' then some (s2, some 0)
      else
        trackingLoop P E fps_vid_in f_n (nextFrame P E f_n video_capture curr_img).2.1
          (nextFrame P E f_n video_capture curr_img).2.2.1
          (nextFrame P E f_n video_capture curr_img).1
          { s2 with frame_count := s2.frame_count + 1 }
termination_by remainingSteps P f_n video_capture curr_img captured_image
decreasing_by
  all_goals
    unfold nextFrame remainingSteps
    generalize P.input_image_files.getD f_n [] = files
    by_cases hv : P.video_input = true
    · cases video_capture with
      | nil => simp [hv]
      | cons a rest => simp [hv]
    · simp only [hv]
      by_cases hlt : curr_img + 1 < files.length
      · simp only [hlt, if_true]
        cases E.imread (files.getD (curr_img + 1) "") with
        | none => simp; omega
        | some img => simp only [Option.isSome_some, if_true, Bool.false_eq_true, if_false]; omega
      · simp only [hlt, if_false, Option.isSome_none, Option.isSome_some, if_true,
          Bool.false_eq_true]
        omega

/-- The variables of `main` that live across sessions. -/
structure RunState where
  f_n : Int
  curr_img : Int
  camera : Intrinsics
  face_model : CLNF
  face_analyser : FaceAnalyser

/-- The source of a session once opened, with its first image captured. -/
structure OpenedSource where
  current_file : String
  f_n : Nat
  curr_img : Nat
  fps_vid_in : ℚ
  video_capture : List Frame
  captured_image : Option Frame
  imread_calls : List String

/-- The first part of the body of `while (!done)`: the input of the session is selected and
opened and its first image captured.  `Except.error 1` when `main` returns because the video
cannot be opened or the image list is empty; `none` when an index is read out of range. -/
def openSource (P : Parameters) (E : Environment) (r : RunState) :
    Option (Except Int OpenedSource) :=
  if P.video_input then
    let f_n : Nat := if 0 < P.input_files.length then (r.f_n + 1).toNat else 0
    let current_file : Option String :=
      if 0 < P.input_files.length then P.input_files.get? f_n else some ""
    current_file.bind (fun file =>
      if 0 < file.length then
        match E.VideoCapture file with
        | none => some (Except.error 1)
        | some video =>
          some (Except.ok
            { current_file := file, f_n := f_n, curr_img := r.curr_img.toNat,
              fps_vid_in := resolveFps video.fps,
              video_capture := video.frames.tail, captured_image := video.frames.head?,
              imread_calls := [] })
      else some (Except.error 1))
  else
    let f_n : Nat := (r.f_n + 1).toNat
    let curr_img : Nat := (r.curr_img + 1).toNat
    (P.input_image_files.get? f_n).bind (fun files =>
      if files.isEmpty then some (Except.error 1)
      else
        (files.get? curr_img).bind (fun curr_img_file =>
          some (Except.ok
            { current_file := "", f_n := f_n, curr_img := curr_img, fps_vid_in := 30,
              video_capture := [], captured_image := E.imread curr_img_file,
              imread_calls := [curr_img_file] })))

/-- The arguments of the constructor call `cv::VideoWriter(filename, fourcc, fps, frameSize,
true)`. -/
structure VideoWriter where
  filename : String
  fourcc : List Char
  fps : ℚ
  cols : Nat
  rows : Nat

/-- The characters `output_codec[0]`, ..., `output_codec[3]` passed to `CV_FOURCC`.  The element
at the length of a string is the null character; an element further on does not exist. -/
def fourcc (output_codec : String) : Option (List Char) :=
  if 3 ≤ output_codec.length then some ((output_codec.toList ++ [Char.ofNat 0]).take 4) else none

/-- The construction of `writerFace`: no call when no tracked video is asked for; otherwise the
call with `tracked_videos_output[f_n]`, the codec characters, the frame rate of the session and
the size of the first image.  `none` when an index is read out of range. -/
def openWriter (P : Parameters) (f_n : Nat) (fps_vid_in : ℚ) (cols rows : Nat) :
    Option (Option VideoWriter) :=
  if P.tracked_videos_output.isEmpty then some none
  else
    match P.tracked_videos_output.get? f_n, fourcc P.output_codec with
    | some filename, some code => some (some ⟨filename, code, fps_vid_in, cols, rows⟩)
    | _, _ => none

/-- What one pass through the body of `while (!done)` leaves behind. -/
structure SessionResult where
  /-- The exit code when `main` returned during the session. -/
  returned : Option Int
  /-- The source opened for the session, when one was opened. -/
  source : Option OpenedSource
  /-- The file `output_file` was opened on, when it was opened. -/
  output_file_name : Option String
  /-- The construction of `writerFace`, when a tracked video is asked for. -/
  writerFace : Option VideoWriter
  /-- The header line, when `output_file` was opened. -/
  header : Option (List String)
  /-- The state when the tracking loop was left, with the streams written. -/
  state : SessionState
  /-- Whether `PostprocessOutputFile` was called. -/
  postprocessed : Bool
  /-- The variables of `main` for the next session. -/
  run : RunState
  /-- The flag `done`. -/
  done : Bool

/-- One pass through the body of `while (!done)`: a session.  `none` when an index is read out
of range.  The images drawn on and written to the tracked video are not recorded: the write
`writerFace << captured_image` reads no index and has no result. -/
def session (P : Parameters) (E : Environment) (r : RunState) : Option SessionResult :=
  let start (camera : Intrinsics) (reads : List String) : SessionState :=
    { frame_count := 0, camera := camera, face_model := r.face_model,
      face_analyser := r.face_analyser, output_file := [], hog_output_file := [],
      aligned_files := [], imread_calls := reads, pose_calls := [] }
  match openSource P E r with
  | none => none
  | some (Except.error code) =>
    some { returned := some code, source := none, output_file_name := none, writerFace := none,
           header := none, state := start r.camera [], postprocessed := false, run := r,
           done := false }
  | some (Except.ok src) =>
    let cols : Nat := (src.captured_image.map Frame.cols).getD 0
    let rows : Nat := (src.captured_image.map Frame.rows).getD 0
    let camera := resolveIntrinsics P.cx_undefined P.fx_undefined r.camera cols rows
    let header : Option (List String) :=
      if P.output_files.isEmpty then none
      else some (prepareOutputFile P.output_2D_landmarks P.output_3D_landmarks
        P.output_model_params P.output_pose P.output_AUs P.output_gaze
        r.face_model.pdm.NumberOfPoints r.face_model.CalculateAllEyeLandmarks.length
        r.face_model.pdm.NumberOfModes r.face_analyser.GetAUClassNames
        r.face_analyser.GetAURegNames)
    let output_file_name : Option String :=
      if P.output_files.isEmpty then none else P.output_files.get? src.f_n
    let writerFace : Option (Option VideoWriter) :=
      openWriter P src.f_n src.fps_vid_in cols rows
    if (!P.output_files.isEmpty && (P.output_files.get? src.f_n).isNone)
        || (!P.output_hog_align_files.isEmpty && (P.output_hog_align_files.get? src.f_n).isNone)
        || writerFace.isNone
    then none
    else
      match trackingLoop P E src.fps_vid_in src.f_n src.video_capture src.curr_img
          src.captured_image (start camera src.imread_calls) with
      | none => none
      | some (s, some code) =>
        some { returned := some code, source := some src, output_file_name := output_file_name,
               writerFace := writerFace.join, header := header, state := s,
               postprocessed := false, run := { r with f_n := src.f_n, camera := camera },
               done := false }
      | some (s, none) =>
        some { returned := none, source := some src, output_file_name := output_file_name,
               writerFace := writerFace.join, header := header, state := s,
               postprocessed := !P.output_files.isEmpty && P.output_AUs,
               run := { f_n := src.f_n, curr_img := -1, camera := camera,
                        face_model := E.model_Reset s.face_model,
                        face_analyser := E.analyser_Reset s.face_analyser },
               done := (P.video_input && ((src.f_n : Int) = P.input_files.length - 1))
                 || (!P.video_input && ((src.f_n : Int) = P.input_image_files.length - 1)) }

/-! ## The loop over the inputs in `main` -/

/-- The loop `while (!done)` of `main`, for at most `fuel` sessions.  The result is the exit code
of `main` and the sessions made, in order; `none` when an index is read out of range, or when
`fuel` sessions did not end the loop. -/
def mainLoop (P : Parameters) (E : Environment) : Nat → RunState → Option (Int × List SessionResult)
  | 0, _ => none
  | fuel + 1, r =>
    match session P E r with
    | none => none
    | some res =>
      match res.returned with
      | some code => some (code, [res])
      | none =>
        if res.done then some (0, [res])
        else (mainLoop P E fuel res.run).map (fun out => (out.1, res :: out.2))

/-- The function `main` from the parsed parameters on: the two flags of the intrinsics are taken
from the configured values, gaze is always tracked, `f_n` and `curr_img` start at -1.  Every
session but the last one advances `f_n`, so one more than the number of inputs bounds the
number of sessions. -/
def main (P : Parameters) (E : Environment) (configured : Intrinsics) (face_model : CLNF)
    (face_analyser : FaceAnalyser) : Option (Int × List SessionResult) :=
  mainLoop
    { P with track_gaze := true, cx_undefined := cx_undefined configured,
             fx_undefined := fx_undefined configured }
    E (P.input_files.length + P.input_image_files.length + 1)
    { f_n := -1, curr_img := -1, camera := configured, face_model := face_model,
      face_analyser := face_analyser }

/-- A call of the gaze estimator: `EstimateGaze` for the left eye (`true`) or the right one, or
`GetGazeAngle`. -/
inductive GazeCall where
  | EstimateGaze (left_eye : Bool)
  | GetGazeAngle
  deriving DecidableEq, Repr

/-- The calls of the gaze estimator `main` makes for a frame, in order. -/
def gazeCalls (P : Parameters) (frame : Frame) : List GazeCall :=
  if P.track_gaze && frame.detection_success && frame.detected.eye_model then
    [GazeCall.EstimateGaze true, GazeCall.EstimateGaze false, GazeCall.GetGazeAngle]
  else []

/-! ## The output arguments -/

/-- The first loop of `get_output_feature_params`, from index `i` on: the output root is the value
after the last `-root` or `-outroot`, followed by the separator.  After a `-root` the second `if`
of the loop body looks at the value itself.  `none` when `arguments[i + 1]` is read past the end
of the arguments. -/
def outputRoot (separator : String) (output_root : String) : List String → Option String
  | [] => some output_root
  | argument :: rest =>
    if argument = "-root" then
      match rest with
      | [] => none
      | value :: rest2 =>
        if value = "-outroot" then
          match rest2 with
          | [] => none
          | value2 :: rest3 => outputRoot separator (value2 ++ separator) rest3
        else outputRoot separator (value ++ separator) rest2
    else if argument = "-outroot" then
      match rest with
      | [] => none
      | value :: rest2 => outputRoot separator (value ++ separator) rest2
    else outputRoot separator output_root rest

/-- The values `get_output_feature_params` gives back through its reference parameters. -/
structure OutputFeatureParams where
  output_similarity_aligned : List String
  output_hog_aligned_files : List String
  verbose : Bool
  output_2D_landmarks : Bool
  output_3D_landmarks : Bool
  output_model_params : Bool
  output_pose : Bool
  output_AUs : Bool
  output_gaze : Bool
  /-- The arguments that stay valid, in order. -/
  arguments : List String
  deriving DecidableEq, Repr

/-- The second loop of `get_output_feature_params`, from index `i` on, with the removal of the
arguments marked as not valid.  `none` when `arguments[i + 1]` is read past the end of the
arguments. -/
def parseOutputFlags (output_root : String) (p : OutputFeatureParams) :
    List String → Option OutputFeatureParams
  | [] => some p
  | argument :: rest =>
    if argument = "-simalign" then
      match rest with
      | [] => none
      | value :: rest2 =>
        parseOutputFlags output_root
          { p with output_similarity_aligned :=
              p.output_similarity_aligned ++ [output_root ++ value] } rest2
    else if argument = "-hogalign" then
      match rest with
      | [] => none
      | value :: rest2 =>
        parseOutputFlags output_root
          { p with output_hog_aligned_files :=
              p.output_hog_aligned_files ++ [output_root ++ value] } rest2
    else if argument = "-verbose" then
      parseOutputFlags output_root
        { p with verbose := true, arguments := p.arguments ++ [argument] } rest
    else if argument = "-no2Dfp" then
      parseOutputFlags output_root { p with output_2D_landmarks := false } rest
    else if argument = "-no3Dfp" then
      parseOutputFlags output_root { p with output_3D_landmarks := false } rest
    else if argument = "-noMparams" then
      parseOutputFlags output_root { p with output_model_params := false } rest
    else if argument = "-noPose" then
      parseOutputFlags output_root { p with output_pose := false } rest
    else if argument = "-noAUs" then
      parseOutputFlags output_root { p with output_AUs := false } rest
    else if argument = "-noGaze" then
      parseOutputFlags output_root { p with output_gaze := false } rest
    else parseOutputFlags output_root { p with arguments := p.arguments ++ [argument] } rest

/-- The function `get_output_feature_params`: the two output lists are cleared, the output root is
found, the flags are read and the arguments used are removed.  The creation of the output
directories is left out.  `none` when an argument is read past the end of the list. -/
def get_output_feature_params (separator : String) (verbose output_2D_landmarks
    output_3D_landmarks output_model_params output_pose output_AUs output_gaze : Bool)
    (arguments : List String) : Option OutputFeatureParams :=
  (outputRoot separator "" arguments).bind (fun output_root =>
    parseOutputFlags output_root
      { output_similarity_aligned := [], output_hog_aligned_files := [], verbose := verbose,
        output_2D_landmarks := output_2D_landmarks, output_3D_landmarks := output_3D_landmarks,
        output_model_params := output_model_params, output_pose := output_pose,
        output_AUs := output_AUs, output_gaze := output_gaze, arguments := [] }
      arguments)

/-! ## Runs that reach the end of the source -/

/-- The HOG record of the frame is written: no HOG file is open, or the descriptor holds the
values `output_HOG_frame` reads. -/
def hogRecordWritten (P : Parameters) (frame : Frame) : Bool :=
  P.output_hog_align_files.isEmpty
    || (output_HOG_frame frame.detection_success frame.hog_descriptor frame.num_hog_rows
          frame.num_hog_cols).isSome

/-- The aligned face of the frame is written: no aligned output is asked for, or the session has
its directory and `imwrite` succeeds. -/
def alignedFaceWritten (P : Parameters) (f_n : Nat) (frame : Frame) : Bool :=
  P.output_similarity_align.isEmpty
    || ((P.output_similarity_align.get? f_n).isSome && frame.write_success)

/-- The key `q` is received after the frame: only in interactive mode is a key polled. -/
def quitKey (P : Parameters) (frame : Frame) : Bool :=
  !P.quiet_mode && frame.character_press = 'q'

/-- The loop body runs to its end on the frame and the loop goes on: the outputs of the frame are
written and `main` does not return on the key `q`. -/
def frameCompletes (P : Parameters) (f_n : Nat) (frame : Frame) : Bool :=
  hogRecordWritten P frame && alignedFaceWritten P f_n frame && !quitKey P frame

/-- The output files of session `f_n` exist: a list of output files (reports, HOG files, tracked
videos) that is not empty has an entry for the session, and with a tracked video the codec
string has the characters read from it. -/
def outputsInRange (P : Parameters) (f_n : Nat) : Bool :=
  (P.output_files.isEmpty || (P.output_files.get? f_n).isSome)
    && (P.output_hog_align_files.isEmpty || (P.output_hog_align_files.get? f_n).isSome)
    && (P.tracked_videos_output.isEmpty
        || ((P.tracked_videos_output.get? f_n).isSome && decide (3 ≤ P.output_codec.length)))

/-! ## Example values -/

/-- A landmark model with no points, no modes and no eye landmarks, tracking not initialised. -/
def blankModel : CLNF :=
  { pdm := ⟨0, 0⟩, detection_certainty := 1, detection_success := false,
    tracking_initialised := false, eye_model := false, detected_landmarks := fun _ => 0,
    params_global := fun _ => 0, params_local := fun _ => 0, GetShape := fun _ _ _ _ _ => 0,
    CalculateAllEyeLandmarks := [] }

/-- A landmark model with two points, one mode and one eye landmark, tracking not initialised. -/
def lostModel : CLNF :=
  { pdm := ⟨2, 1⟩, detection_certainty := 1 / 2, detection_success := false,
    tracking_initialised := false, eye_model := true, detected_landmarks := fun i => i + 1,
    params_global := fun i => i + 2, params_local := fun i => i + 3,
    GetShape := fun _ _ _ _ i => i + 4, CalculateAllEyeLandmarks := [(5, 6)] }

/-- The analyser of the example of the specification: regression names `AU01`, `AU12`, class
name `AU04`, and a frame whose only score is `AU12 = 0.7`. -/
def partAnalyser : FaceAnalyser :=
  { GetAURegNames := ["AU01", "AU12"], GetAUClassNames := ["AU04"],
    GetCurrentAUsReg := [("AU12", 7 / 10)], GetCurrentAUsClass := [] }

/-- The direction `(0, 0, -1)` that `main` passes for an eye when gaze is not estimated. -/
def forwardGaze : Point3f := ⟨0, 0, -1⟩

/-- A 640 by 480 frame on which the detection fails, followed by the key `key`. -/
def exampleFrame (key : Char) : Frame :=
  { cols := 640, rows := 480, detected := lostModel, detection_success := false,
    pose_estimate := fun _ => 0, EstimateGaze0 := ⟨1, 0, 0⟩, EstimateGaze1 := ⟨1, 0, 0⟩,
    GetGazeAngle := (1, 1), analysed := partAnalyser, hog_descriptor := [], num_hog_rows := 0,
    num_hog_cols := 0, write_success := true, character_press := key }

/-- A 1280 by 720 frame. -/
def wideFrame : Frame :=
  { exampleFrame ' ' with cols := 1280, rows := 720 }

/-- The parameters of a run on the video `in.avi` with the report `out.csv` and all six blocks
enabled, in quiet or in interactive mode, intrinsics not configured. -/
def videoParameters (quiet_mode : Bool) : Parameters :=
  { input_files := ["in.avi"], output_files := ["out.csv"], input_image_files := [],
    images_as_video := false, video_input := true, output_similarity_align := [],
    output_hog_align_files := [], tracked_videos_output := [], output_codec := "DIVX",
    output_2D_landmarks := true, output_3D_landmarks := true,
    output_model_params := true, output_pose := true, output_AUs := true, output_gaze := true,
    quiet_mode := quiet_mode, track_gaze := true, cx_undefined := true, fx_undefined := true }

/-- The parameters of a quiet run on one image list, with the report `out.csv`. -/
def imageParameters (files : List String) : Parameters :=
  { videoParameters true with input_files := [], input_image_files := [files],
                              video_input := false }

/-- A world in which `in.avi` decodes to the given frames at 25 frames per second, and every image
file but `d/b.png` can be read. -/
def exampleEnvironment (frames : List Frame) : Environment :=
  { VideoCapture := fun file => if file = "in.avi" then some ⟨frames, some 25⟩ else none,
    imread := fun file => if file = "d/b.png" then none else some (exampleFrame ' '),
    model_Reset := fun m => m, analyser_Reset := fun a => a }

/-- A file system with the one directory `d`, holding the given entries. -/
def exampleDirectory (entries : List String) : String → Option (List String) :=
  fun image_directory => if image_directory = "d" then some entries else none

/-- The variables of `main` before the first session, intrinsics not configured. -/
def startRun : RunState :=
  { f_n := -1, curr_img := -1, camera := ⟨0, 0, 0, 0⟩, face_model := blankModel,
    face_analyser := partAnalyser }

/-- The parameters of a run on two videos, `in.avi` twice, with two reports. -/
def twoVideoParameters (quiet_mode : Bool) : Parameters :=
  { videoParameters quiet_mode with input_files := ["in.avi", "in.avi"],
                                    output_files := ["out0.csv", "out1.csv"] }

/-- The parameters of a quiet run on two videos, `in.avi` twice, with two reports and two
tracked videos. -/
def trackedVideoParameters : Parameters :=
  { twoVideoParameters true with tracked_videos_output := ["t0.avi", "t1.avi"] }

/-- Configured intrinsics with the focal length `fy` and nothing else left at 0. -/
def halfConfigured : Intrinsics := ⟨600, 0, 320, 250⟩

/-- The parameters of a quiet run on `in.avi` with the intrinsics `halfConfigured`: the optical
centre is defined, the focal length is not. -/
def halfConfiguredParameters : Parameters :=
  { videoParameters true with cx_undefined := false, fx_undefined := true }

/-- The variables of `main` before the first session, with the intrinsics `halfConfigured`. -/
def halfConfiguredRun : RunState :=
  { startRun with camera := halfConfigured }

/-- The state of a session at the head of the loop body for its first frame. -/
def firstFrameState : SessionState :=
  { frame_count := 0, camera := ⟨500, 500, 320, 240⟩, face_model := blankModel,
    face_analyser := partAnalyser, output_file := [], hog_output_file := [],
    aligned_files := [], imread_calls := [], pose_calls := [] }

/-- The state the loop body leaves when it ran on `exampleFrame key` as the first frame of an
interactive video session at 25 frames a second. -/
def afterFirstFrame (key : Char) : SessionState :=
  writeRow (videoParameters false)
    (frameRow (videoParameters false) 25 firstFrameState (exampleFrame key))
    { firstFrameState with
        face_model := (exampleFrame key).detected
        face_analyser := analyserAfter (videoParameters false) firstFrameState (exampleFrame key)
        pose_calls := [firstFrameState.camera] }

/-! ## Theorems: the tabular encoder -/

theorem length_indexedColumns (name : String) (n : Nat) : (indexedColumns name n).length = n := by
  simp [indexedColumns]

theorem length_trackedCells (t : Bool) (p n : Nat) (v : Nat → ℚ) :
    (trackedCells t p n v).length = n := by
  simp [trackedCells]

theorem trackedCells_false (p n : Nat) (v : Nat → ℚ) :
    trackedCells false p n v = List.replicate n Cell.zero := by
  simp only [trackedCells, Bool.false_eq_true, if_false]
  induction n with
  | zero => rfl
  | succ k ih => rw [List.range_succ, List.map_append, ih, List.replicate_succ']; rfl

theorem length_sortNames (names : List String) : (sortNames names).length = names.length := by
  simp [sortNames, List.length_insertionSort]

theorem sortNames_sorted (names : List String) : (sortNames names).Sorted (· ≤ ·) :=
  List.sorted_insertionSort _ names

theorem sortNames_perm (names : List String) : (sortNames names).Perm names :=
  List.perm_insertionSort _ names

/-- C6: for every combination of the six switches and all counts, the header is the four leading
columns followed by the enabled blocks in the order gaze, pose, 2D landmarks, 3D landmarks, model
parameters, AU regression (the sorted regression names with `_r`), AU class (the sorted class
names with `_c`); the blocks have the widths `8 + 2e`, `6`, `2n`, `3n`, `6 + m`, the number of
regression names and the number of class names, and the column count of the header is 4 plus
the widths of the enabled blocks. -/
theorem prepareOutputFile_layout (num_landmarks num_eye_lmks num_model_modes : Nat)
    (au_names_class au_names_reg : List String) :
    (∀ o2D o3D oParams oPose oAUs oGaze : Bool,
      prepareOutputFile o2D o3D oParams oPose oAUs oGaze num_landmarks num_eye_lmks
          num_model_modes au_names_class au_names_reg
        = ["frame", "timestamp", "confidence", "success"]
          ++ (if oGaze then
                ["gaze_0_x", "gaze_0_y", "gaze_0_z", "gaze_1_x", "gaze_1_y", "gaze_1_z",
                  "gaze_angle_x", "gaze_angle_y"]
                ++ indexedColumns "eye_lmk_x_" num_eye_lmks
                ++ indexedColumns "eye_lmk_y_" num_eye_lmks
              else [])
          ++ (if oPose then ["pose_Tx", "pose_Ty", "pose_Tz", "pose_Rx", "pose_Ry", "pose_Rz"]
              else [])
          ++ (if o2D then indexedColumns "x_" num_landmarks ++ indexedColumns "y_" num_landmarks
              else [])
          ++ (if o3D then
                indexedColumns "X_" num_landmarks ++ indexedColumns "Y_" num_landmarks
                ++ indexedColumns "Z_" num_landmarks
              else [])
          ++ (if oParams then
                ["p_scale", "p_rx", "p_ry", "p_rz", "p_tx", "p_ty"]
                ++ indexedColumns "p_" num_model_modes
              else [])
          ++ (if oAUs then (sortNames au_names_reg).map (fun name => name ++ "_r") else [])
          ++ (if oAUs then (sortNames au_names_class).map (fun name => name ++ "_c") else [])
      ∧ (prepareOutputFile o2D o3D oParams oPose oAUs oGaze num_landmarks num_eye_lmks
          num_model_modes au_names_class au_names_reg).length
        = 4 + (if oGaze then 8 + 2 * num_eye_lmks else 0) + (if oPose then 6 else 0)
          + (if o2D then 2 * num_landmarks else 0) + (if o3D then 3 * num_landmarks else 0)
          + (if oParams then 6 + num_model_modes else 0)
          + (if oAUs then au_names_reg.length else 0)
          + (if oAUs then au_names_class.length else 0))
    ∧ (["gaze_0_x", "gaze_0_y", "gaze_0_z", "gaze_1_x", "gaze_1_y", "gaze_1_z",
          "gaze_angle_x", "gaze_angle_y"]
        ++ indexedColumns "eye_lmk_x_" num_eye_lmks
        ++ indexedColumns "eye_lmk_y_" num_eye_lmks).length = 8 + 2 * num_eye_lmks
    ∧ (indexedColumns "x_" num_landmarks ++ indexedColumns "y_" num_landmarks).length
        = 2 * num_landmarks
    ∧ (indexedColumns "X_" num_landmarks ++ indexedColumns "Y_" num_landmarks
        ++ indexedColumns "Z_" num_landmarks).length = 3 * num_landmarks
    ∧ (["p_scale", "p_rx", "p_ry", "p_rz", "p_tx", "p_ty"]
        ++ indexedColumns "p_" num_model_modes).length = 6 + num_model_modes
    ∧ ((sortNames au_names_reg).map (fun name => name ++ "_r")).length = au_names_reg.length
    ∧ ((sortNames au_names_class).map (fun name => name ++ "_c")).length
        = au_names_class.length
    ∧ (sortNames au_names_reg).Sorted (· ≤ ·) ∧ (sortNames au_names_reg).Perm au_names_reg
    ∧ (sortNames au_names_class).Sorted (· ≤ ·)
    ∧ (sortNames au_names_class).Perm au_names_class := by
  refine ⟨?_, ?_, ?_, ?_, ?_, ?_, ?_, sortNames_sorted _, sortNames_perm _, sortNames_sorted _,
    sortNames_perm _⟩
  · intro o2D o3D oParams oPose oAUs oGaze
    constructor
    · cases oAUs <;> simp [prepareOutputFile]
    · cases o2D <;> cases o3D <;> cases oParams <;> cases oPose <;> cases oAUs <;>
        cases oGaze <;>
        simp [prepareOutputFile, length_indexedColumns, length_sortNames] <;> omega
  · simp [length_indexedColumns]; omega
  · simp [length_indexedColumns]; omega
  · simp [length_indexedColumns]; omega
  · simp [length_indexedColumns]; omega
  · simp [length_sortNames]
  · simp [length_sortNames]

/-- C2, as stated, fails: with tracking not initialised and the gaze block enabled, the row
written for the directions `(0, 0, -1)` that `main` passes on a failed detection carries `-1` in
the seventh column (`gaze_0_z`), which is neither the text `0` nor a number equal to 0. -/
theorem gaze_cells_not_zero_when_tracking_lost :
    blankModel.tracking_initialised = false
    ∧ (outputAllFeatures false false false false false true blankModel 0 0 false forwardGaze
        forwardGaze (0, 0) (fun _ => 0) 0 0 0 0 partAnalyser).get? 6 = some (Cell.num 5 (-1))
    ∧ Cell.num 5 (-1) ≠ Cell.zero ∧ (Cell.num 5 (-1)).value ≠ 0 := by
  refine ⟨rfl, ?_, by decide, ?_⟩
  · simp [outputAllFeatures, leadingCells, gazeCells, forwardGaze]
  · simp [Cell.value]

/-- C2, amended: when tracking is not initialised, for every combination of the switches the row
is the four leading cells followed, for each enabled block, by: the eight gaze values as they
were passed in and then `2e` texts `0` for the eye landmarks; six `0` for the pose; `2n` for the
2D landmarks; `3n` for the 3D landmarks; `6 + m` for the model parameters; and the AU cells. -/
theorem outputAllFeatures_zero_fill (o2D o3D oParams oPose oAUs oGaze : Bool) (face_model : CLNF)
    (frame_count : Nat) (time_stamp : ℚ) (detection_success : Bool)
    (gazeDirection0 gazeDirection1 : Point3f) (gaze_angle : ℚ × ℚ) (pose_estimate : Nat → ℚ)
    (fx fy cx cy : ℚ) (face_analyser : FaceAnalyser)
    (hlost : face_model.tracking_initialised = false) :
    outputAllFeatures o2D o3D oParams oPose oAUs oGaze face_model frame_count time_stamp
        detection_success gazeDirection0 gazeDirection1 gaze_angle pose_estimate fx fy cx cy
        face_analyser
      = leadingCells face_model frame_count time_stamp detection_success
        ++ (if oGaze then
              gazeCells gazeDirection0 gazeDirection1 gaze_angle
              ++ List.replicate (2 * face_model.CalculateAllEyeLandmarks.length) Cell.zero
            else [])
        ++ (if oPose then List.replicate 6 Cell.zero else [])
        ++ (if o2D then List.replicate (2 * face_model.pdm.NumberOfPoints) Cell.zero else [])
        ++ (if o3D then List.replicate (3 * face_model.pdm.NumberOfPoints) Cell.zero else [])
        ++ (if oParams then List.replicate (6 + face_model.pdm.NumberOfModes) Cell.zero else [])
        ++ (if oAUs then
              writeAUs face_analyser.GetAURegNames face_analyser.GetCurrentAUsReg
              ++ writeAUs face_analyser.GetAUClassNames face_analyser.GetCurrentAUsClass
            else []) := by
  have h2 : ∀ k : Nat, List.replicate (2 * k) Cell.zero
      = List.replicate k Cell.zero ++ List.replicate k Cell.zero := by
    intro k; rw [two_mul, List.replicate_add]
  simp only [outputAllFeatures, hlost, trackedCells_false, Bool.false_eq_true, if_false,
    List.append_assoc, h2, List.replicate_add]
  rw [Nat.mul_comm face_model.pdm.NumberOfPoints 2, Nat.mul_comm face_model.pdm.NumberOfPoints 3]
  simp only [h2, List.append_assoc]

/-- C2, a witness of the amended statement: a model with two points, one mode and one eye
landmark, tracking lost, all six blocks enabled. -/
theorem outputAllFeatures_zero_fill_witness :
    lostModel.tracking_initialised = false
    ∧ outputAllFeatures true true true true true true lostModel 0 0 false forwardGaze forwardGaze
        (0, 0) (fun _ => 1) 1 1 1 1 partAnalyser
      = leadingCells lostModel 0 0 false
        ++ (if true then
              gazeCells forwardGaze forwardGaze (0, 0)
              ++ List.replicate (2 * lostModel.CalculateAllEyeLandmarks.length) Cell.zero
            else [])
        ++ (if true then List.replicate 6 Cell.zero else [])
        ++ (if true then List.replicate (2 * lostModel.pdm.NumberOfPoints) Cell.zero else [])
        ++ (if true then List.replicate (3 * lostModel.pdm.NumberOfPoints) Cell.zero else [])
        ++ (if true then List.replicate (6 + lostModel.pdm.NumberOfModes) Cell.zero else [])
        ++ (if true then
              writeAUs partAnalyser.GetAURegNames partAnalyser.GetCurrentAUsReg
              ++ writeAUs partAnalyser.GetAUClassNames partAnalyser.GetCurrentAUsClass
            else []) :=
  ⟨rfl, outputAllFeatures_zero_fill true true true true true true lostModel 0 0 false forwardGaze
    forwardGaze (0, 0) (fun _ => 1) 1 1 1 1 partAnalyser rfl⟩

theorem writeFirstMatch_eq_lookup (au_name : String) (aus : List (String × ℚ)) :
    writeFirstMatch au_name aus
      = match aus.lookup au_name with
        | some v => [Cell.num 4 v]
        | none => [] := by
  induction aus with
  | nil => rfl
  | cons au rest ih =>
    obtain ⟨k, v⟩ := au
    by_cases h : au_name = k
    · subst h; simp [writeFirstMatch, List.lookup]
    · have hb : (au_name == k) = false := by simpa using h
      simp only [writeFirstMatch, h, if_false, List.lookup, hb, ih]

theorem writeAUs_nil (au_names : List String) :
    writeAUs au_names [] = List.replicate au_names.length Cell.zero := by
  have h : ∀ l : List String, (l.map (fun au_name => writeFirstMatch au_name [])).flatten = [] := by
    intro l
    induction l with
    | nil => rfl
    | cons a t ih => simp [writeFirstMatch]
  simp [writeAUs, h]

/-- When the score list holds a score for every name, the AU cells are the scores of the sorted
names, one cell per name in the sorted order, whatever the order of the score list. -/
theorem writeAUs_of_cover (au_names : List String) (aus : List (String × ℚ)) (hne : aus ≠ [])
    (hcover : ∀ n ∈ au_names, ∃ v, aus.lookup n = some v) :
    writeAUs au_names aus
      = (sortNames au_names).map (fun n => Cell.num 4 ((aus.lookup n).getD 0)) := by
  have hlen : ¬ aus.length = 0 := by
    intro h; exact hne (List.length_eq_zero.mp h)
  have hgen : ∀ l : List String, (∀ n ∈ l, ∃ v, aus.lookup n = some v) →
      (l.map (fun au_name => writeFirstMatch au_name aus)).flatten
        = l.map (fun n => Cell.num 4 ((aus.lookup n).getD 0)) := by
    intro l
    induction l with
    | nil => intro _; rfl
    | cons a t ih =>
      intro hl
      obtain ⟨v, hv⟩ := hl a (List.mem_cons_self a t)
      have ht := ih (fun n hn => hl n (List.mem_cons_of_mem a hn))
      rw [List.map_cons, List.flatten_cons, ht, writeFirstMatch_eq_lookup, hv, List.map_cons, hv]
      rfl
  have hsorted : ∀ n ∈ sortNames au_names, ∃ v, aus.lookup n = some v := by
    intro n hn
    exact hcover n ((sortNames_perm au_names).mem_iff.mp hn)
  simp only [writeAUs, hlen, if_false, List.append_nil, hgen _ hsorted]

theorem length_writeAUs_of_cover (au_names : List String) (aus : List (String × ℚ))
    (h : scoresCover au_names aus) : (writeAUs au_names aus).length = au_names.length := by
  by_cases hne : aus = []
  · subst hne; simp [writeAUs_nil]
  · rcases h with h | h
    · exact absurd h hne
    · simp [writeAUs_of_cover au_names aus hne h, length_sortNames]

/-- The column count of a data row is that of the header whenever each of the two score lists is
empty or holds a score for every name of its list: for all switches, sizes and frame states. -/
theorem row_columns_eq_header_columns_of_cover (o2D o3D oParams oPose oAUs oGaze : Bool)
    (face_model : CLNF) (frame_count : Nat) (time_stamp : ℚ) (detection_success : Bool)
    (gazeDirection0 gazeDirection1 : Point3f) (gaze_angle : ℚ × ℚ) (pose_estimate : Nat → ℚ)
    (fx fy cx cy : ℚ) (face_analyser : FaceAnalyser)
    (hreg : scoresCover face_analyser.GetAURegNames face_analyser.GetCurrentAUsReg)
    (hclass : scoresCover face_analyser.GetAUClassNames face_analyser.GetCurrentAUsClass) :
    (outputAllFeatures o2D o3D oParams oPose oAUs oGaze face_model frame_count time_stamp
        detection_success gazeDirection0 gazeDirection1 gaze_angle pose_estimate fx fy cx cy
        face_analyser).length
      = (prepareOutputFile o2D o3D oParams oPose oAUs oGaze face_model.pdm.NumberOfPoints
          face_model.CalculateAllEyeLandmarks.length face_model.pdm.NumberOfModes
          face_analyser.GetAUClassNames face_analyser.GetAURegNames).length := by
  have hpose : (if face_model.tracking_initialised = true then
        List.map (fun i => Cell.num 4 (pose_estimate i)) (List.range 6)
      else List.replicate 6 Cell.zero).length = 6 := by
    split <;> simp
  simp only [outputAllFeatures, prepareOutputFile, leadingCells, gazeCells, List.length_append,
    apply_ite List.length, hpose, length_trackedCells, length_indexedColumns, length_sortNames,
    length_writeAUs_of_cover _ _ hreg, length_writeAUs_of_cover _ _ hclass, List.length_cons,
    List.length_nil, List.length_map, List.length_range, List.length_replicate, ite_self]
  split_ifs <;> omega

theorem lookup_eq_some_iff_mem (aus : List (String × ℚ)) (hnodup : (aus.map Prod.fst).Nodup)
    (n : String) (v : ℚ) : aus.lookup n = some v ↔ (n, v) ∈ aus := by
  induction aus with
  | nil => simp
  | cons au rest ih =>
    obtain ⟨k, w⟩ := au
    simp only [List.map_cons, List.nodup_cons] at hnodup
    obtain ⟨hk, hrest⟩ := hnodup
    by_cases h : n = k
    · subst h
      simp only [List.lookup, beq_self_eq_true, Option.some.injEq, List.mem_cons, Prod.mk.injEq,
        true_and]
      constructor
      · intro hv; exact Or.inl hv.symm
      · rintro (hv | hv)
        · exact hv.symm
        · exact absurd (List.mem_map_of_mem Prod.fst hv) hk
    · have hb : (n == k) = false := by simpa using h
      simp only [List.lookup, hb, ih hrest, List.mem_cons, Prod.mk.injEq, h, false_and, false_or]

/-- The AU cells do not depend on the order of the score list, when no name occurs twice in
it. -/
theorem writeAUs_perm (au_names : List String) (aus aus2 : List (String × ℚ))
    (hnodup : (aus.map Prod.fst).Nodup) (hperm : aus.Perm aus2) :
    writeAUs au_names aus2 = writeAUs au_names aus := by
  have hnodup2 : (aus2.map Prod.fst).Nodup := (hperm.map Prod.fst).nodup_iff.mp hnodup
  have hlookup : ∀ n, aus2.lookup n = aus.lookup n := by
    intro n
    apply Option.ext
    intro v
    rw [Option.mem_def, Option.mem_def, lookup_eq_some_iff_mem aus2 hnodup2,
      lookup_eq_some_iff_mem aus hnodup, hperm.mem_iff]
  have hfirst : (fun au_name => writeFirstMatch au_name aus2)
      = (fun au_name => writeFirstMatch au_name aus) := by
    funext n
    rw [writeFirstMatch_eq_lookup, writeFirstMatch_eq_lookup, hlookup]
  unfold writeAUs
  rw [hfirst, hperm.length_eq]

theorem sortNames_example_reg : sortNames ["AU01", "AU12"] = ["AU01", "AU12"] := by
  simp [sortNames, String.le_iff_toList_le]
  decide

theorem sortNames_example_class : sortNames ["AU04"] = ["AU04"] := by
  simp [sortNames]

/-- C1, at the failing input: AU output only, regression names `AU01`, `AU12`, class name `AU04`,
and a frame whose regression scores hold `AU12` alone.  The header has 7 columns, the data row
has 6: no cell is written for `AU01`. -/
theorem row_shorter_than_header_on_missing_score :
    (prepareOutputFile false false false false true false blankModel.pdm.NumberOfPoints
        blankModel.CalculateAllEyeLandmarks.length blankModel.pdm.NumberOfModes
        partAnalyser.GetAUClassNames partAnalyser.GetAURegNames).length = 7
    ∧ (outputAllFeatures false false false false true false blankModel 0 0 true forwardGaze
        forwardGaze (0, 0) (fun _ => 0) 0 0 0 0 partAnalyser).length = 6 := by
  constructor
  · simp [prepareOutputFile, partAnalyser, length_sortNames]
  · simp [outputAllFeatures, leadingCells, writeAUs, partAnalyser, sortNames_example_reg,
      sortNames_example_class, writeFirstMatch]

/-- C3, at the example of the specification: regression names `AU01`, `AU12`, class name `AU04`,
a frame whose only score is `AU12 = 0.7`.  The AU cells written are `0.7, 0`, not `0, 0.7, 0`:
the absent `AU01` gets no cell, and the only `0` is the one for the empty class scores. -/
theorem au_cells_of_specification_example :
    writeAUs partAnalyser.GetAURegNames partAnalyser.GetCurrentAUsReg
      ++ writeAUs partAnalyser.GetAUClassNames partAnalyser.GetCurrentAUsClass
        = [Cell.num 4 (7 / 10), Cell.zero]
    ∧ writeAUs partAnalyser.GetAURegNames partAnalyser.GetCurrentAUsReg
      ++ writeAUs partAnalyser.GetAUClassNames partAnalyser.GetCurrentAUsClass
        ≠ [Cell.zero, Cell.num 4 (7 / 10), Cell.zero] := by
  have h : writeAUs partAnalyser.GetAURegNames partAnalyser.GetCurrentAUsReg
      ++ writeAUs partAnalyser.GetAUClassNames partAnalyser.GetCurrentAUsClass
        = [Cell.num 4 (7 / 10), Cell.zero] := by
    simp [writeAUs, partAnalyser, sortNames_example_reg, sortNames_example_class,
      writeFirstMatch]
  refine ⟨h, ?_⟩
  rw [h]
  simp

/-- C7, at the failing input: the AU columns of the header are `AU01_r, AU12_r, AU04_c`, and the
AU cells of the row are `0.7, 0`, so the score of `AU12` stands in the column of `AU01_r`. -/
theorem au_score_in_wrong_column_on_missing_score :
    (prepareOutputFile false false false false true false blankModel.pdm.NumberOfPoints
        blankModel.CalculateAllEyeLandmarks.length blankModel.pdm.NumberOfModes
        partAnalyser.GetAUClassNames partAnalyser.GetAURegNames).drop 4
      = ["AU01_r", "AU12_r", "AU04_c"]
    ∧ (outputAllFeatures false false false false true false blankModel 0 0 true forwardGaze
        forwardGaze (0, 0) (fun _ => 0) 0 0 0 0 partAnalyser).drop 4
      = [Cell.num 4 (7 / 10), Cell.zero] := by
  constructor
  · simp [prepareOutputFile, partAnalyser, sortNames_example_reg, sortNames_example_class]
  · simp [outputAllFeatures, leadingCells, writeAUs, partAnalyser, sortNames_example_reg,
      sortNames_example_class, writeFirstMatch]

/-! ## Theorems: the binary descriptor encoder -/

theorem streamBytes_eq (fields : List HogField) : streamBytes fields = 4 * fields.length := by
  induction fields with
  | nil => rfl
  | cons a t ih =>
    simp only [streamBytes, List.map_cons, List.sum_cons, List.length_cons, HogField.bytes] at ih ⊢
    omega

theorem writeHogData_consume (out : List HogField) (it : List ℚ) (h : 1 ≤ it.length) :
    writeHogData (out, it) = some (out ++ (it.take 1).map HogField.float32, it.drop 1) := by
  cases it with
  | nil => simp at h
  | cons v rest => simp [writeHogData]

/-- A loop whose body writes the next `k` descriptor values writes the next `n * k` of them when it
runs `n` times. -/
theorem forLoop_consume (k : Nat)
    (body : List HogField × List ℚ → Option (List HogField × List ℚ))
    (hbody : ∀ out it, k ≤ it.length →
      body (out, it) = some (out ++ (it.take k).map HogField.float32, it.drop k)) :
    ∀ (n : Nat) (out : List HogField) (it : List ℚ), n * k ≤ it.length →
      forLoop n body (out, it)
        = some (out ++ (it.take (n * k)).map HogField.float32, it.drop (n * k)) := by
  intro n
  induction n with
  | zero => intro out it _; simp [forLoop]
  | succ m ih =>
    intro out it h
    have hk : k ≤ it.length := by
      have : (m + 1) * k = m * k + k := Nat.succ_mul m k
      omega
    have hm : m * k ≤ (it.drop k).length := by
      have : (m + 1) * k = m * k + k := Nat.succ_mul m k
      rw [List.length_drop]; omega
    have hsplit : (m + 1) * k = k + m * k := by rw [Nat.succ_mul]; omega
    rw [forLoop, hbody out it hk, Option.some_bind, ih _ _ hm, hsplit, List.take_add,
      List.map_append, List.append_assoc, List.drop_drop]

/-- The record written by `output_HOG_frame`, when the descriptor holds the values the loops
read: the four header fields, then the first `cols * rows * 31` values of the descriptor. -/
theorem output_HOG_frame_eq (good_frame : Bool) (hog_descriptor : List ℚ) (num_rows num_cols : Int)
    (h : num_cols.toNat * num_rows.toNat * 31 ≤ hog_descriptor.length) :
    output_HOG_frame good_frame hog_descriptor num_rows num_cols
      = some ([HogField.int32 num_cols, HogField.int32 num_rows, HogField.int32 31,
            HogField.float32 (if good_frame then 1 else -1)]
          ++ (hog_descriptor.take (num_cols.toNat * num_rows.toNat * 31)).map HogField.float32) := by
  have h1 := forLoop_consume 1 writeHogData writeHogData_consume
  have h2 := forLoop_consume (31 * 1) (forLoop 31 writeHogData) (h1 31)
  have h3 := forLoop_consume (num_rows.toNat * (31 * 1)) (forLoop num_rows.toNat
    (forLoop 31 writeHogData)) (h2 num_rows.toNat)
  have hn : num_cols.toNat * (num_rows.toNat * (31 * 1)) = num_cols.toNat * num_rows.toNat * 31 := by
    rw [Nat.mul_one, Nat.mul_assoc]
  unfold output_HOG_frame
  simp only []
  rw [h3 num_cols.toNat _ _ (by rw [hn]; exact h), hn]
  rfl

/-- C5: for every call whose descriptor holds the values the loops read, the record is, in this
order, `num_cols`, `num_rows` and 31 as 32-bit integers, the flag as a 32-bit float, `1` for a
good frame and `-1` otherwise, and then the payload of `cols * rows * 31` floats written by the
three nested loops (outer over columns, inner over rows, innermost over the 31 channels); the
`k`-th payload value is the `k`-th element of the descriptor, and so is the value of number
`(y * rows + x) * 31 + o`, for every column `y`, row `x` and channel `o`. -/
theorem output_HOG_frame_layout (good_frame : Bool) (hog_descriptor : List ℚ)
    (num_rows num_cols : Int)
    (h : num_cols.toNat * num_rows.toNat * 31 ≤ hog_descriptor.length) :
    ∃ payload : List HogField,
      output_HOG_frame good_frame hog_descriptor num_rows num_cols
        = some ([HogField.int32 num_cols, HogField.int32 num_rows, HogField.int32 31,
            HogField.float32 (if good_frame then 1 else -1)] ++ payload)
      ∧ payload.length = num_cols.toNat * num_rows.toNat * 31
      ∧ (∀ k, k < payload.length →
          payload.get? k = (hog_descriptor.get? k).map HogField.float32)
      ∧ ∀ y x o, y < num_cols.toNat → x < num_rows.toNat → o < 31 →
          (y * num_rows.toNat + x) * 31 + o < payload.length
          ∧ payload.get? ((y * num_rows.toNat + x) * 31 + o)
            = (hog_descriptor.get? ((y * num_rows.toNat + x) * 31 + o)).map HogField.float32 := by
  refine ⟨(hog_descriptor.take (num_cols.toNat * num_rows.toNat * 31)).map HogField.float32,
    output_HOG_frame_eq good_frame hog_descriptor num_rows num_cols h, ?_, ?_, ?_⟩
  · simp [List.length_take, h]
  · intro k hk
    simp only [List.length_map, List.length_take] at hk
    have hk2 : k < num_cols.toNat * num_rows.toNat * 31 := lt_of_lt_of_le hk (min_le_left _ _)
    simp [List.getElem?_map, List.getElem?_take, hk2]
  · intro y x o hy hx ho
    have h1 : y * num_rows.toNat + x < num_cols.toNat * num_rows.toNat := by
      calc y * num_rows.toNat + x < y * num_rows.toNat + num_rows.toNat := by omega
        _ = (y + 1) * num_rows.toNat := by rw [Nat.succ_mul]
        _ ≤ num_cols.toNat * num_rows.toNat := Nat.mul_le_mul_right _ hy
    have h2 : (y * num_rows.toNat + x + 1) * 31 ≤ num_cols.toNat * num_rows.toNat * 31 :=
      Nat.mul_le_mul_right _ h1
    have h3 : (y * num_rows.toNat + x) * 31 + o < num_cols.toNat * num_rows.toNat * 31 := by
      omega
    refine ⟨by simp only [List.length_map, List.length_take, Nat.min_eq_left h]; exact h3, ?_⟩
    simp [List.getElem?_map, List.getElem?_take, h3]

/-- C5, a witness: a good frame of one row and two columns. -/
theorem output_HOG_frame_layout_witness :
    ∃ payload : List HogField,
      output_HOG_frame true (List.replicate 62 (1 / 2)) 1 2
        = some ([HogField.int32 2, HogField.int32 1, HogField.int32 31,
            HogField.float32 (if true then 1 else -1)] ++ payload)
      ∧ payload.length = (2 : Int).toNat * (1 : Int).toNat * 31
      ∧ (∀ k, k < payload.length →
          payload.get? k = ((List.replicate 62 (1 / 2 : ℚ)).get? k).map HogField.float32)
      ∧ ∀ y x o, y < (2 : Int).toNat → x < (1 : Int).toNat → o < 31 →
          (y * (1 : Int).toNat + x) * 31 + o < payload.length
          ∧ payload.get? ((y * (1 : Int).toNat + x) * 31 + o)
            = ((List.replicate 62 (1 / 2 : ℚ)).get? ((y * (1 : Int).toNat + x) * 31 + o)).map
                HogField.float32 :=
  output_HOG_frame_layout true (List.replicate 62 (1 / 2)) 1 2 (by simp)

theorem toNat_payload (num_rows num_cols : Int) (hr : 0 ≤ num_rows) (hc : 0 ≤ num_cols) :
    (num_cols * num_rows * 31).toNat = num_cols.toNat * num_rows.toNat * 31 := by
  lift num_rows to ℕ using hr
  lift num_cols to ℕ using hc
  have h : ((num_cols : Int) * (num_rows : Int) * 31) = ((num_cols * num_rows * 31 : ℕ) : Int) := by
    push_cast; ring
  rw [h, Int.toNat_ofNat, Int.toNat_ofNat, Int.toNat_ofNat]

theorem readHogFramesAux_record (fuel : Nat) (c r ch : Int) (g : ℚ) (payload tail : List HogField)
    (hlen : payload.length = (c * r * 31).toNat) :
    readHogFramesAux (fuel + 1)
        ([HogField.int32 c, HogField.int32 r, HogField.int32 ch, HogField.float32 g]
          ++ payload ++ tail)
      = (readHogFramesAux fuel tail).map (fun headers => HogHeader.mk c r ch g :: headers) := by
  have hle : (c * r * 31).toNat ≤ (payload ++ tail).length := by
    rw [List.length_append]; omega
  have hdrop : (payload ++ tail).drop (c * r * 31).toNat = tail := by
    rw [← hlen]; exact List.drop_left' rfl
  show readHogFramesAux (fuel + 1) (HogField.int32 c :: HogField.int32 r :: HogField.int32 ch
    :: HogField.float32 g :: (payload ++ tail)) = _
  rw [readHogFramesAux, if_pos hle, hdrop]

/-- C4: for every sequence of calls of `output_HOG_frame` with `num_rows >= 0`, `num_cols >= 0`
and a descriptor of `num_rows * num_cols * 31` values, each record is written and occupies
`16 + 4 * num_cols * num_rows * 31` bytes, the file is the concatenation of the records, its size
is the sum of the record sizes, and the reader that reads four header fields and then consumes
`cols * rows * 31` floats recovers the header of every call, in order. -/
theorem hogStream_self_framing (calls : List (Bool × List ℚ × Int × Int))
    (h : ∀ c ∈ calls, 0 ≤ c.2.2.1 ∧ 0 ≤ c.2.2.2
      ∧ c.2.1.length = (c.2.2.1 * c.2.2.2 * 31).toNat) :
    (∀ c ∈ calls, ∃ record, output_HOG_frame c.1 c.2.1 c.2.2.1 c.2.2.2 = some record
      ∧ streamBytes record = 16 + 4 * (c.2.2.2 * c.2.2.1 * 31).toNat)
    ∧ ∃ stream, hogStream calls = some stream
      ∧ streamBytes stream
          = (calls.map (fun c => 16 + 4 * (c.2.2.2 * c.2.2.1 * 31).toNat)).sum
      ∧ readHogFrames stream = some (calls.map headerOf) := by
  have hrec : ∀ c : Bool × List ℚ × Int × Int, 0 ≤ c.2.2.1 → 0 ≤ c.2.2.2 →
      c.2.1.length = (c.2.2.1 * c.2.2.2 * 31).toNat →
      ∃ payload : List HogField, payload.length = (c.2.2.2 * c.2.2.1 * 31).toNat
        ∧ output_HOG_frame c.1 c.2.1 c.2.2.1 c.2.2.2
          = some ([HogField.int32 c.2.2.2, HogField.int32 c.2.2.1, HogField.int32 31,
              HogField.float32 (if c.1 then 1 else -1)] ++ payload) := by
    intro c hr hc hl
    have hn := toNat_payload c.2.2.1 c.2.2.2 hr hc
    have hle : c.2.2.2.toNat * c.2.2.1.toNat * 31 ≤ c.2.1.length := by
      rw [hl, mul_comm c.2.2.1 c.2.2.2, hn]
    refine ⟨(c.2.1.take (c.2.2.2.toNat * c.2.2.1.toNat * 31)).map HogField.float32, ?_,
      output_HOG_frame_eq c.1 c.2.1 c.2.2.1 c.2.2.2 hle⟩
    rw [List.length_map, List.length_take, Nat.min_eq_left hle, hn]
  constructor
  · intro c hcm
    obtain ⟨hr, hc, hl⟩ := h c hcm
    obtain ⟨payload, hpl, hout⟩ := hrec c hr hc hl
    refine ⟨_, hout, ?_⟩
    rw [streamBytes_eq, List.length_append, hpl]
    simp only [List.length_cons, List.length_nil]
    omega
  · have hmain : ∀ l : List (Bool × List ℚ × Int × Int),
        (∀ c ∈ l, 0 ≤ c.2.2.1 ∧ 0 ≤ c.2.2.2 ∧ c.2.1.length = (c.2.2.1 * c.2.2.2 * 31).toNat) →
        ∃ stream, hogStream l = some stream
          ∧ streamBytes stream = (l.map (fun c => 16 + 4 * (c.2.2.2 * c.2.2.1 * 31).toNat)).sum
          ∧ l.length ≤ stream.length
          ∧ ∀ fuel, l.length ≤ fuel → readHogFramesAux fuel stream = some (l.map headerOf) := by
      intro l
      induction l with
      | nil =>
        intro _
        refine ⟨[], rfl, rfl, le_refl _, ?_⟩
        intro fuel _
        cases fuel <;> rfl
      | cons c t ih =>
        intro hl
        obtain ⟨hr, hc, hlen⟩ := hl c (List.mem_cons_self c t)
        obtain ⟨tail, htail, hbytes, hcount, hread⟩ :=
          ih (fun d hd => hl d (List.mem_cons_of_mem c hd))
        obtain ⟨payload, hpl, hout⟩ := hrec c hr hc hlen
        obtain ⟨good_frame, hog_descriptor, num_rows, num_cols⟩ := c
        simp only at hr hc hlen hpl hout
        refine ⟨[HogField.int32 num_cols, HogField.int32 num_rows, HogField.int32 31,
            HogField.float32 (if good_frame then 1 else -1)] ++ payload ++ tail, ?_, ?_, ?_, ?_⟩
        · simp only [hogStream, hout, htail, Option.some_bind, Option.map_some']
        · rw [streamBytes_eq] at hbytes ⊢
          simp only [List.length_append, List.length_cons, List.length_nil, hpl, List.map_cons,
            List.sum_cons, ← hbytes]
          omega
        · simp only [List.length_append, List.length_cons, List.length_nil]
          omega
        · intro fuel hfuel
          obtain ⟨k, rfl⟩ : ∃ k, fuel = k + 1 := ⟨fuel - 1, by
            simp only [List.length_cons] at hfuel; omega⟩
          have hk : t.length ≤ k := by
            simp only [List.length_cons] at hfuel; omega
          rw [readHogFramesAux_record k num_cols num_rows 31 _ payload tail hpl, hread k hk]
          rfl
    obtain ⟨stream, hs, hb, hc, hr⟩ := hmain calls h
    exact ⟨stream, hs, hb, hr stream.length hc⟩

/-- C4, a witness, the example of the specification: three frames with
5 rows and 5 columns, the second one a failed detection. -/
theorem hogStream_self_framing_witness :
    (∀ c ∈ [(true, List.replicate 775 (1 : ℚ), (5 : Int), (5 : Int)),
          (false, List.replicate 775 0, 5, 5), (true, List.replicate 775 2, 5, 5)],
      ∃ record, output_HOG_frame c.1 c.2.1 c.2.2.1 c.2.2.2 = some record
        ∧ streamBytes record = 16 + 4 * (c.2.2.2 * c.2.2.1 * 31).toNat)
    ∧ ∃ stream, hogStream [(true, List.replicate 775 (1 : ℚ), (5 : Int), (5 : Int)),
          (false, List.replicate 775 0, 5, 5), (true, List.replicate 775 2, 5, 5)] = some stream
      ∧ streamBytes stream
          = ([(true, List.replicate 775 (1 : ℚ), (5 : Int), (5 : Int)),
              (false, List.replicate 775 0, 5, 5), (true, List.replicate 775 2, 5, 5)].map
                (fun c => 16 + 4 * (c.2.2.2 * c.2.2.1 * 31).toNat)).sum
      ∧ readHogFrames stream
          = some ([(true, List.replicate 775 (1 : ℚ), (5 : Int), (5 : Int)),
              (false, List.replicate 775 0, 5, 5), (true, List.replicate 775 2, 5, 5)].map
                headerOf) :=
  hogStream_self_framing _ (by
    intro c hc
    simp only [List.mem_cons, List.mem_singleton, List.not_mem_nil, or_false] at hc
    rcases hc with rfl | rfl | rfl <;>
      exact ⟨by decide, by decide, by rw [List.length_replicate]; rfl⟩)

/-! ## Theorems: the session loop -/

/-- Whatever the outcome of the loop body, it leaves the frame counter and the intrinsics as
they were, reads no image and logs one call of `GetPose` with the intrinsics of the session. -/
theorem processFrame_frame (P : Parameters) (fps_vid_in : ℚ) (f_n : Nat) (s s1 : SessionState)
    (frame : Frame) (code : Option Int)
    (h : processFrame P fps_vid_in f_n s frame = some (s1, code)) :
    s1.frame_count = s.frame_count ∧ s1.camera = s.camera
    ∧ s1.imread_calls = s.imread_calls ∧ s1.pose_calls = s.pose_calls ++ [s.camera] := by
  unfold processFrame at h
  simp only [] at h
  generalize (if (!P.output_hog_align_files.isEmpty) = true then
      output_HOG_frame frame.detection_success frame.hog_descriptor frame.num_hog_rows
        frame.num_hog_cols
    else some []) = hog_record at h
  cases hog_record with
  | none => simp at h
  | some record =>
    simp only [] at h
    by_cases ha : P.output_similarity_align.isEmpty = true
    · rw [if_pos ha] at h
      simp only [Option.some.injEq, Prod.mk.injEq] at h
      obtain ⟨rfl, -⟩ := h
      unfold writeRow
      split <;> exact ⟨rfl, rfl, rfl, rfl⟩
    · rw [if_neg ha] at h
      cases hd : P.output_similarity_align.get? f_n with
      | none => rw [hd] at h; simp at h
      | some directory =>
        rw [hd] at h
        simp only [] at h
        by_cases hw : frame.write_success = true
        · rw [if_pos hw] at h
          simp only [Option.some.injEq, Prod.mk.injEq] at h
          obtain ⟨rfl, -⟩ := h
          unfold writeRow
          split <;> exact ⟨rfl, rfl, rfl, rfl⟩
        · rw [if_neg hw] at h
          simp only [Option.some.injEq, Prod.mk.injEq] at h
          obtain ⟨rfl, -⟩ := h
          exact ⟨rfl, rfl, rfl, rfl⟩

/-- When the loop body runs to its end on the frame, it writes the outputs of the frame and
goes on. -/
theorem processFrame_completes (P : Parameters) (fps_vid_in : ℚ) (f_n : Nat) (s : SessionState)
    (frame : Frame) (hhog : hogRecordWritten P frame = true)
    (hal : alignedFaceWritten P f_n frame = true) :
    ∃ s1, processFrame P fps_vid_in f_n s frame = some (s1, none)
      ∧ s1.output_file = (writeRow P (frameRow P fps_vid_in s frame) s).output_file := by
  unfold hogRecordWritten at hhog
  unfold alignedFaceWritten at hal
  unfold processFrame
  simp only []
  have hrec : ∃ record, (if (!P.output_hog_align_files.isEmpty) = true then
      output_HOG_frame frame.detection_success frame.hog_descriptor frame.num_hog_rows
        frame.num_hog_cols
    else some []) = some record := by
    by_cases he : P.output_hog_align_files.isEmpty = true
    · exact ⟨[], by simp [he]⟩
    · simp only [he, Bool.false_or, Option.isSome_iff_exists] at hhog
      obtain ⟨record, hr⟩ := hhog
      exact ⟨record, by simp [he, hr]⟩
  obtain ⟨record, hr⟩ := hrec
  rw [hr]
  simp only []
  by_cases ha : P.output_similarity_align.isEmpty = true
  · rw [if_pos ha]
    refine ⟨_, rfl, ?_⟩
    unfold writeRow
    split <;> rfl
  · rw [if_neg ha]
    simp only [ha, Bool.false_or, Bool.and_eq_true, Option.isSome_iff_exists] at hal
    obtain ⟨⟨directory, hd⟩, hw⟩ := hal
    rw [hd]
    simp only []
    rw [if_pos hw]
    refine ⟨_, rfl, ?_⟩
    unfold writeRow
    split <;> rfl

theorem trackingLoop_end (P : Parameters) (E : Environment) (fps_vid_in : ℚ) (f_n : Nat)
    (video_capture : List Frame) (curr_img : Nat) (s : SessionState) :
    trackingLoop P E fps_vid_in f_n video_capture curr_img none s = some (s, none) := by
  rw [trackingLoop]

theorem trackingLoop_step (P : Parameters) (E : Environment) (fps_vid_in : ℚ) (f_n : Nat)
    (video_capture : List Frame) (curr_img : Nat) (frame : Frame) (s s1 : SessionState)
    (hproc : processFrame P fps_vid_in f_n s frame = some (s1, none))
    (hq : quitKey P frame = false) :
    ∃ s3, trackingLoop P E fps_vid_in f_n video_capture curr_img (some frame) s
        = trackingLoop P E fps_vid_in f_n (nextFrame P E f_n video_capture curr_img).2.1
            (nextFrame P E f_n video_capture curr_img).2.2.1
            (nextFrame P E f_n video_capture curr_img).1 s3
      ∧ s3.frame_count = s1.frame_count + 1 ∧ s3.camera = s1.camera
      ∧ s3.output_file = s1.output_file ∧ s3.pose_calls = s1.pose_calls
      ∧ s3.imread_calls
          = s1.imread_calls ++ (nextFrame P E f_n video_capture curr_img).2.2.2 := by
  rw [trackingLoop]
  simp only [hproc]
  unfold quitKey at hq
  by_cases hr : (!P.quiet_mode && decide (frame.character_press = 'r')) = true
  · rw [if_pos hr]
    exact ⟨_, rfl, rfl, rfl, rfl, rfl, rfl⟩
  · rw [if_neg hr, if_neg (by simpa using hq)]
    exact ⟨_, rfl, rfl, rfl, rfl, rfl, rfl⟩

/-- Every run of the tracking loop, however it ends, leaves the intrinsics as they were at its
start and passes them to each call of `GetPose`. -/
theorem trackingLoop_camera (P : Parameters) (E : Environment) (fps_vid_in : ℚ) (f_n : Nat)
    (video_capture : List Frame) (curr_img : Nat) (captured_image : Option Frame)
    (s : SessionState) :
    ∀ (s' : SessionState) (code : Option Int),
      trackingLoop P E fps_vid_in f_n video_capture curr_img captured_image s = some (s', code) →
      s'.camera = s.camera ∧ ∃ k, s'.pose_calls = s.pose_calls ++ List.replicate k s.camera := by
  induction video_capture, curr_img, captured_image, s
    using trackingLoop.induct P E fps_vid_in f_n with
  | case1 video_capture curr_img s =>
    intro s' code h
    rw [trackingLoop] at h
    simp only [Option.some.injEq, Prod.mk.injEq] at h
    obtain ⟨rfl, -⟩ := h
    exact ⟨rfl, 0, by simp⟩
  | case2 video_capture curr_img s frame hp =>
    intro s' code h
    rw [trackingLoop] at h
    simp [hp] at h
  | case3 video_capture curr_img s frame s1 c hp =>
    intro s' code h
    rw [trackingLoop] at h
    simp only [hp, Option.some.injEq, Prod.mk.injEq] at h
    obtain ⟨rfl, -⟩ := h
    obtain ⟨-, hc, -, hpc⟩ := processFrame_frame P fps_vid_in f_n s _ frame _ hp
    exact ⟨hc, 1, by simpa using hpc⟩
  | case4 video_capture curr_img s frame s1 hp s2 hr ih =>
    intro s' code h
    rw [trackingLoop] at h
    simp only [hp, hr, if_true] at h
    obtain ⟨-, hc, -, hpc⟩ := processFrame_frame P fps_vid_in f_n s _ frame _ hp
    obtain ⟨h1, k, h2⟩ := ih s' code h
    refine ⟨h1.trans hc, k + 1, ?_⟩
    rw [h2]
    simp only [s2, hpc, hc, List.append_assoc, List.replicate_succ, List.singleton_append]
  | case5 video_capture curr_img s frame s1 hp hr hq =>
    intro s' code h
    rw [trackingLoop] at h
    simp only [hp, hr, hq, if_true, if_false, Option.some.injEq, Prod.mk.injEq] at h
    obtain ⟨rfl, -⟩ := h
    obtain ⟨-, hc, -, hpc⟩ := processFrame_frame P fps_vid_in f_n s _ frame _ hp
    exact ⟨hc, 1, by simpa using hpc⟩
  | case6 video_capture curr_img s frame s1 hp s2 hr hq ih =>
    intro s' code h
    rw [trackingLoop] at h
    simp only [hp, hr, hq, if_false] at h
    obtain ⟨-, hc, -, hpc⟩ := processFrame_frame P fps_vid_in f_n s _ frame _ hp
    obtain ⟨h1, k, h2⟩ := ih s' code h
    refine ⟨h1.trans hc, k + 1, ?_⟩
    rw [h2]
    simp only [s2, hpc, hc, List.append_assoc, List.replicate_succ, List.singleton_append]

theorem frameRow_take_two (P : Parameters) (fps_vid_in : ℚ) (s : SessionState) (frame : Frame) :
    (frameRow P fps_vid_in s frame).take 2
      = [Cell.int ((s.frame_count : Int) + 1), Cell.num 9 (timeStamp P fps_vid_in s.frame_count)] :=
  rfl

/-- A video whose frames all run through the loop body: the loop ends at the end of the video,
having written one row per frame, numbered from the frame counter on. -/
theorem trackingLoop_video (P : Parameters) (E : Environment) (fps_vid_in : ℚ) (f_n : Nat)
    (hv : P.video_input = true) (hout : P.output_files.isEmpty = false) :
    ∀ (rest : List Frame) (curr_img : Nat) (frame : Frame) (s : SessionState),
      (∀ f ∈ frame :: rest, frameCompletes P f_n f = true) →
      ∃ s' rows, trackingLoop P E fps_vid_in f_n rest curr_img (some frame) s = some (s', none)
        ∧ s'.output_file = s.output_file ++ rows ∧ rows.length = rest.length + 1
        ∧ ∀ k row, rows.get? k = some row →
            row.take 2 = [Cell.int (((s.frame_count + k : Nat) : Int) + 1),
              Cell.num 9 (((s.frame_count + k : Nat) : ℚ) * (1 / fps_vid_in))] := by
  intro rest
  induction rest with
  | nil =>
    intro curr_img frame s hall
    have hf := hall frame (List.mem_cons_self _ _)
    simp only [frameCompletes, Bool.and_eq_true, Bool.not_eq_true'] at hf
    obtain ⟨s1, hp, ho⟩ := processFrame_completes P fps_vid_in f_n s frame hf.1.1 hf.1.2
    obtain ⟨s3, hloop, -, -, ho3, -, -⟩ :=
      trackingLoop_step P E fps_vid_in f_n [] curr_img frame s s1 hp hf.2
    refine ⟨s3, [frameRow P fps_vid_in s frame], ?_, ?_, rfl, ?_⟩
    · rw [hloop]
      simp only [nextFrame, hv, if_true]
      exact trackingLoop_end P E fps_vid_in f_n [] curr_img s3
    · rw [ho3, ho]; simp [writeRow, hout]
    · intro k row hk
      cases k with
      | zero =>
        simp only [List.get?_cons_zero, Option.some.injEq] at hk
        subst hk
        rw [frameRow_take_two]; simp [timeStamp, hv]
      | succ j => simp at hk
  | cons next rest ih =>
    intro curr_img frame s hall
    have hf := hall frame (List.mem_cons_self _ _)
    simp only [frameCompletes, Bool.and_eq_true, Bool.not_eq_true'] at hf
    obtain ⟨s1, hp, ho⟩ := processFrame_completes P fps_vid_in f_n s frame hf.1.1 hf.1.2
    obtain ⟨hfc, -, -, -⟩ := processFrame_frame P fps_vid_in f_n s s1 frame none hp
    obtain ⟨s3, hloop, hfc3, -, ho3, -, -⟩ :=
      trackingLoop_step P E fps_vid_in f_n (next :: rest) curr_img frame s s1 hp hf.2
    obtain ⟨s', rows, hrun, hrows, hlen, hnum⟩ :=
      ih curr_img next s3 (fun f hfm => hall f (List.mem_cons_of_mem _ hfm))
    refine ⟨s', frameRow P fps_vid_in s frame :: rows, ?_, ?_, ?_, ?_⟩
    · rw [hloop]
      simp only [nextFrame, hv, if_true]
      exact hrun
    · rw [hrows, ho3, ho]; simp [writeRow, hout]
    · simp [hlen]
    · intro k row hk
      cases k with
      | zero =>
        simp only [List.get?_cons_zero, Option.some.injEq] at hk
        subst hk
        rw [frameRow_take_two]; simp [timeStamp, hv]
      | succ j =>
        simp only [List.get?_cons_succ] at hk
        have := hnum j row hk
        rw [this, hfc3, hfc]
        have e : s.frame_count + 1 + j = s.frame_count + (j + 1) := by omega
        rw [e]

theorem resolveFps_pos (fps : Option ℚ) : 0 < resolveFps fps := by
  unfold resolveFps
  cases fps with
  | none => norm_num
  | some v =>
    simp only
    split
    · norm_num
    · linarith

/-- With the output files of the session in range, the writer of the tracked video is
constructed, when one is asked for, on the file of the session and at the frame rate of the
session. -/
theorem openWriter_inRange (P : Parameters) (f_n : Nat) (h : outputsInRange P f_n = true)
    (fps_vid_in : ℚ) (cols rows : Nat) :
    (P.tracked_videos_output.isEmpty = true → openWriter P f_n fps_vid_in cols rows = some none)
    ∧ (P.tracked_videos_output.isEmpty = false →
        ∃ filename code, P.tracked_videos_output.get? f_n = some filename
          ∧ fourcc P.output_codec = some code
          ∧ openWriter P f_n fps_vid_in cols rows
              = some (some ⟨filename, code, fps_vid_in, cols, rows⟩)) := by
  unfold outputsInRange at h
  simp only [Bool.and_eq_true, Bool.or_eq_true, decide_eq_true_eq] at h
  obtain ⟨-, ht⟩ := h
  constructor
  · intro he
    unfold openWriter
    rw [if_pos he]
  · intro he
    rw [he] at ht
    simp only [Bool.false_eq_true, false_or] at ht
    obtain ⟨filename, hf⟩ := Option.isSome_iff_exists.mp ht.1
    refine ⟨filename, (P.output_codec.toList ++ [Char.ofNat 0]).take 4, hf, ?_, ?_⟩
    · unfold fourcc
      rw [if_pos ht.2]
    · unfold openWriter fourcc
      rw [if_neg (by simp [he]), hf, if_pos ht.2]

theorem outputsInRange_cond (P : Parameters) (f_n : Nat) (h : outputsInRange P f_n = true)
    (fps_vid_in : ℚ) (cols rows : Nat) :
    ((!P.output_files.isEmpty && (P.output_files.get? f_n).isNone)
      || (!P.output_hog_align_files.isEmpty && (P.output_hog_align_files.get? f_n).isNone)
      || (openWriter P f_n fps_vid_in cols rows).isNone)
      = false := by
  have hw : (openWriter P f_n fps_vid_in cols rows).isNone = false := by
    obtain ⟨h1, h2⟩ := openWriter_inRange P f_n h fps_vid_in cols rows
    cases he : P.tracked_videos_output.isEmpty with
    | true => rw [h1 he]; rfl
    | false =>
      obtain ⟨filename, code, -, -, hopen⟩ := h2 he
      rw [hopen]; rfl
  rw [hw]
  unfold outputsInRange at h
  cases ha : P.output_files.isEmpty <;> cases hb : P.output_files.get? f_n <;>
    cases hc : P.output_hog_align_files.isEmpty <;>
    cases hd : P.output_hog_align_files.get? f_n <;>
    simp only [ha, hb, hc, hd, Option.isSome_none, Option.isSome_some, Option.isNone_none,
      Option.isNone_some, Bool.not_true, Bool.not_false, Bool.and_true, Bool.and_false,
      Bool.or_true, Bool.or_false, Bool.true_and, Bool.false_and, Bool.true_or, Bool.false_or,
      Bool.false_eq_true] at h ⊢

theorem openSource_video (P : Parameters) (E : Environment) (r : RunState) (file : String)
    (video : Video) (hv : P.video_input = true)
    (hfile : P.input_files.get? (r.f_n + 1).toNat = some file) (hname : 0 < file.length)
    (hopen : E.VideoCapture file = some video) :
    openSource P E r = some (Except.ok
      { current_file := file, f_n := (r.f_n + 1).toNat, curr_img := r.curr_img.toNat,
        fps_vid_in := resolveFps video.fps, video_capture := video.frames.tail,
        captured_image := video.frames.head?, imread_calls := [] }) := by
  have hpos : 0 < P.input_files.length := by
    cases hl : P.input_files with
    | nil => rw [hl] at hfile; simp at hfile
    | cons a t => simp
  unfold openSource
  simp only [hv, if_true, hpos, hfile, Option.some_bind, hname, hopen]

/-- The loop body replaces the model by the one fitted to the frame and only appends to the
report. -/
theorem processFrame_model (P : Parameters) (fps_vid_in : ℚ) (f_n : Nat) (s s1 : SessionState)
    (frame : Frame) (h : processFrame P fps_vid_in f_n s frame = some (s1, none)) :
    s1.face_model = frame.detected
    ∧ s1.output_file = (writeRow P (frameRow P fps_vid_in s frame) s).output_file := by
  unfold processFrame at h
  simp only [] at h
  generalize (if (!P.output_hog_align_files.isEmpty) = true then
      output_HOG_frame frame.detection_success frame.hog_descriptor frame.num_hog_rows
        frame.num_hog_cols
    else some []) = hog_record at h
  cases hog_record with
  | none => simp at h
  | some record =>
    simp only [] at h
    by_cases ha : P.output_similarity_align.isEmpty = true
    · rw [if_pos ha] at h
      simp only [Option.some.injEq, Prod.mk.injEq, and_true] at h
      subst h
      unfold writeRow
      split <;> exact ⟨rfl, rfl⟩
    · rw [if_neg ha] at h
      cases hd : P.output_similarity_align.get? f_n with
      | none => rw [hd] at h; simp at h
      | some directory =>
        rw [hd] at h
        simp only [] at h
        by_cases hw : frame.write_success = true
        · rw [if_pos hw] at h
          simp only [Option.some.injEq, Prod.mk.injEq, and_true] at h
          subst h
          unfold writeRow
          split <;> exact ⟨rfl, rfl⟩
        · rw [if_neg hw] at h
          simp at h

/-- When `main` returns from the loop body, the row of the frame has not been written. -/
theorem processFrame_returned (P : Parameters) (fps_vid_in : ℚ) (f_n : Nat) (s s1 : SessionState)
    (frame : Frame) (c : Int) (h : processFrame P fps_vid_in f_n s frame = some (s1, some c)) :
    s1.output_file = s.output_file := by
  unfold processFrame at h
  simp only [] at h
  generalize (if (!P.output_hog_align_files.isEmpty) = true then
      output_HOG_frame frame.detection_success frame.hog_descriptor frame.num_hog_rows
        frame.num_hog_cols
    else some []) = hog_record at h
  cases hog_record with
  | none => simp at h
  | some record =>
    simp only [] at h
    by_cases ha : P.output_similarity_align.isEmpty = true
    · rw [if_pos ha] at h
      simp at h
    · rw [if_neg ha] at h
      cases hd : P.output_similarity_align.get? f_n with
      | none => rw [hd] at h; simp at h
      | some directory =>
        rw [hd] at h
        simp only [] at h
        by_cases hw : frame.write_success = true
        · rw [if_pos hw] at h
          simp at h
        · rw [if_neg hw] at h
          simp only [Option.some.injEq, Prod.mk.injEq] at h
          obtain ⟨rfl, -⟩ := h
          rfl

theorem frameRow_time_stamp (P : Parameters) (fps_vid_in : ℚ) (s : SessionState) (frame : Frame) :
    (frameRow P fps_vid_in s frame).get? 1
      = some (Cell.num 9 (timeStamp P fps_vid_in s.frame_count)) :=
  rfl

/-- The rows after the loop body has run on a frame: when row `k` of the report is the row of
the frame with counter `k` before the frame, it is so after it. -/
theorem rows_after_frame (P : Parameters) (fps_vid_in : ℚ) (f_n : Nat) (s s1 : SessionState)
    (frame : Frame) (hp : processFrame P fps_vid_in f_n s frame = some (s1, none))
    (hlen : P.output_files.isEmpty = false → s.output_file.length = s.frame_count)
    (hrows : ∀ k row, s.output_file.get? k = some row →
      row.get? 1 = some (Cell.num 9 (timeStamp P fps_vid_in k))) :
    (P.output_files.isEmpty = false → s1.output_file.length = s.frame_count + 1)
    ∧ ∀ k row, s1.output_file.get? k = some row →
        row.get? 1 = some (Cell.num 9 (timeStamp P fps_vid_in k)) := by
  obtain ⟨-, ho⟩ := processFrame_model P fps_vid_in f_n s s1 frame hp
  cases he : P.output_files.isEmpty with
  | true =>
    have hsame : s1.output_file = s.output_file := by rw [ho, writeRow, if_pos he]
    refine ⟨by intro h; exact absurd h (by simp), ?_⟩
    rw [hsame]
    exact hrows
  | false =>
    have hadd : s1.output_file = s.output_file ++ [frameRow P fps_vid_in s frame] := by
      rw [ho, writeRow, if_neg (by simp [he])]
    have hl := hlen he
    refine ⟨by intro _; rw [hadd, List.length_append, hl]; rfl, ?_⟩
    intro k row hk
    rw [hadd, List.get?_eq_getElem?] at hk
    by_cases hlt : k < s.output_file.length
    · rw [List.getElem?_append_left hlt] at hk
      exact hrows k row (by rw [List.get?_eq_getElem?]; exact hk)
    · rw [List.getElem?_append_right (by omega)] at hk
      have hk0 : k = s.output_file.length := by
        by_contra hne
        have hpos : 0 < k - s.output_file.length := by omega
        obtain ⟨m, hm⟩ : ∃ m, k - s.output_file.length = m + 1 := ⟨_, (Nat.succ_pred_eq_of_pos hpos).symm⟩
        rw [hm] at hk
        simp at hk
      rw [hk0, Nat.sub_self] at hk
      simp only [List.getElem?_cons_zero, Option.some.injEq] at hk
      subst hk
      rw [hk0, hl]
      exact frameRow_time_stamp P fps_vid_in s frame

/-- Every run of the tracking loop, however it ends: when row `k` of the report is the row of
the frame with counter `k` at its start, every row of the report at its end carries the time
stamp of its frame at the frame rate of the session. -/
theorem trackingLoop_rows (P : Parameters) (E : Environment) (fps_vid_in : ℚ) (f_n : Nat)
    (video_capture : List Frame) (curr_img : Nat) (captured_image : Option Frame)
    (s : SessionState) :
    ∀ (s' : SessionState) (code : Option Int),
      trackingLoop P E fps_vid_in f_n video_capture curr_img captured_image s = some (s', code) →
      (P.output_files.isEmpty = false → s.output_file.length = s.frame_count) →
      (∀ k row, s.output_file.get? k = some row →
        row.get? 1 = some (Cell.num 9 (timeStamp P fps_vid_in k))) →
      ∀ k row, s'.output_file.get? k = some row →
        row.get? 1 = some (Cell.num 9 (timeStamp P fps_vid_in k)) := by
  induction video_capture, curr_img, captured_image, s
    using trackingLoop.induct P E fps_vid_in f_n with
  | case1 video_capture curr_img s =>
    intro s' code h hlen hrows
    rw [trackingLoop] at h
    simp only [Option.some.injEq, Prod.mk.injEq] at h
    obtain ⟨rfl, -⟩ := h
    exact hrows
  | case2 video_capture curr_img s frame hp =>
    intro s' code h
    rw [trackingLoop] at h
    simp [hp] at h
  | case3 video_capture curr_img s frame s1 c hp =>
    intro s' code h hlen hrows
    rw [trackingLoop] at h
    simp only [hp, Option.some.injEq, Prod.mk.injEq] at h
    obtain ⟨rfl, -⟩ := h
    rw [processFrame_returned P fps_vid_in f_n s _ frame c hp]
    exact hrows
  | case4 video_capture curr_img s frame s1 hp s2 hr ih =>
    intro s' code h hlen hrows
    rw [trackingLoop] at h
    simp only [hp, hr, if_true] at h
    obtain ⟨h1, h2⟩ := rows_after_frame P fps_vid_in f_n s s1 frame hp hlen hrows
    obtain ⟨hfc, -⟩ := processFrame_frame P fps_vid_in f_n s s1 frame none hp
    exact ih s' code h (by intro he; simp only [s2]; rw [hfc]; exact h1 he) h2
  | case5 video_capture curr_img s frame s1 hp hr hq =>
    intro s' code h hlen hrows
    rw [trackingLoop] at h
    simp only [hp, hr, hq, if_true, if_false, Option.some.injEq, Prod.mk.injEq] at h
    obtain ⟨rfl, -⟩ := h
    exact (rows_after_frame P fps_vid_in f_n s s1 frame hp hlen hrows).2
  | case6 video_capture curr_img s frame s1 hp s2 hr hq ih =>
    intro s' code h hlen hrows
    rw [trackingLoop] at h
    simp only [hp, hr, hq, if_false] at h
    obtain ⟨h1, h2⟩ := rows_after_frame P fps_vid_in f_n s s1 frame hp hlen hrows
    obtain ⟨hfc, -⟩ := processFrame_frame P fps_vid_in f_n s s1 frame none hp
    exact ih s' code h (by intro he; simp only [s2]; rw [hfc]; exact h1 he) h2

/-- The writer of the tracked video, when it is constructed, is constructed on the file of the
session and at the frame rate of the session. -/
theorem openWriter_join (P : Parameters) (f_n : Nat) (fps_vid_in : ℚ) (cols rows : Nat)
    (w : VideoWriter) (h : (openWriter P f_n fps_vid_in cols rows).join = some w) :
    w.fps = fps_vid_in ∧ P.tracked_videos_output.get? f_n = some w.filename := by
  unfold openWriter at h
  by_cases he : P.tracked_videos_output.isEmpty = true
  · rw [if_pos he] at h
    simp at h
  · rw [if_neg he] at h
    cases hf : P.tracked_videos_output.get? f_n with
    | none => rw [hf] at h; simp at h
    | some filename =>
      cases hc : fourcc P.output_codec with
      | none => rw [hf, hc] at h; simp at h
      | some code =>
        rw [hf, hc] at h
        simp only [Option.join, Option.some_bind, id, Option.some.injEq] at h
        subst h
        exact ⟨rfl, rfl⟩

/-- However a session on an opened source ends: the source, the report file and the writer of
the tracked video are those of the session, and every row of the report carries the time stamp
of its frame at the frame rate of the source. -/
theorem session_source (P : Parameters) (E : Environment) (r : RunState) (src : OpenedSource)
    (res : SessionResult) (hsrc : openSource P E r = some (Except.ok src))
    (hres : session P E r = some res) :
    res.source = some src
    ∧ res.output_file_name = (if P.output_files.isEmpty then none else P.output_files.get? src.f_n)
    ∧ (∀ w, res.writerFace = some w →
        w.fps = src.fps_vid_in ∧ P.tracked_videos_output.get? src.f_n = some w.filename)
    ∧ ∀ k row, res.state.output_file.get? k = some row →
        row.get? 1 = some (Cell.num 9 (timeStamp P src.fps_vid_in k)) := by
  unfold session at hres
  simp only [hsrc] at hres
  split at hres
  · exact absurd hres (by simp)
  · split at hres
    · exact absurd hres (by simp)
    · rename_i s code hloop
      simp only [Option.some.injEq] at hres
      subst hres
      refine ⟨rfl, rfl, fun w hw => openWriter_join P _ _ _ _ w hw, ?_⟩
      exact trackingLoop_rows P E _ _ _ _ _ _ _ _ hloop (fun _ => rfl)
        (fun k row hk => by simp at hk)
    · rename_i s hloop
      simp only [Option.some.injEq] at hres
      subst hres
      refine ⟨rfl, rfl, fun w hw => openWriter_join P _ _ _ _ w hw, ?_⟩
      exact trackingLoop_rows P E _ _ _ _ _ _ _ _ hloop (fun _ => rfl)
        (fun k row hk => by simp at hk)

/-- A session whose source is not opened makes `main` return: nothing is written. -/
theorem session_not_opened (P : Parameters) (E : Environment) (r : RunState) (code : Int)
    (res : SessionResult) (hsrc : openSource P E r = some (Except.error code))
    (hres : session P E r = some res) :
    res.returned = some code ∧ res.source = none ∧ res.writerFace = none
    ∧ res.state.output_file = [] := by
  unfold session at hres
  simp only [hsrc, Option.some.injEq] at hres
  subst hres
  exact ⟨rfl, rfl, rfl, rfl⟩

theorem session_opened (P : Parameters) (E : Environment) (r : RunState) (res : SessionResult)
    (hres : session P E r = some res) :
    (∃ code, openSource P E r = some (Except.error code))
    ∨ ∃ src, openSource P E r = some (Except.ok src) := by
  cases hsrc : openSource P E r with
  | none =>
    unfold session at hres
    simp [hsrc] at hres
  | some result =>
    cases result with
    | error code => exact Or.inl ⟨code, rfl⟩
    | ok src => exact Or.inr ⟨src, rfl⟩

/-- The frame rate of an opened source: for a video, the resolved rate of the video of the
session, `input_files[f_n]`; for an image list, 30. -/
theorem openSource_fps (P : Parameters) (E : Environment) (r : RunState) (src : OpenedSource)
    (hsrc : openSource P E r = some (Except.ok src)) :
    (P.video_input = true → ∀ file video,
      P.input_files.get? (r.f_n + 1).toNat = some file → E.VideoCapture file = some video →
      src.current_file = file ∧ src.f_n = (r.f_n + 1).toNat
      ∧ src.fps_vid_in = resolveFps video.fps)
    ∧ (P.video_input = false → src.f_n = (r.f_n + 1).toNat ∧ src.fps_vid_in = 30) := by
  constructor
  · intro hv file video hfile hopen
    by_cases hname : 0 < file.length
    · rw [openSource_video P E r file video hv hfile hname hopen] at hsrc
      simp only [Option.some.injEq, Except.ok.injEq] at hsrc
      subst hsrc
      exact ⟨rfl, rfl, rfl⟩
    · have hpos : 0 < P.input_files.length := by
        cases hl : P.input_files with
        | nil => rw [hl] at hfile; simp at hfile
        | cons a t => simp
      unfold openSource at hsrc
      simp only [hv, if_true, hpos, hfile, Option.some_bind, hname, if_false] at hsrc
      simp at hsrc
  · intro hv
    unfold openSource at hsrc
    simp only [hv, Bool.false_eq_true, if_false, Option.bind_eq_some] at hsrc
    obtain ⟨files, -, h⟩ := hsrc
    by_cases he : files.isEmpty = true
    · rw [if_pos he] at h; simp at h
    · rw [if_neg he] at h
      simp only [Option.bind_eq_some, Option.some.injEq, Except.ok.injEq] at h
      obtain ⟨curr_img_file, -, h⟩ := h
      subst h
      exact ⟨rfl, rfl⟩

/-- The writer of the tracked video of a session on an opened source. -/
theorem session_writer (P : Parameters) (E : Environment) (r : RunState) (src : OpenedSource)
    (res : SessionResult) (hsrc : openSource P E r = some (Except.ok src))
    (hres : session P E r = some res) :
    res.writerFace
      = (openWriter P src.f_n src.fps_vid_in ((src.captured_image.map Frame.cols).getD 0)
          ((src.captured_image.map Frame.rows).getD 0)).join := by
  unfold session at hres
  simp only [hsrc] at hres
  split at hres
  · exact absurd hres (by simp)
  · split at hres
    · exact absurd hres (by simp)
    · simp only [Option.some.injEq] at hres
      subst hres
      rfl
    · simp only [Option.some.injEq] at hres
      subst hres
      rfl

/-- The report of a video session whose frames all run through the loop body: the header, then
one row per frame of the video, each with its frame number and time stamp. -/
theorem video_session_rows (P : Parameters) (E : Environment) (r : RunState) (file : String)
    (video : Video) (hv : P.video_input = true)
    (hfile : P.input_files.get? (r.f_n + 1).toNat = some file) (hname : 0 < file.length)
    (hopen : E.VideoCapture file = some video)
    (hreport : P.output_files.isEmpty = false)
    (hrange : outputsInRange P (r.f_n + 1).toNat = true)
    (hall : ∀ f ∈ video.frames, frameCompletes P (r.f_n + 1).toNat f = true) :
    0 < resolveFps video.fps
    ∧ ∃ res, session P E r = some res ∧ res.returned = none
      ∧ res.header = some (prepareOutputFile P.output_2D_landmarks P.output_3D_landmarks
          P.output_model_params P.output_pose P.output_AUs P.output_gaze
          r.face_model.pdm.NumberOfPoints r.face_model.CalculateAllEyeLandmarks.length
          r.face_model.pdm.NumberOfModes r.face_analyser.GetAUClassNames
          r.face_analyser.GetAURegNames)
      ∧ res.state.output_file.length = video.frames.length
      ∧ ∀ k, k < video.frames.length → ∃ row, res.state.output_file.get? k = some row
          ∧ row.take 2 = [Cell.int ((k : Int) + 1), Cell.num 9 ((k : ℚ) / resolveFps video.fps)] := by
  refine ⟨resolveFps_pos _, ?_⟩
  have hsrc := openSource_video P E r file video hv hfile hname hopen
  have hcond := outputsInRange_cond P (r.f_n + 1).toNat hrange
  cases hframes : video.frames with
  | nil =>
    unfold session
    simp only [hsrc, hframes, List.head?_nil, List.tail_nil, hcond, trackingLoop_end]
    simp only [hreport, Bool.false_eq_true, if_false]
    exact ⟨_, rfl, rfl, rfl, rfl, by intro k hk; simp at hk⟩
  | cons frame rest =>
    rw [hframes] at hall
    obtain ⟨s', rows, hrun, hrows, hlen, hnum⟩ :=
      trackingLoop_video P E (resolveFps video.fps) (r.f_n + 1).toNat hv hreport rest
        r.curr_img.toNat frame
        { frame_count := 0,
          camera := resolveIntrinsics P.cx_undefined P.fx_undefined r.camera frame.cols frame.rows,
          face_model := r.face_model, face_analyser := r.face_analyser, output_file := [],
          hog_output_file := [], aligned_files := [], imread_calls := [], pose_calls := [] } hall
    unfold session
    simp only [hsrc, hframes, List.head?_cons, List.tail_cons, hcond, Option.map_some',
      Option.getD_some, Bool.false_eq_true, if_false, hrun]
    simp only [hreport, Bool.false_eq_true, if_false]
    refine ⟨_, rfl, rfl, rfl, ?_, ?_⟩
    · simp only [hrows, List.nil_append, hlen, List.length_cons]
    · intro k hk
      simp only [hrows, List.nil_append]
      have hk2 : k < rows.length := by rw [hlen]; simpa using hk
      refine ⟨rows.get ⟨k, hk2⟩, List.get?_eq_get hk2, ?_⟩
      rw [hnum k _ (List.get?_eq_get hk2)]
      simp [div_eq_mul_inv]

/-- C8, amended: a video session whose frames all run through the loop body (the outputs of
each frame are written and the key `q` is not received) and whose output files exist (the
report, and the HOG file and the tracked video when they are asked for, with the codec
characters read for the tracked video) writes one header line and then exactly one data row per
frame of the video, whether or not the detection succeeded; row number `k + 1` carries the
frame number `k + 1` and the time stamp `k / fps`, with `fps` the resolved frame rate, which is
positive. -/
theorem video_session_report (P : Parameters) (E : Environment) (r : RunState) (file : String)
    (video : Video) (hv : P.video_input = true)
    (hfile : P.input_files.get? (r.f_n + 1).toNat = some file) (hname : 0 < file.length)
    (hopen : E.VideoCapture file = some video)
    (hreport : P.output_files.isEmpty = false)
    (hrange : outputsInRange P (r.f_n + 1).toNat = true)
    (hall : ∀ f ∈ video.frames, frameCompletes P (r.f_n + 1).toNat f = true) :
    0 < resolveFps video.fps
    ∧ ∃ res, session P E r = some res ∧ res.returned = none
      ∧ res.header = some (prepareOutputFile P.output_2D_landmarks P.output_3D_landmarks
          P.output_model_params P.output_pose P.output_AUs P.output_gaze
          r.face_model.pdm.NumberOfPoints r.face_model.CalculateAllEyeLandmarks.length
          r.face_model.pdm.NumberOfModes r.face_analyser.GetAUClassNames
          r.face_analyser.GetAURegNames)
      ∧ res.state.output_file.length = video.frames.length
      ∧ ∀ k, k < video.frames.length → ∃ row, res.state.output_file.get? k = some row
          ∧ row.take 2 = [Cell.int ((k : Int) + 1), Cell.num 9 ((k : ℚ) / resolveFps video.fps)] :=
  video_session_rows P E r file video hv hfile hname hopen hreport hrange hall

theorem exampleFrame_completes (quiet_mode : Bool) (f_n : Nat) (key : Char) (hkey : key ≠ 'q') :
    frameCompletes (videoParameters quiet_mode) f_n (exampleFrame key) = true := by
  simp [frameCompletes, hogRecordWritten, alignedFaceWritten, quitKey, videoParameters,
    exampleFrame, hkey]

/-- C8, a witness of the amended statement, the example of the specification: a 10-frame video at
25 frames per second gives a header and 10 rows, with time stamps `0, 1/25, ..., 9/25`. -/
theorem video_session_report_witness :
    0 < resolveFps (some 25)
    ∧ ∃ res, session (videoParameters true)
          (exampleEnvironment (List.replicate 10 (exampleFrame ' '))) startRun = some res
      ∧ res.returned = none
      ∧ res.header = some (prepareOutputFile true true true true true true
          blankModel.pdm.NumberOfPoints blankModel.CalculateAllEyeLandmarks.length
          blankModel.pdm.NumberOfModes partAnalyser.GetAUClassNames partAnalyser.GetAURegNames)
      ∧ res.state.output_file.length = (List.replicate 10 (exampleFrame ' ')).length
      ∧ ∀ k, k < (List.replicate 10 (exampleFrame ' ')).length →
          ∃ row, res.state.output_file.get? k = some row
            ∧ row.take 2 = [Cell.int ((k : Int) + 1), Cell.num 9 ((k : ℚ) / resolveFps (some 25))] :=
  video_session_report (videoParameters true)
    (exampleEnvironment (List.replicate 10 (exampleFrame ' '))) startRun "in.avi"
    ⟨List.replicate 10 (exampleFrame ' '), some 25⟩ rfl rfl (by decide) (by simp [exampleEnvironment])
    rfl rfl
    (fun f hf => by
      rw [List.eq_of_mem_replicate hf]
      exact exampleFrame_completes true _ ' ' (by decide))

theorem trackingLoop_quit (P : Parameters) (E : Environment) (fps_vid_in : ℚ) (f_n : Nat)
    (video_capture : List Frame) (curr_img : Nat) (frame : Frame) (s s1 : SessionState)
    (hproc : processFrame P fps_vid_in f_n s frame = some (s1, none))
    (hq : quitKey P frame = true) :
    trackingLoop P E fps_vid_in f_n video_capture curr_img (some frame) s
      = some ({ s1 with imread_calls :=
          s1.imread_calls ++ (nextFrame P E f_n video_capture curr_img).2.2.2 }, some 0) := by
  unfold quitKey at hq
  have hr : ¬ (!P.quiet_mode && decide (frame.character_press = 'r')) = true := by
    simp only [Bool.and_eq_true, Bool.not_eq_true', decide_eq_true_eq] at hq ⊢
    rintro ⟨-, h⟩
    rw [hq.2] at h
    exact absurd h (by decide)
  rw [trackingLoop]
  simp only [hproc]
  rw [if_neg hr, if_pos hq]

/-- C8, as stated, fails: in interactive mode, a video of two frames with the key `q` received
after the first one gives a report of a header and one data row, and `main` returns 0. -/
theorem video_session_quit_after_first_frame :
    [exampleFrame 'q', exampleFrame ' '].length = 2
    ∧ ∃ res, session (videoParameters false)
          (exampleEnvironment [exampleFrame 'q', exampleFrame ' ']) startRun = some res
      ∧ res.returned = some 0 ∧ res.header.isSome = true
      ∧ res.state.output_file.length = 1 := by
  refine ⟨rfl, ?_⟩
  have hsrc := openSource_video (videoParameters false)
    (exampleEnvironment [exampleFrame 'q', exampleFrame ' ']) startRun "in.avi"
    ⟨[exampleFrame 'q', exampleFrame ' '], some 25⟩ rfl rfl (by decide)
    (by simp [exampleEnvironment])
  have hcond := outputsInRange_cond (videoParameters false) (startRun.f_n + 1).toNat (by rfl)
  obtain ⟨s1, hp, ho⟩ := processFrame_completes (videoParameters false) (resolveFps (some 25))
    (startRun.f_n + 1).toNat
    { frame_count := 0,
      camera := resolveIntrinsics true true startRun.camera 640 480,
      face_model := startRun.face_model, face_analyser := startRun.face_analyser,
      output_file := [], hog_output_file := [], aligned_files := [], imread_calls := [],
      pose_calls := [] } (exampleFrame 'q') rfl rfl
  have hq := trackingLoop_quit (videoParameters false)
    (exampleEnvironment [exampleFrame 'q', exampleFrame ' ']) (resolveFps (some 25))
    (startRun.f_n + 1).toNat [exampleFrame ' '] startRun.curr_img.toNat (exampleFrame 'q') _ s1 hp
    (by simp [quitKey, videoParameters, exampleFrame])
  unfold session
  simp only [hsrc, List.head?_cons, List.tail_cons, hcond, Option.map_some', Option.getD_some,
    Bool.false_eq_true, if_false]
  have e1 : (exampleFrame 'q').cols = 640 := rfl
  have e2 : (exampleFrame 'q').rows = 480 := rfl
  have e3 : (videoParameters false).cx_undefined = true := rfl
  have e4 : (videoParameters false).fx_undefined = true := rfl
  rw [e1, e2, e3, e4, hq]
  refine ⟨_, rfl, rfl, rfl, ?_⟩
  simp only [ho]
  simp [writeRow, videoParameters]

theorem resolveIntrinsics_undefined (camera : Intrinsics) (cols rows : Nat) :
    resolveIntrinsics true true camera cols rows
      = { fx := (500 * ((cols : ℚ) / 640) + 500 * ((rows : ℚ) / 480)) / 2,
          fy := (500 * ((cols : ℚ) / 640) + 500 * ((rows : ℚ) / 480)) / 2,
          cx := (cols : ℚ) / 2, cy := (rows : ℚ) / 2 } := by
  simp [resolveIntrinsics]

/-- C9, as stated, fails: for a first frame of 1280 by 720 and intrinsics not configured the
focal length is 875, the mean of `500 * 1280 / 640 = 1000` and `500 * 720 / 480 = 750`, not
`500 * width / 640`. -/
theorem focal_length_uses_height :
    cx_undefined ⟨0, 0, 0, 0⟩ = true ∧ fx_undefined ⟨0, 0, 0, 0⟩ = true
    ∧ (resolveIntrinsics true true ⟨0, 0, 0, 0⟩ 1280 720).fx = 875
    ∧ (resolveIntrinsics true true ⟨0, 0, 0, 0⟩ 1280 720).fy = 875
    ∧ (875 : ℚ) ≠ 500 * 1280 / 640 := by
  refine ⟨by simp [cx_undefined], by simp [fx_undefined], ?_, ?_, by norm_num⟩
  · rw [resolveIntrinsics_undefined]; norm_num
  · rw [resolveIntrinsics_undefined]; norm_num

/-- C9, amended: when the intrinsics are not configured (all four values 0, so that both flags
are set), a session whose first frame is `cols` by `rows` resolves `cx = cols / 2`,
`cy = rows / 2` and `fx = fy = (500 * cols / 640 + 500 * rows / 480) / 2`, which is 500 for 640
by 480; however the session ends, these are the intrinsics when the loop is left and the ones
passed to `GetPose` for every frame. -/
theorem session_intrinsics (P : Parameters) (E : Environment) (r : RunState) (src : OpenedSource)
    (frame : Frame) (res : SessionResult)
    (hcx : P.cx_undefined = cx_undefined ⟨0, 0, 0, 0⟩)
    (hfx : P.fx_undefined = fx_undefined ⟨0, 0, 0, 0⟩)
    (hsrc : openSource P E r = some (Except.ok src))
    (hframe : src.captured_image = some frame)
    (hres : session P E r = some res) :
    res.state.camera
        = { fx := (500 * ((frame.cols : ℚ) / 640) + 500 * ((frame.rows : ℚ) / 480)) / 2,
            fy := (500 * ((frame.cols : ℚ) / 640) + 500 * ((frame.rows : ℚ) / 480)) / 2,
            cx := (frame.cols : ℚ) / 2, cy := (frame.rows : ℚ) / 2 }
    ∧ (∀ c ∈ res.state.pose_calls, c = res.state.camera)
    ∧ (frame.cols = 640 → frame.rows = 480 → res.state.camera = ⟨500, 500, 320, 240⟩) := by
  have hcx2 : P.cx_undefined = true := by rw [hcx]; simp [cx_undefined]
  have hfx2 : P.fx_undefined = true := by rw [hfx]; simp [fx_undefined]
  have hcam : res.state.camera
      = resolveIntrinsics true true r.camera frame.cols frame.rows
      ∧ ∀ c ∈ res.state.pose_calls, c = res.state.camera := by
    unfold session at hres
    simp only [hsrc, hframe, Option.map_some', Option.getD_some, hcx2, hfx2] at hres
    split at hres
    · exact absurd hres (by simp)
    · split at hres
      · exact absurd hres (by simp)
      · rename_i s code hloop
        simp only [Option.some.injEq] at hres
        subst hres
        obtain ⟨h1, k, h2⟩ := trackingLoop_camera P E _ _ _ _ _ _ _ _ hloop
        refine ⟨h1, ?_⟩
        intro c hc
        simp only [h2, List.nil_append] at hc
        rw [List.eq_of_mem_replicate hc, h1]
      · rename_i s hloop
        simp only [Option.some.injEq] at hres
        subst hres
        obtain ⟨h1, k, h2⟩ := trackingLoop_camera P E _ _ _ _ _ _ _ _ hloop
        refine ⟨h1, ?_⟩
        intro c hc
        simp only [h2, List.nil_append] at hc
        rw [List.eq_of_mem_replicate hc, h1]
  rw [resolveIntrinsics_undefined] at hcam
  refine ⟨hcam.1, hcam.2, ?_⟩
  intro h1 h2
  rw [hcam.1, h1, h2]
  norm_num

/-- An image list whose files all decode to frames that run through the loop body: from image
`curr_img` on, the loop reads the remaining files in order, each once, and ends after the
last one. -/
theorem trackingLoop_images (P : Parameters) (E : Environment) (fps_vid_in : ℚ) (f_n : Nat)
    (hv : P.video_input = false) (files : List String)
    (hfiles : P.input_image_files.getD f_n [] = files)
    (hread : ∀ file ∈ files, ∃ frame, E.imread file = some frame
      ∧ frameCompletes P f_n frame = true) :
    ∀ (n curr_img : Nat) (frame : Frame) (video_capture : List Frame) (s : SessionState),
      files.length - curr_img = n → curr_img < files.length →
      frameCompletes P f_n frame = true →
      ∃ s', trackingLoop P E fps_vid_in f_n video_capture curr_img (some frame) s
          = some (s', none)
        ∧ s'.imread_calls = s.imread_calls ++ files.drop (curr_img + 1) := by
  intro n
  induction n with
  | zero => intro curr_img frame video_capture s hn hlt _; omega
  | succ m ih =>
    intro curr_img frame video_capture s hn hlt hf
    simp only [frameCompletes, Bool.and_eq_true, Bool.not_eq_true'] at hf
    obtain ⟨s1, hp, -⟩ := processFrame_completes P fps_vid_in f_n s frame hf.1.1 hf.1.2
    obtain ⟨-, -, hi1, -⟩ := processFrame_frame P fps_vid_in f_n s s1 frame none hp
    obtain ⟨s3, hloop, -, -, -, -, hi3⟩ :=
      trackingLoop_step P E fps_vid_in f_n video_capture curr_img frame s s1 hp hf.2
    have hnf : P.video_input = true ↔ False := by simp [hv]
    by_cases hnext : curr_img + 1 < files.length
    · have hmem : files.getD (curr_img + 1) "" ∈ files := by
        rw [List.getD_eq_getElem _ _ hnext]; exact List.getElem_mem hnext
      obtain ⟨frame2, hr2, hc2⟩ := hread _ hmem
      have hnx : nextFrame P E f_n video_capture curr_img
          = (some frame2, video_capture, curr_img + 1, [files.getD (curr_img + 1) ""]) := by
        simp only [nextFrame, hnf, if_false, hfiles, hnext, if_true, hr2]
      rw [hnx] at hloop hi3
      obtain ⟨s', hrun, hcalls⟩ := ih (curr_img + 1) frame2 video_capture s3 (by omega) hnext hc2
      refine ⟨s', hloop.trans hrun, ?_⟩
      rw [hcalls, hi3, hi1, List.append_assoc, List.singleton_append,
        List.getD_eq_getElem _ _ hnext, ← List.drop_eq_getElem_cons hnext]
    · have hnx : nextFrame P E f_n video_capture curr_img
          = (none, video_capture, curr_img + 1, []) := by
        simp only [nextFrame, hnf, if_false, hfiles, hnext]
      rw [hnx] at hloop hi3
      refine ⟨s3, hloop.trans (trackingLoop_end P E fps_vid_in f_n _ _ s3), ?_⟩
      rw [hi3, hi1, List.append_nil, List.drop_eq_nil_of_le (by omega), List.append_nil]

theorem openSource_images (P : Parameters) (E : Environment) (r : RunState) (file : String)
    (rest : List String) (hv : P.video_input = false)
    (hfiles : P.input_image_files.get? (r.f_n + 1).toNat = some (file :: rest))
    (hcurr : r.curr_img = -1) :
    openSource P E r = some (Except.ok
      { current_file := "", f_n := (r.f_n + 1).toNat, curr_img := 0, fps_vid_in := 30,
        video_capture := [], captured_image := E.imread file, imread_calls := [file] }) := by
  have hfiles2 := hfiles
  rw [List.get?_eq_getElem?] at hfiles2
  unfold openSource
  simp [hv, hfiles2, hcurr]

/-- A session on an image list whose files all decode to frames that run through the loop body
reads the files of the list in order, each once, and ends after the last one; on an empty list
it reads nothing and `main` returns 1. -/
theorem image_session_reads (P : Parameters) (E : Environment) (r : RunState)
    (files : List String) (hv : P.video_input = false)
    (hfiles : P.input_image_files.get? (r.f_n + 1).toNat = some files)
    (hcurr : r.curr_img = -1)
    (hrange : outputsInRange P (r.f_n + 1).toNat = true)
    (hread : ∀ file ∈ files, ∃ frame, E.imread file = some frame
      ∧ frameCompletes P (r.f_n + 1).toNat frame = true) :
    ∃ res, session P E r = some res ∧ res.state.imread_calls = files
      ∧ res.returned = (if files.isEmpty then some 1 else none) := by
  cases files with
  | nil =>
    have hsrc : openSource P E r = some (Except.error 1) := by
      have hfiles2 := hfiles
      rw [List.get?_eq_getElem?] at hfiles2
      unfold openSource
      simp [hv, hfiles2]
    unfold session
    simp only [hsrc]
    exact ⟨_, rfl, rfl, rfl⟩
  | cons file rest =>
    have hsrc := openSource_images P E r file rest hv hfiles hcurr
    have hcond := outputsInRange_cond P (r.f_n + 1).toNat hrange
    obtain ⟨frame, hr, hc⟩ := hread file (List.mem_cons_self _ _)
    have hgetD : P.input_image_files.getD (r.f_n + 1).toNat [] = file :: rest := by
      rw [List.getD_eq_getElem?_getD, ← List.get?_eq_getElem?, hfiles]; rfl
    obtain ⟨s', hrun, hcalls⟩ := trackingLoop_images P E 30 (r.f_n + 1).toNat hv (file :: rest)
      hgetD hread (file :: rest).length 0 frame []
      { frame_count := 0,
        camera := resolveIntrinsics P.cx_undefined P.fx_undefined r.camera frame.cols frame.rows,
        face_model := r.face_model, face_analyser := r.face_analyser, output_file := [],
        hog_output_file := [], aligned_files := [], imread_calls := [file], pose_calls := [] }
      rfl (by simp) hc
    unfold session
    simp only [hsrc, hr, hcond, Option.map_some', Option.getD_some, Bool.false_eq_true, if_false,
      hrun]
    refine ⟨_, rfl, ?_, rfl⟩
    simp only [hcalls]
    rfl

theorem take_drop_step (files : List String) (good c : Nat) (hc : c < good)
    (hlen : c < files.length) :
    (files.take (good + 1)).drop c = files.getD c "" :: (files.take (good + 1)).drop (c + 1) := by
  have hl : c < (files.take (good + 1)).length := by
    rw [List.length_take]; omega
  rw [List.drop_eq_getElem_cons hl, List.getElem_take, List.getD_eq_getElem _ _ hlen]

/-- An image list of which the first `good` files decode to frames that run through the loop
body and the next one, if there is one, decodes to an empty image: from image `curr_img` on, the
loop reads the files in order, each once, up to and including the first empty one, and ends. -/
theorem trackingLoop_images_upto (P : Parameters) (E : Environment) (fps_vid_in : ℚ) (f_n : Nat)
    (hv : P.video_input = false) (files : List String)
    (hfiles : P.input_image_files.getD f_n [] = files) (good : Nat)
    (hgood : good ≤ files.length)
    (hread : ∀ i, i < good → ∃ frame, E.imread (files.getD i "") = some frame
      ∧ frameCompletes P f_n frame = true)
    (hstop : good < files.length → E.imread (files.getD good "") = none) :
    ∀ (n curr_img : Nat) (frame : Frame) (video_capture : List Frame) (s : SessionState),
      good - curr_img = n → curr_img < good →
      frameCompletes P f_n frame = true →
      ∃ s', trackingLoop P E fps_vid_in f_n video_capture curr_img (some frame) s
          = some (s', none)
        ∧ s'.imread_calls = s.imread_calls ++ (files.take (good + 1)).drop (curr_img + 1) := by
  intro n
  induction n with
  | zero => intro curr_img frame video_capture s hn hlt _; omega
  | succ m ih =>
    intro curr_img frame video_capture s hn hlt hf
    simp only [frameCompletes, Bool.and_eq_true, Bool.not_eq_true'] at hf
    obtain ⟨s1, hp, -⟩ := processFrame_completes P fps_vid_in f_n s frame hf.1.1 hf.1.2
    obtain ⟨-, -, hi1, -⟩ := processFrame_frame P fps_vid_in f_n s s1 frame none hp
    obtain ⟨s3, hloop, -, -, -, -, hi3⟩ :=
      trackingLoop_step P E fps_vid_in f_n video_capture curr_img frame s s1 hp hf.2
    have hnf : P.video_input = true ↔ False := by simp [hv]
    by_cases hnext : curr_img + 1 < good
    · have hnl : curr_img + 1 < files.length := by omega
      obtain ⟨frame2, hr2, hc2⟩ := hread _ hnext
      have hnx : nextFrame P E f_n video_capture curr_img
          = (some frame2, video_capture, curr_img + 1, [files.getD (curr_img + 1) ""]) := by
        simp only [nextFrame, hnf, if_false, hfiles, hnl, if_true, hr2]
      rw [hnx] at hloop hi3
      obtain ⟨s', hrun, hcalls⟩ := ih (curr_img + 1) frame2 video_capture s3 (by omega) hnext hc2
      refine ⟨s', hloop.trans hrun, ?_⟩
      rw [hcalls, hi3, hi1, List.append_assoc, List.singleton_append,
        ← take_drop_step files good (curr_img + 1) hnext hnl]
    · have hcg : curr_img + 1 = good := by omega
      by_cases hlast : good < files.length
      · have hnl : curr_img + 1 < files.length := by omega
        have hnone : E.imread (files.getD (curr_img + 1) "") = none := by
          rw [hcg]; exact hstop hlast
        have hnx : nextFrame P E f_n video_capture curr_img
            = (none, video_capture, curr_img + 1, [files.getD (curr_img + 1) ""]) := by
          simp only [nextFrame, hnf, if_false, hfiles, hnl, if_true, hnone]
        rw [hnx] at hloop hi3
        refine ⟨s3, hloop.trans (trackingLoop_end P E fps_vid_in f_n _ _ s3), ?_⟩
        have hl : curr_img + 1 < (files.take (good + 1)).length := by
          rw [List.length_take]; omega
        rw [hi3, hi1, List.drop_eq_getElem_cons hl, List.getElem_take,
          List.getD_eq_getElem _ _ hnl, List.drop_eq_nil_of_le (by rw [List.length_take]; omega)]
      · have hnl : ¬ curr_img + 1 < files.length := by omega
        have hnx : nextFrame P E f_n video_capture curr_img
            = (none, video_capture, curr_img + 1, []) := by
          simp only [nextFrame, hnf, if_false, hfiles, hnl]
        rw [hnx] at hloop hi3
        refine ⟨s3, hloop.trans (trackingLoop_end P E fps_vid_in f_n _ _ s3), ?_⟩
        rw [hi3, hi1, List.append_nil,
          List.drop_eq_nil_of_le (by rw [List.length_take]; omega), List.append_nil]

/-- A session on an image list of which the first `good` files decode to frames that run through
the loop body and the next one, if there is one, decodes to an empty image: the session reads
the files in order, each once, up to and including the first empty one, and ends there; on an
empty list it reads nothing and `main` returns 1. -/
theorem image_session_reads_upto (P : Parameters) (E : Environment) (r : RunState)
    (files : List String) (hv : P.video_input = false)
    (hfiles : P.input_image_files.get? (r.f_n + 1).toNat = some files)
    (hcurr : r.curr_img = -1)
    (hrange : outputsInRange P (r.f_n + 1).toNat = true) (good : Nat)
    (hgood : good ≤ files.length)
    (hread : ∀ i, i < good → ∃ frame, E.imread (files.getD i "") = some frame
      ∧ frameCompletes P (r.f_n + 1).toNat frame = true)
    (hstop : good < files.length → E.imread (files.getD good "") = none) :
    ∃ res, session P E r = some res ∧ res.state.imread_calls = files.take (good + 1)
      ∧ res.returned = (if files.isEmpty then some 1 else none) := by
  cases files with
  | nil =>
    have hsrc : openSource P E r = some (Except.error 1) := by
      have hfiles2 := hfiles
      rw [List.get?_eq_getElem?] at hfiles2
      unfold openSource
      simp [hv, hfiles2]
    unfold session
    simp only [hsrc]
    exact ⟨_, rfl, rfl, rfl⟩
  | cons file rest =>
    have hsrc := openSource_images P E r file rest hv hfiles hcurr
    have hcond := outputsInRange_cond P (r.f_n + 1).toNat hrange
    have hgetD : P.input_image_files.getD (r.f_n + 1).toNat [] = file :: rest := by
      rw [List.getD_eq_getElem?_getD, ← List.get?_eq_getElem?, hfiles]; rfl
    cases good with
    | zero =>
      have hnone : E.imread file = none := hstop (by simp)
      unfold session
      simp only [hsrc, hnone, hcond, Option.map_none', Option.getD_none, Bool.false_eq_true,
        if_false, trackingLoop_end]
      exact ⟨_, rfl, rfl, rfl⟩
    | succ g =>
      obtain ⟨frame, hr, hc⟩ := hread 0 (by omega)
      have hr0 : E.imread file = some frame := hr
      obtain ⟨s', hrun, hcalls⟩ := trackingLoop_images_upto P E 30 (r.f_n + 1).toNat hv
        (file :: rest) hgetD (g + 1) hgood hread hstop (g + 1) 0 frame []
        { frame_count := 0,
          camera :=
            resolveIntrinsics P.cx_undefined P.fx_undefined r.camera frame.cols frame.rows,
          face_model := r.face_model, face_analyser := r.face_analyser, output_file := [],
          hog_output_file := [], aligned_files := [], imread_calls := [file],
          pose_calls := [] }
        rfl (by omega) hc
      unfold session
      simp only [hsrc, hr0, hcond, Option.map_some', Option.getD_some, Bool.false_eq_true,
        if_false, hrun]
      refine ⟨_, rfl, ?_, rfl⟩
      simp only [hcalls]
      rfl

theorem imageFilesOfDirectory_sorted (listing : List String) :
    (imageFilesOfDirectory listing).Sorted (· ≤ ·) :=
  List.Sorted.filter _ (sortNames_sorted listing)

theorem imageFilesOfDirectory_perm (listing : List String) :
    (imageFilesOfDirectory listing).Perm (listing.filter (fun p => isImageFile p)) :=
  List.Perm.filter _ (sortNames_perm listing)

theorem get_image_fdir_some (directory_iterator : String → Option (List String))
    (input_image_files : List (List String)) (as_video : Bool) (image_directory : String)
    (rest2 file_in_directory : List String)
    (h : directory_iterator image_directory = some file_in_directory) :
    get_image_input_output_params_feats directory_iterator input_image_files as_video
        ("-fdir" :: image_directory :: rest2)
      = get_image_input_output_params_feats directory_iterator
          (input_image_files ++ [imageFilesOfDirectory file_in_directory]) as_video rest2 := by
  rw [get_image_input_output_params_feats, if_pos rfl]
  simp only [h]

theorem get_image_fdir_none (directory_iterator : String → Option (List String))
    (input_image_files : List (List String)) (as_video : Bool) (image_directory : String)
    (rest2 : List String) (h : directory_iterator image_directory = none) :
    get_image_input_output_params_feats directory_iterator input_image_files as_video
        ("-fdir" :: image_directory :: rest2)
      = get_image_input_output_params_feats directory_iterator input_image_files as_video
          rest2 := by
  rw [get_image_input_output_params_feats, if_pos rfl]
  simp only [h]

theorem get_image_other (directory_iterator : String → Option (List String))
    (input_image_files : List (List String)) (as_video : Bool) (argument : String)
    (rest : List String) (h : ¬ argument = "-fdir") :
    get_image_input_output_params_feats directory_iterator input_image_files as_video
        (argument :: rest)
      = (get_image_input_output_params_feats directory_iterator input_image_files
          (if argument = "-asvid" then true else as_video) rest).map
            (fun r => (r.1, r.2.1, argument :: r.2.2)) := by
  rw [get_image_input_output_params_feats.eq_def]
  simp only [if_neg h]

/-- The image lists found are added after the ones already there. -/
theorem get_image_extends (directory_iterator : String → Option (List String))
    (input_image_files : List (List String)) (as_video : Bool) (arguments : List String) :
    ∀ r : List (List String) × Bool × List String,
      get_image_input_output_params_feats directory_iterator input_image_files as_video arguments
        = some r → ∃ more, r.1 = input_image_files ++ more := by
  induction input_image_files, as_video, arguments
    using get_image_input_output_params_feats.induct directory_iterator with
  | case1 files av =>
    intro r h
    rw [get_image_input_output_params_feats] at h
    simp only [Option.some.injEq] at h
    subst h
    exact ⟨[], by simp⟩
  | case2 files av =>
    intro r h
    rw [get_image_input_output_params_feats, if_pos rfl] at h
    simp at h
  | case3 files av d rest2 listing hd ih =>
    intro r h
    rw [get_image_fdir_some _ _ _ _ _ _ hd] at h
    obtain ⟨more, hm⟩ := ih r h
    exact ⟨imageFilesOfDirectory listing :: more, by rw [hm]; simp⟩
  | case4 files av d rest2 hd ih =>
    intro r h
    rw [get_image_fdir_none _ _ _ _ _ hd] at h
    exact ih r h
  | case5 files av a rest2 ha ih =>
    intro r h
    rw [get_image_other _ _ _ _ _ ha, Option.map_eq_some'] at h
    obtain ⟨r2, h2, rfl⟩ := h
    exact ih r2 h2

/-- Arguments that are parsed on their own can be parsed first: the rest of the arguments is then
parsed from the image lists and the flag they gave. -/
theorem get_image_append (directory_iterator : String → Option (List String))
    (input_image_files : List (List String)) (as_video : Bool) (pre : List String) :
    ∀ rp : List (List String) × Bool × List String,
      get_image_input_output_params_feats directory_iterator input_image_files as_video pre
        = some rp →
      ∀ rest, get_image_input_output_params_feats directory_iterator input_image_files as_video
          (pre ++ rest)
        = (get_image_input_output_params_feats directory_iterator rp.1 rp.2.1 rest).map
            (fun r => (r.1, r.2.1, rp.2.2 ++ r.2.2)) := by
  induction input_image_files, as_video, pre
    using get_image_input_output_params_feats.induct directory_iterator with
  | case1 files av =>
    intro rp h rest
    rw [get_image_input_output_params_feats] at h
    simp only [Option.some.injEq] at h
    subst h
    simp
  | case2 files av =>
    intro rp h
    rw [get_image_input_output_params_feats, if_pos rfl] at h
    simp at h
  | case3 files av d rest2 listing hd ih =>
    intro rp h rest
    rw [get_image_fdir_some _ _ _ _ _ _ hd] at h
    rw [List.cons_append, List.cons_append, get_image_fdir_some _ _ _ _ _ _ hd]
    exact ih rp h rest
  | case4 files av d rest2 hd ih =>
    intro rp h rest
    rw [get_image_fdir_none _ _ _ _ _ hd] at h
    rw [List.cons_append, List.cons_append, get_image_fdir_none _ _ _ _ _ hd]
    exact ih rp h rest
  | case5 files av a rest2 ha ih =>
    intro rp h rest
    rw [get_image_other _ _ _ _ _ ha, Option.map_eq_some'] at h
    obtain ⟨r2, h2, rfl⟩ := h
    rw [List.cons_append, get_image_other _ _ _ _ _ ha, ih r2 h2 rest, Option.map_map]
    rfl

/-- The image list of a `-fdir` argument: when the arguments before the flag are parsed on their
own and give `k` image lists, the list of an existing directory is image list number `k` of the
result. -/
theorem get_image_of_fdir (directory_iterator : String → Option (List String))
    (pre post : List String) (image_directory : String) (listing : List String)
    (rp result : List (List String) × Bool × List String)
    (hpre : get_image_input_output_params_feats directory_iterator [] false pre = some rp)
    (hdir : directory_iterator image_directory = some listing)
    (hres : get_image_input_output_params_feats directory_iterator [] false
      (pre ++ "-fdir" :: image_directory :: post) = some result) :
    result.1.get? rp.1.length = some (imageFilesOfDirectory listing) := by
  rw [get_image_append _ _ _ _ rp hpre, get_image_fdir_some _ _ _ _ _ _ hdir,
    Option.map_eq_some'] at hres
  obtain ⟨r2, h2, rfl⟩ := hres
  obtain ⟨more, hm⟩ := get_image_extends _ _ _ _ r2 h2
  simp only [hm, List.append_assoc, List.singleton_append]
  rw [List.get?_eq_getElem?, List.getElem?_append_right (le_refl _)]
  simp

/-- C10, amended: for an existing directory given with `-fdir`, the image list of the session is
the listing's entries with the extension `.jpg` or `.png`, sorted.  When the first `good` files
of the list decode to frames that run through the loop body (non-empty images, their outputs
written, no key `q`), the next file, if there is one, decodes to an empty image, and the output
files of the session exist, the session reads the files of the list in that order, each once,
up to and including the first one that decodes to an empty image, and ends there: all of them,
ending after the last one, when every file decodes; on an empty list `main` returns 1. -/
theorem fdir_session_reads_sorted_images (directory_iterator : String → Option (List String))
    (pre post : List String) (image_directory : String) (listing : List String)
    (rp result : List (List String) × Bool × List String)
    (P : Parameters) (E : Environment) (r : RunState)
    (hpre : get_image_input_output_params_feats directory_iterator [] false pre = some rp)
    (hdir : directory_iterator image_directory = some listing)
    (hres : get_image_input_output_params_feats directory_iterator [] false
      (pre ++ "-fdir" :: image_directory :: post) = some result)
    (hv : P.video_input = false) (hlists : P.input_image_files = result.1)
    (hsession : r.f_n + 1 = rp.1.length) (hcurr : r.curr_img = -1)
    (hrange : outputsInRange P rp.1.length = true) (good : Nat)
    (hgood : good ≤ (imageFilesOfDirectory listing).length)
    (hread : ∀ i, i < good → ∃ frame,
      E.imread ((imageFilesOfDirectory listing).getD i "") = some frame
      ∧ frameCompletes P rp.1.length frame = true)
    (hstop : good < (imageFilesOfDirectory listing).length →
      E.imread ((imageFilesOfDirectory listing).getD good "") = none) :
    P.input_image_files.get? rp.1.length = some (imageFilesOfDirectory listing)
    ∧ (imageFilesOfDirectory listing).Sorted (· ≤ ·)
    ∧ (imageFilesOfDirectory listing).Perm
        (listing.filter (fun p => extension p = ".jpg" || extension p = ".png"))
    ∧ ∃ res, session P E r = some res
      ∧ res.state.imread_calls = (imageFilesOfDirectory listing).take (good + 1)
      ∧ (good = (imageFilesOfDirectory listing).length →
          res.state.imread_calls = imageFilesOfDirectory listing)
      ∧ res.returned = (if (imageFilesOfDirectory listing).isEmpty then some 1 else none) := by
  have hlist := get_image_of_fdir directory_iterator pre post image_directory listing rp result
    hpre hdir hres
  have hn : (r.f_n + 1).toNat = rp.1.length := by rw [hsession]; simp
  rw [← hlists] at hlist
  refine ⟨hlist, imageFilesOfDirectory_sorted listing, imageFilesOfDirectory_perm listing, ?_⟩
  rw [← hn] at hlist hrange hread
  obtain ⟨res, hres2, hcalls, hret⟩ :=
    image_session_reads_upto P E r _ hv hlist hcurr hrange good hgood hread hstop
  refine ⟨res, hres2, hcalls, ?_, hret⟩
  intro hall
  rw [hcalls, hall, List.take_of_length_le (by omega)]

theorem imageFilesOfDirectory_example :
    imageFilesOfDirectory ["d/c.png", "d/notes.txt", "d/a.jpg"] = ["d/a.jpg", "d/c.png"] := by
  have h : sortNames ["d/c.png", "d/notes.txt", "d/a.jpg"]
      = ["d/a.jpg", "d/c.png", "d/notes.txt"] := by
    simp [sortNames, String.le_iff_toList_le]
    decide
  rw [imageFilesOfDirectory, h]
  decide

/-- C10, a witness of the amended statement: the arguments `exe -fdir d -q`, where the
directory `d` holds `c.png`, `notes.txt` and `a.jpg`, and both images decode. -/
theorem fdir_session_reads_sorted_images_witness :
    (imageParameters ["d/a.jpg", "d/c.png"]).input_image_files.get? 0
        = some (imageFilesOfDirectory ["d/c.png", "d/notes.txt", "d/a.jpg"])
    ∧ (imageFilesOfDirectory ["d/c.png", "d/notes.txt", "d/a.jpg"]).Sorted (· ≤ ·)
    ∧ (imageFilesOfDirectory ["d/c.png", "d/notes.txt", "d/a.jpg"]).Perm
        (["d/c.png", "d/notes.txt", "d/a.jpg"].filter
          (fun p => extension p = ".jpg" || extension p = ".png"))
    ∧ ∃ res, session (imageParameters ["d/a.jpg", "d/c.png"]) (exampleEnvironment []) startRun
          = some res
      ∧ res.state.imread_calls
          = (imageFilesOfDirectory ["d/c.png", "d/notes.txt", "d/a.jpg"]).take (2 + 1)
      ∧ (2 = (imageFilesOfDirectory ["d/c.png", "d/notes.txt", "d/a.jpg"]).length →
          res.state.imread_calls = imageFilesOfDirectory ["d/c.png", "d/notes.txt", "d/a.jpg"])
      ∧ res.returned
          = (if (imageFilesOfDirectory ["d/c.png", "d/notes.txt", "d/a.jpg"]).isEmpty then some 1
             else none) :=
  fdir_session_reads_sorted_images (exampleDirectory ["d/c.png", "d/notes.txt", "d/a.jpg"])
    ["exe"] ["-q"] "d" ["d/c.png", "d/notes.txt", "d/a.jpg"] ([], false, ["exe"])
    ([["d/a.jpg", "d/c.png"]], false, ["exe", "-q"])
    (imageParameters ["d/a.jpg", "d/c.png"]) (exampleEnvironment []) startRun
    (by decide) (by decide)
    (by
      show get_image_input_output_params_feats _ [] false ["exe", "-fdir", "d", "-q"] = _
      rw [get_image_other _ _ _ _ _ (by decide),
        get_image_fdir_some _ _ _ _ _ ["d/c.png", "d/notes.txt", "d/a.jpg"]
          (show exampleDirectory _ "d" = some _ from by decide),
        imageFilesOfDirectory_example]
      decide)
    rfl rfl rfl rfl (by rfl) 2
    (by rw [imageFilesOfDirectory_example]; decide)
    (by
      rw [imageFilesOfDirectory_example]
      intro i hi
      interval_cases i
      · exact ⟨exampleFrame ' ', by simp [exampleEnvironment], by decide⟩
      · exact ⟨exampleFrame ' ', by simp [exampleEnvironment], by decide⟩)
    (by
      rw [imageFilesOfDirectory_example]
      intro h
      exact absurd h (by decide))

/-- C9, a witness of the amended statement: a quiet session on a video of one 1280 by 720 frame. -/
theorem session_intrinsics_witness :
    ∃ res, session (videoParameters true) (exampleEnvironment [wideFrame]) startRun = some res
      ∧ res.state.camera
        = { fx := (500 * ((wideFrame.cols : ℚ) / 640) + 500 * ((wideFrame.rows : ℚ) / 480)) / 2,
            fy := (500 * ((wideFrame.cols : ℚ) / 640) + 500 * ((wideFrame.rows : ℚ) / 480)) / 2,
            cx := (wideFrame.cols : ℚ) / 2, cy := (wideFrame.rows : ℚ) / 2 }
      ∧ (∀ c ∈ res.state.pose_calls, c = res.state.camera)
      ∧ (wideFrame.cols = 640 → wideFrame.rows = 480 → res.state.camera = ⟨500, 500, 320, 240⟩) := by
  obtain ⟨res, hres, -⟩ := (video_session_rows (videoParameters true)
    (exampleEnvironment [wideFrame]) startRun "in.avi" ⟨[wideFrame], some 25⟩ rfl rfl (by decide)
    (by simp [exampleEnvironment]) rfl rfl
    (fun f hf => by
      rw [List.mem_singleton.mp hf]
      decide)).2
  exact ⟨res, hres, session_intrinsics (videoParameters true) (exampleEnvironment [wideFrame])
    startRun _ wideFrame res (by simp [videoParameters, cx_undefined])
    (by simp [videoParameters, fx_undefined])
    (openSource_video (videoParameters true) (exampleEnvironment [wideFrame]) startRun "in.avi"
      ⟨[wideFrame], some 25⟩ rfl rfl (by decide) (by simp [exampleEnvironment])) rfl hres⟩

/-- C10, as stated, fails: the directory holds `c.png`, `b.png` and `a.jpg`, so the image list is
`a.jpg, b.png, c.png`; `b.png` decodes to an empty image.  The session reads `a.jpg` and
`b.png` and ends there: `c.png` is never read. -/
theorem image_session_stops_at_empty_image :
    imageFilesOfDirectory ["d/c.png", "d/b.png", "d/a.jpg"] = ["d/a.jpg", "d/b.png", "d/c.png"]
    ∧ (exampleEnvironment []).imread "d/b.png" = none
    ∧ ∃ res, session (imageParameters ["d/a.jpg", "d/b.png", "d/c.png"]) (exampleEnvironment [])
          startRun = some res
      ∧ res.returned = none ∧ res.state.imread_calls = ["d/a.jpg", "d/b.png"] := by
  refine ⟨?_, by simp [exampleEnvironment], ?_⟩
  · have h : sortNames ["d/c.png", "d/b.png", "d/a.jpg"] = ["d/a.jpg", "d/b.png", "d/c.png"] := by
      simp [sortNames, String.le_iff_toList_le]
      decide
    rw [imageFilesOfDirectory, h]
    decide
  · have hsrc := openSource_images (imageParameters ["d/a.jpg", "d/b.png", "d/c.png"])
      (exampleEnvironment []) startRun "d/a.jpg" ["d/b.png", "d/c.png"] rfl rfl rfl
    have hcond := outputsInRange_cond (imageParameters ["d/a.jpg", "d/b.png", "d/c.png"])
      (startRun.f_n + 1).toNat (by rfl)
    have hr : (exampleEnvironment []).imread "d/a.jpg" = some (exampleFrame ' ') := by
      simp [exampleEnvironment]
    obtain ⟨s1, hp, -⟩ := processFrame_completes
      (imageParameters ["d/a.jpg", "d/b.png", "d/c.png"]) 30 (startRun.f_n + 1).toNat
      { frame_count := 0,
        camera := resolveIntrinsics true true startRun.camera 640 480,
        face_model := startRun.face_model, face_analyser := startRun.face_analyser,
        output_file := [], hog_output_file := [], aligned_files := [],
        imread_calls := ["d/a.jpg"], pose_calls := [] } (exampleFrame ' ') rfl rfl
    obtain ⟨-, -, hi1, -⟩ := processFrame_frame _ _ _ _ s1 _ none hp
    obtain ⟨s3, hloop, -, -, -, -, hi3⟩ := trackingLoop_step
      (imageParameters ["d/a.jpg", "d/b.png", "d/c.png"]) (exampleEnvironment []) 30
      (startRun.f_n + 1).toNat [] 0 (exampleFrame ' ') _ s1 hp (by decide)
    have hnx : nextFrame (imageParameters ["d/a.jpg", "d/b.png", "d/c.png"])
        (exampleEnvironment []) (startRun.f_n + 1).toNat [] 0 = (none, [], 1, ["d/b.png"]) := by
      simp [nextFrame, imageParameters, videoParameters, exampleEnvironment, startRun]
    rw [hnx] at hloop hi3
    rw [trackingLoop_end] at hloop
    unfold session
    simp only [hsrc, hr, hcond, Option.map_some', Option.getD_some, Bool.false_eq_true, if_false]
    have e1 : (exampleFrame ' ').cols = 640 := rfl
    have e2 : (exampleFrame ' ').rows = 480 := rfl
    have e3 : (imageParameters ["d/a.jpg", "d/b.png", "d/c.png"]).cx_undefined = true := rfl
    have e4 : (imageParameters ["d/a.jpg", "d/b.png", "d/c.png"]).fx_undefined = true := rfl
    rw [e1, e2, e3, e4, hloop]
    refine ⟨_, rfl, rfl, ?_⟩
    simp only [hi3, hi1]
    rfl

/-! ## Theorems: confidence, gaze, frame rate, intrinsics -/

/-- C14: for every frame state, whether or not tracking is initialised, and every combination of
the switches, the third cell of the row is the confidence `0.5 * (1 - certainty)` and the fourth
the detection-success flag; for a certainty in `[-1, 1]` the confidence lies in `[0, 1]`. -/
theorem outputAllFeatures_confidence (o2D o3D oParams oPose oAUs oGaze : Bool) (face_model : CLNF)
    (frame_count : Nat) (time_stamp : ℚ) (detection_success : Bool)
    (gazeDirection0 gazeDirection1 : Point3f) (gaze_angle : ℚ × ℚ) (pose_estimate : Nat → ℚ)
    (fx fy cx cy : ℚ) (face_analyser : FaceAnalyser) :
    (outputAllFeatures o2D o3D oParams oPose oAUs oGaze face_model frame_count time_stamp
        detection_success gazeDirection0 gazeDirection1 gaze_angle pose_estimate fx fy cx cy
        face_analyser).get? 2
      = some (Cell.num 2 ((1 / 2 : ℚ) * (1 - face_model.detection_certainty)))
    ∧ (outputAllFeatures o2D o3D oParams oPose oAUs oGaze face_model frame_count time_stamp
        detection_success gazeDirection0 gazeDirection1 gaze_angle pose_estimate fx fy cx cy
        face_analyser).get? 3 = some (Cell.flag detection_success)
    ∧ (-1 ≤ face_model.detection_certainty → face_model.detection_certainty ≤ 1 →
        0 ≤ (1 / 2 : ℚ) * (1 - face_model.detection_certainty)
        ∧ (1 / 2 : ℚ) * (1 - face_model.detection_certainty) ≤ 1) := by
  refine ⟨rfl, rfl, ?_⟩
  intro hlo hhi
  constructor <;> linarith

/-- C14, a witness: a frame with tracking lost and certainty `1 / 2`, confidence `1 / 4`. -/
theorem outputAllFeatures_confidence_witness :
    (outputAllFeatures true true true true true true lostModel 0 0 false forwardGaze forwardGaze
        (0, 0) (fun _ => 0) 1 1 1 1 partAnalyser).get? 2
      = some (Cell.num 2 ((1 / 2 : ℚ) * (1 - lostModel.detection_certainty)))
    ∧ (0 ≤ (1 / 2 : ℚ) * (1 - lostModel.detection_certainty)
        ∧ (1 / 2 : ℚ) * (1 - lostModel.detection_certainty) ≤ 1) :=
  ⟨(outputAllFeatures_confidence true true true true true true lostModel 0 0 false forwardGaze
      forwardGaze (0, 0) (fun _ => 0) 1 1 1 1 partAnalyser).1,
   (outputAllFeatures_confidence true true true true true true lostModel 0 0 false forwardGaze
      forwardGaze (0, 0) (fun _ => 0) 1 1 1 1 partAnalyser).2.2
      (by norm_num [lostModel]) (by norm_num [lostModel])⟩

/-- C13: for every frame the gaze estimator is called, once for each eye and then for the angle,
exactly when gaze is tracked, the detection succeeded and the model has an eye model; otherwise
it is not called and the gaze values are `(0, 0, -1)` for each eye and `(0, 0)` for the angle;
in both cases these are the values passed to `outputAllFeatures` for the row of the frame. -/
theorem gaze_estimated_iff (P : Parameters) (fps_vid_in : ℚ) (s : SessionState) (frame : Frame) :
    (gazeCalls P frame
        = [GazeCall.EstimateGaze true, GazeCall.EstimateGaze false, GazeCall.GetGazeAngle]
      ↔ (P.track_gaze = true ∧ frame.detection_success = true
          ∧ frame.detected.eye_model = true))
    ∧ ((P.track_gaze = true ∧ frame.detection_success = true
          ∧ frame.detected.eye_model = true) →
        gazeOutputs P frame = (frame.EstimateGaze0, frame.EstimateGaze1, frame.GetGazeAngle))
    ∧ (¬ (P.track_gaze = true ∧ frame.detection_success = true
          ∧ frame.detected.eye_model = true) →
        gazeCalls P frame = []
        ∧ gazeOutputs P frame = (⟨0, 0, -1⟩, ⟨0, 0, -1⟩, (0, 0)))
    ∧ frameRow P fps_vid_in s frame
      = outputAllFeatures P.output_2D_landmarks P.output_3D_landmarks P.output_model_params
          P.output_pose P.output_AUs P.output_gaze frame.detected s.frame_count
          (timeStamp P fps_vid_in s.frame_count) frame.detection_success (gazeOutputs P frame).1
          (gazeOutputs P frame).2.1 (gazeOutputs P frame).2.2 frame.pose_estimate
          s.camera.fx s.camera.fy s.camera.cx s.camera.cy (analyserAfter P s frame) := by
  have hcond : (P.track_gaze && frame.detection_success && frame.detected.eye_model) = true
      ↔ (P.track_gaze = true ∧ frame.detection_success = true
          ∧ frame.detected.eye_model = true) := by
    simp [Bool.and_eq_true, and_assoc]
  refine ⟨?_, ?_, ?_, rfl⟩
  · unfold gazeCalls
    constructor
    · intro h
      by_contra hn
      rw [if_neg (fun hc => hn (hcond.mp hc))] at h
      exact absurd h (by simp)
    · intro h
      rw [if_pos (hcond.mpr h)]
  · intro h
    unfold gazeOutputs
    rw [if_pos (hcond.mpr h)]
  · intro h
    unfold gazeCalls gazeOutputs
    rw [if_neg (fun hc => h (hcond.mp hc)), if_neg (fun hc => h (hcond.mp hc))]
    exact ⟨rfl, rfl⟩

/-- C13, a witness: a frame on which the detection fails. -/
theorem gaze_estimated_iff_witness :
    gazeCalls (videoParameters true) (exampleFrame ' ') = []
    ∧ gazeOutputs (videoParameters true) (exampleFrame ' ')
      = (⟨0, 0, -1⟩, ⟨0, 0, -1⟩, (0, 0)) :=
  (gaze_estimated_iff (videoParameters true) 25
    { frame_count := 0, camera := ⟨0, 0, 0, 0⟩, face_model := blankModel,
      face_analyser := partAnalyser, output_file := [], hog_output_file := [],
      aligned_files := [], imread_calls := [], pose_calls := [] } (exampleFrame ' ')).2.2.1
    (by simp [exampleFrame])

/-- C15: the rule of the frame rate is that a positive metadata value is taken and that NaN
(no value), zero or a negative value give 30.  In every session that `main` makes, however it
ends: on a video, the session's video `input_files[f_n]`, the writer of the tracked video, when
one is constructed, is given the rate resolved from the metadata of that video, and row `k` of
the report (from 0) has the time stamp `k * (1 / rate)` at that rate; on an image list the
writer is given 30 and row `k` has the time stamp `k * (1 / 30)`. -/
theorem frame_rate_resolved (P : Parameters) (E : Environment) (r : RunState)
    (res : SessionResult) (hres : session P E r = some res) :
    (∀ v : ℚ, 0 < v → resolveFps (some v) = v)
    ∧ (∀ v : ℚ, v ≤ 0 → resolveFps (some v) = 30)
    ∧ resolveFps none = 30
    ∧ (P.video_input = true → ∀ file video,
        P.input_files.get? (r.f_n + 1).toNat = some file → E.VideoCapture file = some video →
        (∀ src, res.source = some src →
          src.current_file = file ∧ src.fps_vid_in = resolveFps video.fps)
        ∧ (∀ w, res.writerFace = some w →
            w.fps = resolveFps video.fps
            ∧ P.tracked_videos_output.get? (r.f_n + 1).toNat = some w.filename)
        ∧ ∀ k row, res.state.output_file.get? k = some row →
            row.get? 1 = some (Cell.num 9 ((k : ℚ) * (1 / resolveFps video.fps))))
    ∧ (P.video_input = false →
        (∀ src, res.source = some src → src.fps_vid_in = 30)
        ∧ (∀ w, res.writerFace = some w →
            w.fps = 30 ∧ P.tracked_videos_output.get? (r.f_n + 1).toNat = some w.filename)
        ∧ ∀ k row, res.state.output_file.get? k = some row →
            row.get? 1 = some (Cell.num 9 ((k : ℚ) * (1 / 30)))) := by
  refine ⟨?_, ?_, rfl, ?_, ?_⟩
  · intro v hv
    simp [resolveFps, not_le.mpr hv]
  · intro v hv
    simp [resolveFps, hv]
  · intro hv file video hfile hopen
    rcases session_opened P E r res hres with ⟨code, hsrc⟩ | ⟨src, hsrc⟩
    · obtain ⟨-, h1, h2, h3⟩ := session_not_opened P E r code res hsrc hres
      refine ⟨?_, ?_, ?_⟩
      · intro src hs; rw [h1] at hs; simp at hs
      · intro w hw; rw [h2] at hw; simp at hw
      · intro k row hk; rw [h3] at hk; simp at hk
    · obtain ⟨h1, -, h3, h4⟩ := session_source P E r src res hsrc hres
      obtain ⟨hfile2, hfn, hfps⟩ := (openSource_fps P E r src hsrc).1 hv file video hfile hopen
      refine ⟨?_, ?_, ?_⟩
      · intro src2 hs
        rw [h1] at hs
        simp only [Option.some.injEq] at hs
        subst hs
        exact ⟨hfile2, hfps⟩
      · intro w hw
        obtain ⟨hw1, hw2⟩ := h3 w hw
        rw [hfps] at hw1
        rw [hfn] at hw2
        exact ⟨hw1, hw2⟩
      · intro k row hk
        have h := h4 k row hk
        rw [hfps] at h
        simpa [timeStamp, hv] using h
  · intro hv
    rcases session_opened P E r res hres with ⟨code, hsrc⟩ | ⟨src, hsrc⟩
    · obtain ⟨-, h1, h2, h3⟩ := session_not_opened P E r code res hsrc hres
      refine ⟨?_, ?_, ?_⟩
      · intro src hs; rw [h1] at hs; simp at hs
      · intro w hw; rw [h2] at hw; simp at hw
      · intro k row hk; rw [h3] at hk; simp at hk
    · obtain ⟨h1, -, h3, h4⟩ := session_source P E r src res hsrc hres
      obtain ⟨hfn, hfps⟩ := (openSource_fps P E r src hsrc).2 hv
      refine ⟨?_, ?_, ?_⟩
      · intro src2 hs
        rw [h1] at hs
        simp only [Option.some.injEq] at hs
        subst hs
        exact hfps
      · intro w hw
        obtain ⟨hw1, hw2⟩ := h3 w hw
        rw [hfps] at hw1
        rw [hfn] at hw2
        exact ⟨hw1, hw2⟩
      · intro k row hk
        have h := h4 k row hk
        simpa [timeStamp, hv] using h

/-- C15, a witness: the first session of a quiet run on two videos at 25 frames per second
with two reports and two tracked videos; the writer is constructed on `t0.avi` at 25 frames per
second, and the two rows have the time stamps `0` and `1 / 25`. -/
theorem frame_rate_resolved_witness :
    ∃ res, session trackedVideoParameters
          (exampleEnvironment [exampleFrame ' ', exampleFrame ' ']) startRun = some res
      ∧ res.writerFace = some ⟨"t0.avi", ['D', 'I', 'V', 'X'], 25, 640, 480⟩
      ∧ res.state.output_file.length = 2
      ∧ (∀ src, res.source = some src →
          src.current_file = "in.avi" ∧ src.fps_vid_in = resolveFps (some 25))
      ∧ (∀ w, res.writerFace = some w →
          w.fps = resolveFps (some 25)
          ∧ trackedVideoParameters.tracked_videos_output.get? (startRun.f_n + 1).toNat
              = some w.filename)
      ∧ ∀ k row, res.state.output_file.get? k = some row →
          row.get? 1 = some (Cell.num 9 ((k : ℚ) * (1 / resolveFps (some 25)))) := by
  have hall : ∀ f ∈ [exampleFrame ' ', exampleFrame ' '],
      frameCompletes trackedVideoParameters (startRun.f_n + 1).toNat f = true := by
    intro f hf
    simp only [List.mem_cons, List.mem_singleton, List.not_mem_nil, or_false, or_self] at hf
    subst hf
    decide
  have hopen : (exampleEnvironment [exampleFrame ' ', exampleFrame ' ']).VideoCapture "in.avi"
      = some ⟨[exampleFrame ' ', exampleFrame ' '], some 25⟩ := by simp [exampleEnvironment]
  obtain ⟨-, res, hres, -, -, hlen, -⟩ := video_session_rows trackedVideoParameters
    (exampleEnvironment [exampleFrame ' ', exampleFrame ' ']) startRun "in.avi"
    ⟨[exampleFrame ' ', exampleFrame ' '], some 25⟩ rfl rfl (by decide) hopen rfl (by decide)
    hall
  have hsrc := openSource_video trackedVideoParameters
    (exampleEnvironment [exampleFrame ' ', exampleFrame ' ']) startRun "in.avi"
    ⟨[exampleFrame ' ', exampleFrame ' '], some 25⟩ rfl rfl (by decide) hopen
  have hw := session_writer _ _ _ _ res hsrc hres
  have hfps : resolveFps (some (25 : ℚ)) = 25 := by unfold resolveFps; norm_num
  refine ⟨res, hres, ?_, hlen,
    (frame_rate_resolved trackedVideoParameters
      (exampleEnvironment [exampleFrame ' ', exampleFrame ' ']) startRun res hres).2.2.2.1
      rfl "in.avi" ⟨[exampleFrame ' ', exampleFrame ' '], some 25⟩ rfl hopen⟩
  rw [hw]
  simp only [hfps]
  rfl

/-- However a session with a first frame ends, its intrinsics when the loop is left are the ones
resolved from the first frame. -/
theorem session_camera_resolved (P : Parameters) (E : Environment) (r : RunState)
    (src : OpenedSource) (frame : Frame) (res : SessionResult)
    (hsrc : openSource P E r = some (Except.ok src))
    (hframe : src.captured_image = some frame)
    (hres : session P E r = some res) :
    res.state.camera
      = resolveIntrinsics P.cx_undefined P.fx_undefined r.camera frame.cols frame.rows := by
  unfold session at hres
  simp only [hsrc, hframe, Option.map_some', Option.getD_some] at hres
  split at hres
  · exact absurd hres (by simp)
  · split at hres
    · exact absurd hres (by simp)
    · rename_i s code hloop
      simp only [Option.some.injEq] at hres
      subst hres
      exact (trackingLoop_camera P E _ _ _ _ _ _ _ _ hloop).1
    · rename_i s hloop
      simp only [Option.some.injEq] at hres
      subst hres
      exact (trackingLoop_camera P E _ _ _ _ _ _ _ _ hloop).1

/-- C17: the optical centre and the focal length are resolved as pairs.  With the two flags taken
from the configured intrinsics, in a session that starts from the configured values of the pairs
that are kept: if the configured `cx` or `cy` is 0, both are replaced by half the width and half
the height of the first frame, whatever the other value was, and otherwise both are kept; if the
configured `fx` or `fy` is 0, both are replaced by the derived focal length, and otherwise both
are kept. -/
theorem intrinsics_resolved_in_pairs (P : Parameters) (E : Environment) (r : RunState)
    (configured : Intrinsics) (src : OpenedSource) (frame : Frame) (res : SessionResult)
    (hcx : P.cx_undefined = cx_undefined configured)
    (hfx : P.fx_undefined = fx_undefined configured)
    (hkeep_c : configured.cx ≠ 0 ∧ configured.cy ≠ 0 →
      r.camera.cx = configured.cx ∧ r.camera.cy = configured.cy)
    (hkeep_f : configured.fx ≠ 0 ∧ configured.fy ≠ 0 →
      r.camera.fx = configured.fx ∧ r.camera.fy = configured.fy)
    (hsrc : openSource P E r = some (Except.ok src))
    (hframe : src.captured_image = some frame)
    (hres : session P E r = some res) :
    ((configured.cx = 0 ∨ configured.cy = 0) →
      res.state.camera.cx = (frame.cols : ℚ) / 2 ∧ res.state.camera.cy = (frame.rows : ℚ) / 2)
    ∧ ((configured.cx ≠ 0 ∧ configured.cy ≠ 0) →
      res.state.camera.cx = configured.cx ∧ res.state.camera.cy = configured.cy)
    ∧ ((configured.fx = 0 ∨ configured.fy = 0) →
      res.state.camera.fx
          = (500 * ((frame.cols : ℚ) / 640) + 500 * ((frame.rows : ℚ) / 480)) / 2
      ∧ res.state.camera.fy
          = (500 * ((frame.cols : ℚ) / 640) + 500 * ((frame.rows : ℚ) / 480)) / 2)
    ∧ ((configured.fx ≠ 0 ∧ configured.fy ≠ 0) →
      res.state.camera.fx = configured.fx ∧ res.state.camera.fy = configured.fy) := by
  rw [session_camera_resolved P E r src frame res hsrc hframe hres, hcx, hfx]
  refine ⟨?_, ?_, ?_, ?_⟩
  · intro h
    have hc : cx_undefined configured = true := by simpa [cx_undefined] using h
    by_cases hf : fx_undefined configured = true
    · simp [resolveIntrinsics, hc, hf]
    · simp [resolveIntrinsics, hc, hf]
  · intro h
    have hc : cx_undefined configured = false := by simp [cx_undefined, h.1, h.2]
    by_cases hf : fx_undefined configured = true
    · simpa [resolveIntrinsics, hc, hf] using hkeep_c h
    · simpa [resolveIntrinsics, hc, hf] using hkeep_c h
  · intro h
    have hf : fx_undefined configured = true := by simpa [fx_undefined] using h
    by_cases hc : cx_undefined configured = true
    · simp [resolveIntrinsics, hc, hf]
    · simp [resolveIntrinsics, hc, hf]
  · intro h
    have hf : fx_undefined configured = false := by simp [fx_undefined, h.1, h.2]
    by_cases hc : cx_undefined configured = true
    · simpa [resolveIntrinsics, hc, hf] using hkeep_f h
    · simpa [resolveIntrinsics, hc, hf] using hkeep_f h

/-- C17, a witness: configured `fx = 600`, `fy = 0`, `cx = 320`, `cy = 250` and a first frame of
640 by 480: the optical centre is kept, and both focal lengths are replaced, the configured 600
being discarded. -/
theorem intrinsics_resolved_in_pairs_witness :
    ∃ res, session halfConfiguredParameters (exampleEnvironment [exampleFrame ' '])
          halfConfiguredRun = some res
      ∧ ((halfConfigured.cx = 0 ∨ halfConfigured.cy = 0) →
        res.state.camera.cx = ((exampleFrame ' ').cols : ℚ) / 2
        ∧ res.state.camera.cy = ((exampleFrame ' ').rows : ℚ) / 2)
      ∧ ((halfConfigured.cx ≠ 0 ∧ halfConfigured.cy ≠ 0) →
        res.state.camera.cx = halfConfigured.cx ∧ res.state.camera.cy = halfConfigured.cy)
      ∧ ((halfConfigured.fx = 0 ∨ halfConfigured.fy = 0) →
        res.state.camera.fx
            = (500 * (((exampleFrame ' ').cols : ℚ) / 640)
                + 500 * (((exampleFrame ' ').rows : ℚ) / 480)) / 2
        ∧ res.state.camera.fy
            = (500 * (((exampleFrame ' ').cols : ℚ) / 640)
                + 500 * (((exampleFrame ' ').rows : ℚ) / 480)) / 2)
      ∧ ((halfConfigured.fx ≠ 0 ∧ halfConfigured.fy ≠ 0) →
        res.state.camera.fx = halfConfigured.fx ∧ res.state.camera.fy = halfConfigured.fy) := by
  obtain ⟨res, hres, -⟩ := (video_session_rows halfConfiguredParameters
    (exampleEnvironment [exampleFrame ' ']) halfConfiguredRun "in.avi"
    ⟨[exampleFrame ' '], some 25⟩ rfl rfl (by decide) (by simp [exampleEnvironment]) rfl rfl
    (fun f hf => by
      rw [List.mem_singleton.mp hf]
      decide)).2
  exact ⟨res, hres, intrinsics_resolved_in_pairs halfConfiguredParameters
    (exampleEnvironment [exampleFrame ' ']) halfConfiguredRun halfConfigured _ (exampleFrame ' ')
    res (by norm_num [halfConfiguredParameters, cx_undefined, halfConfigured])
    (by norm_num [halfConfiguredParameters, fx_undefined, halfConfigured])
    (fun _ => ⟨rfl, rfl⟩) (fun _ => ⟨rfl, rfl⟩)
    (openSource_video halfConfiguredParameters (exampleEnvironment [exampleFrame ' '])
      halfConfiguredRun "in.avi" ⟨[exampleFrame ' '], some 25⟩ rfl rfl (by decide)
      (by simp [exampleEnvironment])) rfl hres⟩

/-! ## Theorems: the output arguments -/

/-- C16, at the failing inputs: with `-simalign`, `-hogalign`, `-root` or `-outroot` as the last
argument, `get_output_feature_params` reads `arguments[i + 1]` past the end of the arguments:
the call has no defined result, whatever the flags passed in. -/
theorem get_output_feature_params_reads_past_end (separator : String) (verbose o2D o3D oParams
    oPose oAUs oGaze : Bool) :
    get_output_feature_params separator verbose o2D o3D oParams oPose oAUs oGaze
        ["FeatureExtraction", "-f", "in.avi", "-simalign"] = none
    ∧ get_output_feature_params separator verbose o2D o3D oParams oPose oAUs oGaze
        ["FeatureExtraction", "-f", "in.avi", "-hogalign"] = none
    ∧ get_output_feature_params separator verbose o2D o3D oParams oPose oAUs oGaze
        ["FeatureExtraction", "-f", "in.avi", "-root"] = none
    ∧ get_output_feature_params separator verbose o2D o3D oParams oPose oAUs oGaze
        ["FeatureExtraction", "-f", "in.avi", "-outroot"] = none := by
  refine ⟨?_, ?_, ?_, ?_⟩ <;>
    simp [get_output_feature_params, outputRoot, parseOutputFlags]

/-! ## Theorems: the loop over the inputs -/

/-- A video whose frames all run through the loop body: the loop ends at the end of the video. -/
theorem trackingLoop_video_ends (P : Parameters) (E : Environment) (fps_vid_in : ℚ) (f_n : Nat)
    (hv : P.video_input = true) :
    ∀ (rest : List Frame) (curr_img : Nat) (frame : Frame) (s : SessionState),
      (∀ f ∈ frame :: rest, frameCompletes P f_n f = true) →
      ∃ s', trackingLoop P E fps_vid_in f_n rest curr_img (some frame) s = some (s', none) := by
  intro rest
  induction rest with
  | nil =>
    intro curr_img frame s hall
    have hf := hall frame (List.mem_cons_self _ _)
    simp only [frameCompletes, Bool.and_eq_true, Bool.not_eq_true'] at hf
    obtain ⟨s1, hp, -⟩ := processFrame_completes P fps_vid_in f_n s frame hf.1.1 hf.1.2
    obtain ⟨s3, hloop, -⟩ :=
      trackingLoop_step P E fps_vid_in f_n [] curr_img frame s s1 hp hf.2
    refine ⟨s3, ?_⟩
    rw [hloop]
    simp only [nextFrame, hv, if_true]
    exact trackingLoop_end P E fps_vid_in f_n [] curr_img s3
  | cons next rest ih =>
    intro curr_img frame s hall
    have hf := hall frame (List.mem_cons_self _ _)
    simp only [frameCompletes, Bool.and_eq_true, Bool.not_eq_true'] at hf
    obtain ⟨s1, hp, -⟩ := processFrame_completes P fps_vid_in f_n s frame hf.1.1 hf.1.2
    obtain ⟨s3, hloop, -⟩ :=
      trackingLoop_step P E fps_vid_in f_n (next :: rest) curr_img frame s s1 hp hf.2
    obtain ⟨s', hrun⟩ := ih curr_img next s3 (fun f hfm => hall f (List.mem_cons_of_mem _ hfm))
    refine ⟨s', ?_⟩
    rw [hloop]
    simp only [nextFrame, hv, if_true]
    exact hrun

/-- A video session whose frames all run through the loop body ends at the end of the video and
hands the next session its number; it sets `done` when its video is the last one. -/
theorem video_session_completes (P : Parameters) (E : Environment) (r : RunState) (file : String)
    (video : Video) (hv : P.video_input = true)
    (hfile : P.input_files.get? (r.f_n + 1).toNat = some file) (hname : 0 < file.length)
    (hopen : E.VideoCapture file = some video)
    (hrange : outputsInRange P (r.f_n + 1).toNat = true)
    (hall : ∀ f ∈ video.frames, frameCompletes P (r.f_n + 1).toNat f = true) :
    ∃ res, session P E r = some res ∧ res.returned = none
      ∧ res.run.f_n = ((r.f_n + 1).toNat : Int) ∧ res.run.curr_img = -1
      ∧ res.done = decide (((r.f_n + 1).toNat : Int) = (P.input_files.length : Int) - 1) := by
  have hsrc := openSource_video P E r file video hv hfile hname hopen
  have hcond := outputsInRange_cond P (r.f_n + 1).toNat hrange
  cases hframes : video.frames with
  | nil =>
    unfold session
    simp only [hsrc, hframes, List.head?_nil, List.tail_nil, hcond, trackingLoop_end]
    simp only [hv, Bool.false_eq_true, if_false]
    exact ⟨_, rfl, rfl, rfl, rfl, by simp⟩
  | cons frame rest =>
    rw [hframes] at hall
    obtain ⟨s', hrun⟩ := trackingLoop_video_ends P E (resolveFps video.fps) (r.f_n + 1).toNat hv
      rest r.curr_img.toNat frame
      { frame_count := 0,
        camera := resolveIntrinsics P.cx_undefined P.fx_undefined r.camera frame.cols frame.rows,
        face_model := r.face_model, face_analyser := r.face_analyser, output_file := [],
        hog_output_file := [], aligned_files := [], imread_calls := [], pose_calls := [] } hall
    unfold session
    simp only [hsrc, hframes, List.head?_cons, List.tail_cons, hcond, Option.map_some',
      Option.getD_some, Bool.false_eq_true, if_false, hrun]
    simp only [hv]
    exact ⟨_, rfl, rfl, rfl, rfl, by simp⟩

theorem outputsInRange_report (P : Parameters) (f_n : Nat) (h : outputsInRange P f_n = true)
    (hreport : P.output_files.isEmpty = false) : ∃ name, P.output_files.get? f_n = some name := by
  unfold outputsInRange at h
  simp only [Bool.and_eq_true, Bool.or_eq_true, hreport, Bool.false_eq_true, false_or] at h
  exact Option.isSome_iff_exists.mp h.1.1

/-- The facts about one video session of a run in which every video opens and every frame runs
through the loop body: the session ends at the end of its video; it has opened its video, its
report and its tracked video; and with a report it writes one row per frame, the first one with
frame number 1. -/
theorem video_session_of_run (P : Parameters) (E : Environment) (r : RunState) (file : String)
    (video : Video) (hv : P.video_input = true)
    (hfile : P.input_files.get? (r.f_n + 1).toNat = some file) (hname : 0 < file.length)
    (hopen : E.VideoCapture file = some video)
    (hrange : outputsInRange P (r.f_n + 1).toNat = true)
    (hall : ∀ f ∈ video.frames, frameCompletes P (r.f_n + 1).toNat f = true) :
    ∃ res, session P E r = some res ∧ res.returned = none
      ∧ res.run.f_n = ((r.f_n + 1).toNat : Int)
      ∧ res.done = decide (((r.f_n + 1).toNat : Int) = (P.input_files.length : Int) - 1)
      ∧ res.source.map OpenedSource.current_file = some file
      ∧ (P.tracked_videos_output.isEmpty = false →
          ∃ w, res.writerFace = some w
            ∧ P.tracked_videos_output.get? (r.f_n + 1).toNat = some w.filename)
      ∧ (P.output_files.isEmpty = false →
          (∃ name, P.output_files.get? (r.f_n + 1).toNat = some name
            ∧ res.output_file_name = some name)
          ∧ res.state.output_file.length = video.frames.length
          ∧ ∀ row, res.state.output_file.head? = some row → row.head? = some (Cell.int 1)) := by
  obtain ⟨res, hres, hret, hfn, -, hdone⟩ :=
    video_session_completes P E r file video hv hfile hname hopen hrange hall
  have hsrc := openSource_video P E r file video hv hfile hname hopen
  obtain ⟨hs1, hs2, -, -⟩ := session_source P E r _ res hsrc hres
  refine ⟨res, hres, hret, hfn, hdone, by rw [hs1]; rfl, ?_, ?_⟩
  · intro ht
    obtain ⟨filename, code, hf, -, hw⟩ :=
      (openWriter_inRange P (r.f_n + 1).toNat hrange (resolveFps video.fps)
        ((video.frames.head?.map Frame.cols).getD 0)
        ((video.frames.head?.map Frame.rows).getD 0)).2 ht
    refine ⟨⟨filename, code, resolveFps video.fps, (video.frames.head?.map Frame.cols).getD 0,
      (video.frames.head?.map Frame.rows).getD 0⟩, ?_, hf⟩
    rw [session_writer P E r _ res hsrc hres]
    simp only [hw]
    rfl
  intro hreport
  obtain ⟨name, hnm⟩ := outputsInRange_report P (r.f_n + 1).toNat hrange hreport
  refine ⟨⟨name, hnm, ?_⟩, ?_⟩
  · rw [hs2, if_neg (by simp [hreport])]
    exact hnm
  obtain ⟨-, res2, hres2, -, -, hlen, hrows⟩ :=
    video_session_rows P E r file video hv hfile hname hopen hreport hrange hall
  have hsame : res2 = res := by
    rw [hres] at hres2
    exact (Option.some.inj hres2).symm
  subst hsame
  refine ⟨hlen, ?_⟩
  intro row hrow
  cases hout : res2.state.output_file with
  | nil => rw [hout] at hrow; simp at hrow
  | cons first others =>
    rw [hout] at hrow
    simp only [List.head?_cons, Option.some.injEq] at hrow
    subst hrow
    have hpos : 0 < video.frames.length := by rw [← hlen, hout]; simp
    obtain ⟨row0, h0, htake⟩ := hrows 0 hpos
    rw [hout] at h0
    simp only [List.get?_cons_zero, Option.some.injEq] at h0
    subst h0
    cases first with
    | nil => simp at htake
    | cons c cs =>
      cases cs with
      | nil => simp at htake
      | cons c2 cs2 =>
        simp only [List.take_succ_cons, List.cons.injEq] at htake
        simp only [List.head?_cons, Option.some.injEq]
        rw [htake.1]
        norm_num

/-- The loop over the videos of a run in which every video opens and every frame runs through
the loop body: from session `i` on, with `k + 1` videos left, it makes `k + 1` sessions and ends
with exit code 0. -/
theorem mainLoop_videos (P : Parameters) (E : Environment) (hv : P.video_input = true)
    (hgood : ∀ j, j < P.input_files.length → ∃ file video,
      P.input_files.get? j = some file ∧ 0 < file.length ∧ E.VideoCapture file = some video
      ∧ outputsInRange P j = true ∧ ∀ f ∈ video.frames, frameCompletes P j f = true) :
    ∀ (k i fuel : Nat) (r : RunState), r.f_n = (i : Int) - 1 →
      i + (k + 1) = P.input_files.length → k + 1 ≤ fuel →
      ∃ results, mainLoop P E fuel r = some (0, results) ∧ results.length = k + 1
        ∧ ∀ j, j < k + 1 → ∃ res file video, results.get? j = some res
          ∧ P.input_files.get? (i + j) = some file ∧ E.VideoCapture file = some video
          ∧ res.returned = none ∧ res.run.f_n = ((i + j : Nat) : Int)
          ∧ res.source.map OpenedSource.current_file = some file
          ∧ (P.tracked_videos_output.isEmpty = false →
              ∃ w, res.writerFace = some w
                ∧ P.tracked_videos_output.get? (i + j) = some w.filename)
          ∧ (P.output_files.isEmpty = false →
              (∃ name, P.output_files.get? (i + j) = some name
                ∧ res.output_file_name = some name)
              ∧ res.state.output_file.length = video.frames.length
              ∧ ∀ row, res.state.output_file.head? = some row →
                  row.head? = some (Cell.int 1)) := by
  intro k
  induction k with
  | zero =>
    intro i fuel r hr hi hfuel
    have hidx : (r.f_n + 1).toNat = i := by rw [hr]; simp
    obtain ⟨file, video, hfile, hname, hopen, hrange, hall⟩ := hgood i (by omega)
    obtain ⟨res, hres, hret, hfn, hdone, hrows⟩ := video_session_of_run P E r file video hv
      (by rw [hidx]; exact hfile) hname hopen (by rw [hidx]; exact hrange)
      (by rw [hidx]; exact hall)
    rw [hidx] at hrows
    obtain ⟨fuel2, rfl⟩ : ∃ m, fuel = m + 1 := ⟨fuel - 1, by omega⟩
    have hd : res.done = true := by
      rw [hdone, hidx, decide_eq_true_eq, ← hi]; push_cast; ring
    refine ⟨[res], ?_, rfl, ?_⟩
    · rw [mainLoop]
      simp only [hres, hret, hd, if_true]
    · intro j hj
      have hj0 : j = 0 := by omega
      subst hj0
      exact ⟨res, file, video, rfl, hfile, hopen, hret, by rw [hfn, hidx]; rfl, hrows⟩
  | succ k ih =>
    intro i fuel r hr hi hfuel
    have hidx : (r.f_n + 1).toNat = i := by rw [hr]; simp
    obtain ⟨file, video, hfile, hname, hopen, hrange, hall⟩ := hgood i (by omega)
    obtain ⟨res, hres, hret, hfn, hdone, hrows⟩ := video_session_of_run P E r file video hv
      (by rw [hidx]; exact hfile) hname hopen (by rw [hidx]; exact hrange)
      (by rw [hidx]; exact hall)
    rw [hidx] at hrows
    obtain ⟨fuel2, rfl⟩ : ∃ m, fuel = m + 1 := ⟨fuel - 1, by omega⟩
    have hd : res.done = false := by
      rw [hdone, hidx, decide_eq_false_iff_not, ← hi]; push_cast; omega
    obtain ⟨results, hloop, hlen, hres2⟩ := ih (i + 1) fuel2 res.run
      (by rw [hfn, hidx]; push_cast; ring) (by omega) (by omega)
    refine ⟨res :: results, ?_, by simp [hlen], ?_⟩
    · rw [mainLoop]
      simp only [hres, hret, hd, Bool.false_eq_true, if_false, hloop, Option.map_some']
    · intro j hj
      cases j with
      | zero =>
        exact ⟨res, file, video, rfl, hfile, hopen, hret, by rw [hfn, hidx]; rfl, hrows⟩
      | succ m =>
        obtain ⟨res3, file3, video3, hget, hfile3, hopen3, hret3, hfn3, hrows3⟩ :=
          hres2 m (by omega)
        have e : i + 1 + m = i + (m + 1) := by omega
        rw [e] at hfile3 hfn3 hrows3
        exact ⟨res3, file3, video3, by simpa using hget, hfile3, hopen3, hret3, hfn3, hrows3⟩

/-- C11, amended: in a run on `n >= 1` videos that all open, in which the output files of every
session exist (a list of reports, of HOG files, of tracked videos or of aligned-face directories
that is not empty has an entry for every session, and with a tracked video the codec string has
the characters read from it) and every frame runs through the loop body (no key `q`, no failed
write of an aligned face), `main` makes exactly `n` sessions and returns 0; session `j` is
numbered `j` and opens `input_files[j]`, its tracked video, when asked for, is
`tracked_videos_output[j]`, and with a report it opens `output_files[j]` and writes one row per
frame of that video, the first one with frame number 1. -/
theorem main_runs_every_video (P : Parameters) (E : Environment) (configured : Intrinsics)
    (face_model : CLNF) (face_analyser : FaceAnalyser) (hv : P.video_input = true)
    (hn : 1 ≤ P.input_files.length)
    (hgood : ∀ j, j < P.input_files.length → ∃ file video,
      P.input_files.get? j = some file ∧ 0 < file.length ∧ E.VideoCapture file = some video
      ∧ outputsInRange P j = true ∧ ∀ f ∈ video.frames, frameCompletes P j f = true) :
    ∃ results, main P E configured face_model face_analyser = some (0, results)
      ∧ results.length = P.input_files.length
      ∧ ∀ j, j < P.input_files.length → ∃ res file video, results.get? j = some res
        ∧ P.input_files.get? j = some file ∧ E.VideoCapture file = some video
        ∧ res.returned = none ∧ res.run.f_n = (j : Int)
        ∧ res.source.map OpenedSource.current_file = some file
        ∧ (P.tracked_videos_output.isEmpty = false →
            ∃ w, res.writerFace = some w
              ∧ P.tracked_videos_output.get? j = some w.filename)
        ∧ (P.output_files.isEmpty = false →
            (∃ name, P.output_files.get? j = some name ∧ res.output_file_name = some name)
            ∧ res.state.output_file.length = video.frames.length
            ∧ ∀ row, res.state.output_file.head? = some row →
                row.head? = some (Cell.int 1)) := by
  obtain ⟨results, hmain, hlen, hres⟩ := mainLoop_videos
    { P with track_gaze := true, cx_undefined := cx_undefined configured,
             fx_undefined := fx_undefined configured } E hv hgood
    (P.input_files.length - 1) 0 (P.input_files.length + P.input_image_files.length + 1)
    { f_n := -1, curr_img := -1, camera := configured, face_model := face_model,
      face_analyser := face_analyser } (by norm_num)
    (by show 0 + (P.input_files.length - 1 + 1) = P.input_files.length; omega)
    (by omega)
  have hk : P.input_files.length - 1 + 1 = P.input_files.length := by omega
  rw [hk] at hlen hres
  refine ⟨results, hmain, hlen, ?_⟩
  intro j hj
  obtain ⟨res, file, video, h1, h2, h3, h4, h5, h6⟩ := hres j hj
  rw [Nat.zero_add] at h2 h5 h6
  exact ⟨res, file, video, h1, h2, h3, h4, h5, h6⟩

/-- C11, a witness of the amended statement: a quiet run on two videos of two frames each, with
two reports and two tracked videos. -/
theorem main_runs_every_video_witness :
    ∃ results, main trackedVideoParameters
          (exampleEnvironment [exampleFrame ' ', exampleFrame ' ']) ⟨0, 0, 0, 0⟩ blankModel
          partAnalyser = some (0, results)
      ∧ results.length = trackedVideoParameters.input_files.length
      ∧ ∀ j, j < trackedVideoParameters.input_files.length → ∃ res file video,
        results.get? j = some res
        ∧ trackedVideoParameters.input_files.get? j = some file
        ∧ (exampleEnvironment [exampleFrame ' ', exampleFrame ' ']).VideoCapture file
            = some video
        ∧ res.returned = none ∧ res.run.f_n = (j : Int)
        ∧ res.source.map OpenedSource.current_file = some file
        ∧ (trackedVideoParameters.tracked_videos_output.isEmpty = false →
            ∃ w, res.writerFace = some w
              ∧ trackedVideoParameters.tracked_videos_output.get? j = some w.filename)
        ∧ (trackedVideoParameters.output_files.isEmpty = false →
            (∃ name, trackedVideoParameters.output_files.get? j = some name
              ∧ res.output_file_name = some name)
            ∧ res.state.output_file.length = video.frames.length
            ∧ ∀ row, res.state.output_file.head? = some row →
                row.head? = some (Cell.int 1)) :=
  main_runs_every_video trackedVideoParameters
    (exampleEnvironment [exampleFrame ' ', exampleFrame ' ']) ⟨0, 0, 0, 0⟩ blankModel
    partAnalyser rfl (by decide)
    (fun j hj => by
      have hj2 : j < 2 := hj
      refine ⟨"in.avi", ⟨[exampleFrame ' ', exampleFrame ' '], some 25⟩, ?_, by decide,
        by simp [exampleEnvironment], ?_, ?_⟩
      · interval_cases j <;> rfl
      · interval_cases j <;> decide
      · intro f hf
        simp only [List.mem_cons, List.mem_singleton, List.not_mem_nil, or_false] at hf
        rcases hf with rfl | rfl <;> interval_cases j <;> decide)

/-- A video session in which the key `q` is received after the first frame: `main` returns 0
from inside the session. -/
theorem video_session_quit (P : Parameters) (E : Environment) (r : RunState) (file : String)
    (video : Video) (frame : Frame) (rest : List Frame) (hv : P.video_input = true)
    (hfile : P.input_files.get? (r.f_n + 1).toNat = some file) (hname : 0 < file.length)
    (hopen : E.VideoCapture file = some video) (hframes : video.frames = frame :: rest)
    (hrange : outputsInRange P (r.f_n + 1).toNat = true)
    (hhog : hogRecordWritten P frame = true)
    (hal : alignedFaceWritten P (r.f_n + 1).toNat frame = true)
    (hq : quitKey P frame = true) :
    ∃ res, session P E r = some res ∧ res.returned = some 0 := by
  have hsrc := openSource_video P E r file video hv hfile hname hopen
  have hcond := outputsInRange_cond P (r.f_n + 1).toNat hrange
  obtain ⟨s1, hp, -⟩ := processFrame_completes P (resolveFps video.fps) (r.f_n + 1).toNat
    { frame_count := 0,
      camera := resolveIntrinsics P.cx_undefined P.fx_undefined r.camera frame.cols frame.rows,
      face_model := r.face_model, face_analyser := r.face_analyser, output_file := [],
      hog_output_file := [], aligned_files := [], imread_calls := [], pose_calls := [] }
    frame hhog hal
  have hloop := trackingLoop_quit P E (resolveFps video.fps) (r.f_n + 1).toNat rest
    r.curr_img.toNat frame _ s1 hp hq
  unfold session
  simp only [hsrc, hframes, List.head?_cons, List.tail_cons, hcond, Option.map_some',
    Option.getD_some, Bool.false_eq_true, if_false, hloop]
  exact ⟨_, rfl, rfl⟩

/-- C11, as stated, fails: in interactive mode, in a run on two videos that both open, with two
reports, the key `q` after the first frame of the first video makes `main` return 0 after one
session: the second video is never opened. -/
theorem main_quits_in_first_session :
    (twoVideoParameters false).input_files.length = 2
    ∧ (twoVideoParameters false).output_files.length = 2
    ∧ (∀ file ∈ (twoVideoParameters false).input_files,
        ((exampleEnvironment [exampleFrame 'q']).VideoCapture file).isSome = true)
    ∧ ∃ results, main (twoVideoParameters false) (exampleEnvironment [exampleFrame 'q'])
          ⟨0, 0, 0, 0⟩ blankModel partAnalyser = some (0, results)
      ∧ results.length = 1 := by
  refine ⟨rfl, rfl, ?_, ?_⟩
  · intro file hfile
    simp only [twoVideoParameters, List.mem_cons, List.mem_singleton, List.not_mem_nil,
      or_false, or_self] at hfile
    subst hfile
    simp [exampleEnvironment]
  · obtain ⟨res, hres, hret⟩ := video_session_quit
      ({ twoVideoParameters false with
          track_gaze := true
          cx_undefined := cx_undefined (Intrinsics.mk 0 0 0 0)
          fx_undefined := fx_undefined (Intrinsics.mk 0 0 0 0) } : Parameters)
      (exampleEnvironment [exampleFrame 'q'])
      { f_n := -1, curr_img := -1, camera := ⟨0, 0, 0, 0⟩, face_model := blankModel,
        face_analyser := partAnalyser }
      "in.avi" ⟨[exampleFrame 'q'], some 25⟩ (exampleFrame 'q') [] rfl rfl (by decide)
      (by simp [exampleEnvironment]) rfl (by rfl) (by rfl) (by rfl) (by decide)
    refine ⟨[res], ?_, rfl⟩
    unfold main
    rw [mainLoop]
    simp only [hres, hret]

/-- C12, amended: when the loop body has run for a frame, in interactive mode the key `r` makes
the loop go on with the model reset and nothing else cleared: the rows written so far are kept
and the frame counter is one more than before the frame, so the next row carries the next frame
number and time stamp; in quiet mode the loop goes on in the same way for any key, without the
reset. -/
theorem reset_key_resets_model_only (P : Parameters) (E : Environment) (fps_vid_in : ℚ)
    (f_n : Nat) (video_capture : List Frame) (curr_img : Nat) (frame next : Frame)
    (s s1 : SessionState) (hproc : processFrame P fps_vid_in f_n s frame = some (s1, none)) :
    (P.quiet_mode = false → frame.character_press = 'r' →
      trackingLoop P E fps_vid_in f_n video_capture curr_img (some frame) s
        = trackingLoop P E fps_vid_in f_n (nextFrame P E f_n video_capture curr_img).2.1
            (nextFrame P E f_n video_capture curr_img).2.2.1
            (nextFrame P E f_n video_capture curr_img).1
            { s1 with
                imread_calls :=
                  s1.imread_calls ++ (nextFrame P E f_n video_capture curr_img).2.2.2
                face_model := E.model_Reset frame.detected
                frame_count := s.frame_count + 1 })
    ∧ (P.quiet_mode = true →
      trackingLoop P E fps_vid_in f_n video_capture curr_img (some frame) s
        = trackingLoop P E fps_vid_in f_n (nextFrame P E f_n video_capture curr_img).2.1
            (nextFrame P E f_n video_capture curr_img).2.2.1
            (nextFrame P E f_n video_capture curr_img).1
            { s1 with
                imread_calls :=
                  s1.imread_calls ++ (nextFrame P E f_n video_capture curr_img).2.2.2
                frame_count := s.frame_count + 1 })
    ∧ s1.face_model = frame.detected
    ∧ s1.output_file = (writeRow P (frameRow P fps_vid_in s frame) s).output_file
    ∧ (frameRow P fps_vid_in
          { s1 with
              imread_calls :=
                s1.imread_calls ++ (nextFrame P E f_n video_capture curr_img).2.2.2
              face_model := E.model_Reset frame.detected
              frame_count := s.frame_count + 1 } next).take 2
        = [Cell.int ((s.frame_count : Int) + 2),
           Cell.num 9 (timeStamp P fps_vid_in (s.frame_count + 1))] := by
  obtain ⟨hcount, -, -, -⟩ := processFrame_frame P fps_vid_in f_n s s1 frame none hproc
  obtain ⟨hmodel, hrows⟩ := processFrame_model P fps_vid_in f_n s s1 frame hproc
  refine ⟨?_, ?_, hmodel, hrows, ?_⟩
  · intro hq hr
    rw [trackingLoop]
    simp only [hproc]
    rw [if_pos (by simp [hq, hr]), hmodel, hcount]
  · intro hq
    rw [trackingLoop]
    simp only [hproc]
    rw [if_neg (by simp [hq]), if_neg (by simp [hq]), hcount]
  · rw [frameRow_take_two]
    simp only [Nat.cast_add, Nat.cast_one, List.cons.injEq, Cell.int.injEq, and_true]
    omega

/-- C12, a witness of the amended statement: the key `r` after the first frame of an interactive
video session; the loop goes on with the reset model, the row of the first frame is kept and the
next row has frame number 2 and the time stamp of the second frame. -/
theorem reset_key_resets_model_only_witness :
    processFrame (videoParameters false) 25 0 firstFrameState (exampleFrame 'r')
        = some (afterFirstFrame 'r', none)
    ∧ trackingLoop (videoParameters false) (exampleEnvironment []) 25 0 [exampleFrame ' '] 0
          (some (exampleFrame 'r')) firstFrameState
        = trackingLoop (videoParameters false) (exampleEnvironment []) 25 0
            (nextFrame (videoParameters false) (exampleEnvironment []) 0 [exampleFrame ' '] 0).2.1
            (nextFrame (videoParameters false) (exampleEnvironment []) 0
              [exampleFrame ' '] 0).2.2.1
            (nextFrame (videoParameters false) (exampleEnvironment []) 0 [exampleFrame ' '] 0).1
            { afterFirstFrame 'r' with
                imread_calls :=
                  (afterFirstFrame 'r').imread_calls
                    ++ (nextFrame (videoParameters false) (exampleEnvironment []) 0
                          [exampleFrame ' '] 0).2.2.2
                face_model := (exampleEnvironment []).model_Reset (exampleFrame 'r').detected
                frame_count := firstFrameState.frame_count + 1 }
    ∧ (afterFirstFrame 'r').output_file
        = (writeRow (videoParameters false)
            (frameRow (videoParameters false) 25 firstFrameState (exampleFrame 'r'))
            firstFrameState).output_file
    ∧ (frameRow (videoParameters false) 25
          { afterFirstFrame 'r' with
              imread_calls :=
                (afterFirstFrame 'r').imread_calls
                  ++ (nextFrame (videoParameters false) (exampleEnvironment []) 0
                        [exampleFrame ' '] 0).2.2.2
              face_model := (exampleEnvironment []).model_Reset (exampleFrame 'r').detected
              frame_count := firstFrameState.frame_count + 1 } (exampleFrame ' ')).take 2
        = [Cell.int ((firstFrameState.frame_count : Int) + 2),
           Cell.num 9 (timeStamp (videoParameters false) 25 (firstFrameState.frame_count + 1))] :=
  ⟨rfl,
   (reset_key_resets_model_only (videoParameters false) (exampleEnvironment []) 25 0
      [exampleFrame ' '] 0 (exampleFrame 'r') (exampleFrame ' ') firstFrameState
      (afterFirstFrame 'r') rfl).1 rfl rfl,
   (reset_key_resets_model_only (videoParameters false) (exampleEnvironment []) 25 0
      [exampleFrame ' '] 0 (exampleFrame 'r') (exampleFrame ' ') firstFrameState
      (afterFirstFrame 'r') rfl).2.2.2.1,
   (reset_key_resets_model_only (videoParameters false) (exampleEnvironment []) 25 0
      [exampleFrame ' '] 0 (exampleFrame 'r') (exampleFrame ' ') firstFrameState
      (afterFirstFrame 'r') rfl).2.2.2.2⟩

/-- C12, as stated, fails: in an interactive session on a video of two frames at 25 frames a
second, with the key `r` received after the first frame, the second row has frame number 2 and
time stamp 1/25: the frame counter was not cleared, or the row would have frame number 1 and
time stamp 0. -/
theorem reset_key_keeps_frame_counter :
    (videoParameters false).quiet_mode = false
    ∧ (exampleFrame 'r').character_press = 'r'
    ∧ ∃ res row, session (videoParameters false)
          (exampleEnvironment [exampleFrame 'r', exampleFrame ' ']) startRun = some res
      ∧ res.state.output_file.length = 2
      ∧ res.state.output_file.get? 1 = some row
      ∧ row.take 2 = [Cell.int 2, Cell.num 9 (1 / 25)]
      ∧ row.take 2 ≠ [Cell.int 1, Cell.num 9 0] := by
  refine ⟨rfl, rfl, ?_⟩
  obtain ⟨-, res, hres, -, -, hlen, hrows⟩ := video_session_rows (videoParameters false)
    (exampleEnvironment [exampleFrame 'r', exampleFrame ' ']) startRun "in.avi"
    ⟨[exampleFrame 'r', exampleFrame ' '], some 25⟩ rfl rfl (by decide)
    (by simp [exampleEnvironment]) rfl (by rfl)
    (by
      intro f hf
      simp only [List.mem_cons, List.mem_singleton, List.not_mem_nil, or_false] at hf
      rcases hf with rfl | rfl <;> decide)
  obtain ⟨row, hrow, htake⟩ := hrows 1 (by decide)
  have hfps : resolveFps (some (25 : ℚ)) = 25 := by unfold resolveFps; norm_num
  simp only [hfps] at htake
  have htake2 : row.take 2 = [Cell.int 2, Cell.num 9 (1 / 25)] := by
    rw [htake]; norm_num
  refine ⟨res, row, hres, hlen, hrow, htake2, ?_⟩
  rw [htake2]
  intro h
  simp only [List.cons.injEq, Cell.int.injEq, and_true] at h
  omega

end FeatureExtraction
